import Mathlib

/-!
# CollisionPick: shape building, readiness and contact queries

A shallow embedding of `interface/src/raypick/CollisionPick.cpp`; the receive
loop of `domain/src/main.cpp` follows in the namespace `DomainServer`.

* `glm::vec3` is `Vec3 F` over a scalar type `F`; the float operations the
  source uses (`*`, `/`, `<`, `==`, the literals `0.5f`, `1.0f`, `1.0e-6f`)
  are the fields of `FloatOps F`, so every theorem holds for whatever the
  arithmetic does.  `==` is a Boolean relation with no law assumed.
* `QVector` is `List`; `operator[]` outside the range is undefined behaviour,
  which the embedding reports as `none`.
* `int` index values are `Int`; `int`/`uint32_t` sizes are `Nat`, and the one
  signed accumulation of the source (`totalNumVertices`) is checked against
  `INT32_MAX`, overflow being undefined behaviour (`none`).
* The callbacks are records passed from call to call; the calls of the shape
  manager are recorded in the order they are made, the local callback of a
  query being constructed once and destroyed when the query returns.
-/

namespace CollisionPick

/-! ## Data model -/

/-- The three float components of a `glm::vec3`. -/
structure Vec3 (F : Type) where
  x : F
  y : F
  z : F
deriving DecidableEq

/-- The float operations used by `CollisionPick.cpp`, and `Extents`, whose
declaration is outside the translated sources: `extentsSize pts` is
`extents.size()` of a default-constructed `Extents` after `addPoint` was
called with the points `pts`, in order. -/
class FloatOps (F : Type) where
  mul : F → F → F
  div : F → F → F
  lt : F → F → Bool
  eq : F → F → Bool
  half : F
  one : F
  epsilon : F
  extentsSize : List (Vec3 F) → Vec3 F

namespace Vec3

variable {F : Type} [FloatOps F]

/-- Component-wise product, `a * b` on `glm::vec3`. -/
def mul (a b : Vec3 F) : Vec3 F :=
  ⟨FloatOps.mul a.x b.x, FloatOps.mul a.y b.y, FloatOps.mul a.z b.z⟩

/-- Component-wise quotient, `a / b` on `glm::vec3`. -/
def div (a b : Vec3 F) : Vec3 F :=
  ⟨FloatOps.div a.x b.x, FloatOps.div a.y b.y, FloatOps.div a.z b.z⟩

/-- Scalar times vector, `c * v`. -/
def scale (c : F) (v : Vec3 F) : Vec3 F :=
  ⟨FloatOps.mul c v.x, FloatOps.mul c v.y, FloatOps.mul c v.z⟩

/-- Value equality, `a == b` on `glm::vec3`: every component compares equal. -/
def eq (a b : Vec3 F) : Bool :=
  FloatOps.eq a.x b.x && FloatOps.eq a.y b.y && FloatOps.eq a.z b.z

end Vec3

/-- Modelled from the spec: `enum ShapeType` is declared in `ShapeInfo.h`,
outside the translated sources.  The spec's closed set of kinds, in the
enumeration order the source relies on (`SIMPLE_HULL`, `SIMPLE_COMPOUND`,
`STATIC_MESH` are the kinds from `SHAPE_TYPE_SIMPLE_HULL` to
`SHAPE_TYPE_STATIC_MESH`); `NONE` stands for every other enumerator. -/
inductive ShapeType where
  | NONE
  | BOX
  | COMPOUND
  | SIMPLE_HULL
  | SIMPLE_COMPOUND
  | STATIC_MESH
deriving DecidableEq

abbrev PointList (F : Type) := List (Vec3 F)

abbrev PointCollection (F : Type) := List (PointList F)

/-- The fields of `ShapeInfo` that `computeShapeInfo` reads or writes. -/
structure ShapeInfo (F : Type) where
  type : ShapeType
  halfExtents : Vec3 F
  url : String
  pointCollection : PointCollection F
  triangleIndices : List Int
deriving DecidableEq

/-- A part of a sub-mesh: its triangle and quad index lists (`QVector<int>`). -/
structure FBXMeshPart where
  triangleIndices : List Int
  quadIndices : List Int
deriving DecidableEq

/-- A sub-mesh: vertices and parts. -/
structure FBXMesh (F : Type) where
  vertices : List (Vec3 F)
  parts : List FBXMeshPart
deriving DecidableEq

/-- The mesh asset; `unscaledMeshExtentsSize` is
`getUnscaledMeshExtents().size()`, computed outside the translated sources. -/
structure FBXGeometry (F : Type) where
  meshes : List (FBXMesh F)
  unscaledMeshExtentsSize : Vec3 F
deriving DecidableEq

/-- A `GeometryResource`: its URL, whether it is loaded, and its geometry. -/
structure GeometryResource (F : Type) where
  url : String
  loaded : Bool
  geometry : FBXGeometry F
deriving DecidableEq

/-- The sentinels of the index buffer, `END_OF_MESH_PART` and `END_OF_MESH`,
constants declared in `ShapeInfo.h`, outside the translated sources. -/
structure Sentinels where
  END_OF_MESH_PART : Int
  END_OF_MESH : Int
deriving DecidableEq

/-- Modelled from the spec: `ShapeInfo::setParams` (declared in `ShapeInfo.h`,
outside the translated sources) stores the kind, the canonical size and the
source identifier of the descriptor; point lists and index buffer stay. -/
def setParams {F : Type} (shapeInfo : ShapeInfo F) (type : ShapeType) (halfExtents : Vec3 F)
    (url : String) : ShapeInfo F :=
  { shapeInfo with type := type, halfExtents := halfExtents, url := url }

/-! ## `computeShapeInfo`, the `SHAPE_TYPE_COMPOUND` branch (lines 45-132) -/

section Compound

variable {F : Type} [FloatOps F]

/-- Read `vertices[index]` for an `int` index; out of range is `none`. -/
def vertexAt (vertices : List (Vec3 F)) (index : Int) : Option (Vec3 F) :=
  if 0 ≤ index then vertices[index.toNat]? else none

/-- The test of `QVector::contains`: some element compares `==` to `p`. -/
def contains (points : PointList F) (p : Vec3 F) : Bool :=
  points.any (fun e => Vec3.eq e p)

/-- One `if (!pointsInPart.contains(p)) { pointsInPart << p; }`. -/
def addUnique (points : PointList F) (p : Vec3 F) : PointList F :=
  if contains points p then points else points ++ [p]

/-- The triangle loop, lines 69-82: `for (j = start; j < numIndices; j += 3)`.
`fuel` bounds the number of iterations; running out of it is `none`. -/
def triangleLoop (vertices : List (Vec3 F)) (triangleIndices : List Int) (numIndices : Nat) :
    Nat → Nat → PointList F → Option (PointList F)
  | 0, j, points => if j < numIndices then none else some points
  | fuel + 1, j, points =>
    if j < numIndices then do
      let p0 ← vertexAt vertices (← triangleIndices[j]?)
      let p1 ← vertexAt vertices (← triangleIndices[j + 1]?)
      let p2 ← vertexAt vertices (← triangleIndices[j + 2]?)
      triangleLoop vertices triangleIndices numIndices fuel (j + 3)
        (addUnique (addUnique (addUnique points p0) p1) p2)
    else some points

/-- The quad loop, lines 90-107: `for (j = start; j < numIndices; j += 4)`. -/
def quadLoop (vertices : List (Vec3 F)) (quadIndices : List Int) (numIndices : Nat) :
    Nat → Nat → PointList F → Option (PointList F)
  | 0, j, points => if j < numIndices then none else some points
  | fuel + 1, j, points =>
    if j < numIndices then do
      let p0 ← vertexAt vertices (← quadIndices[j]?)
      let p1 ← vertexAt vertices (← quadIndices[j + 1]?)
      let p2 ← vertexAt vertices (← quadIndices[j + 2]?)
      let p3 ← vertexAt vertices (← quadIndices[j + 3]?)
      quadLoop vertices quadIndices numIndices fuel (j + 4)
        (addUnique (addUnique (addUnique (addUnique points p0) p1) p2) p3)
    else some points

/-- The points collected for one part, lines 64-107, starting from the list
`pointsInPart` refers to. -/
def collectPart (mesh : FBXMesh F) (meshPart : FBXMeshPart) (pointsInPart : PointList F) :
    Option (PointList F) := do
  let numIndices := meshPart.triangleIndices.length
  let numIndices := numIndices - numIndices % 3
  let pointsInPart ← triangleLoop mesh.vertices meshPart.triangleIndices numIndices numIndices 0
    pointsInPart
  let numIndices := meshPart.quadIndices.length
  let numIndices := numIndices - numIndices % 4
  quadLoop mesh.vertices meshPart.quadIndices numIndices numIndices 0 pointsInPart

/-- The body of the loop over the parts, lines 60-114, on the pair
`(pointCollection, i)`: push an empty list, fill `pointCollection[i]`, pop it
again when it stayed empty, else advance `i`. -/
def partStep (mesh : FBXMesh F) (state : PointCollection F × Nat) (meshPart : FBXMeshPart) :
    Option (PointCollection F × Nat) := do
  let pointCollection := state.1 ++ [[]]
  let i := state.2
  let pointsInPart ← pointCollection[i]?
  let pointsInPart ← collectPart mesh meshPart pointsInPart
  let pointCollection := pointCollection.set i pointsInPart
  if pointsInPart.length = 0 then
    some (pointCollection.dropLast, i)
  else
    some (pointCollection, i + 1)

/-- The loop over the parts of one sub-mesh, line 59. -/
def partsLoop (mesh : FBXMesh F) :
    List FBXMeshPart → PointCollection F × Nat → Option (PointCollection F × Nat)
  | [], state => some state
  | meshPart :: rest, state => do
    let state ← partStep mesh state meshPart
    partsLoop mesh rest state

/-- The loop over the sub-meshes, line 57. -/
def meshesLoop :
    List (FBXMesh F) → PointCollection F × Nat → Option (PointCollection F × Nat)
  | [], state => some state
  | mesh :: rest, state => do
    let state ← partsLoop mesh mesh.parts state
    meshesLoop rest state

/-- The scaling loop of the compound branch, lines 126-131: every
`pointCollection[i][j]` is overwritten, in place, by `scaleToFit * point`. -/
def scaleInPlace (scaleToFit : Vec3 F) (pointCollection : PointCollection F) :
    PointCollection F :=
  pointCollection.map (fun points => points.map (fun p => Vec3.mul scaleToFit p))

/-- The `SHAPE_TYPE_COMPOUND` branch, lines 45-132. -/
def computeCompound (dimensions : Vec3 F) (shapeInfo : ShapeInfo F)
    (resource : GeometryResource F) : Option (ShapeInfo F) := do
  let state ← meshesLoop resource.geometry.meshes ([], 0)
  let scaleToFit := Vec3.div dimensions resource.geometry.unscaledMeshExtentsSize
  let pointCollection := scaleInPlace scaleToFit state.1
  some (setParams { shapeInfo with pointCollection := pointCollection }
    ShapeType.COMPOUND dimensions resource.url)

end Compound

/-! ## `computeShapeInfo`, the branch of the simple kinds (lines 133-262) -/

section Simple

variable {F : Type} [FloatOps F]

/-- Largest value of the 32-bit `int` that holds `totalNumVertices`. -/
def INT32_MAX : Nat := 2147483647

/-- The ceiling of line 142, `const int32_t MAX_VERTICES_PER_STATIC_MESH = 1e6;`. -/
def MAX_VERTICES_PER_STATIC_MESH : Nat := 1000000

/-- The ceiling of line 152, `const int MAX_ALLOWED_MESH_COUNT = 1000;`. -/
def MAX_ALLOWED_MESH_COUNT : Nat := 1000

/-- The accumulation of lines 138-141, `totalNumVertices += mesh.vertices.size()`
in a signed 32-bit `int`; an overflow is `none`. -/
def countVertices : List (FBXMesh F) → Nat → Option Nat
  | [], totalNumVertices => some totalNumVertices
  | mesh :: rest, totalNumVertices =>
    if totalNumVertices + mesh.vertices.length ≤ INT32_MAX then
      countVertices rest (totalNumVertices + mesh.vertices.length)
    else none

/-- The copy loop of lines 194-200 on `(points, extents)`: each vertex is
pushed to `points` and added to `extents` (kept as the list of added points). -/
def copyPoints : List (Vec3 F) → PointList F × List (Vec3 F) → PointList F × List (Vec3 F)
  | [], state => state
  | point :: rest, state => copyPoints rest (state.1 ++ [point], state.2 ++ [point])

/-- The inner loop of lines 211-215: every index of the part is pushed. -/
def copyIndices : List Int → List Int → List Int
  | [], triangleIndices => triangleIndices
  | index :: rest, triangleIndices => copyIndices rest (triangleIndices ++ [index])

/-- The loop over the parts of lines 210-216 (`SHAPE_TYPE_STATIC_MESH`). -/
def staticMeshParts : List FBXMeshPart → List Int → List Int
  | [], triangleIndices => triangleIndices
  | meshPart :: rest, triangleIndices =>
    staticMeshParts rest (copyIndices meshPart.triangleIndices triangleIndices)

/-- Insertion into a `std::set<int32_t>`, kept as the ascending list of its
elements: a value already present is not inserted again. -/
def setInsert (index : Int) : List Int → List Int
  | [] => [index]
  | head :: tail =>
    if index < head then index :: head :: tail
    else if index = head then head :: tail
    else head :: setInsert index tail

/-- The loop of lines 227-231: every index of the part, up to `cend()`, is
inserted into `uniqueIndices`. -/
def insertIndices : List Int → List Int → List Int
  | [], uniqueIndices => uniqueIndices
  | index :: rest, uniqueIndices => insertIndices rest (setInsert index uniqueIndices)

/-- The values pushed for one part before its terminator, lines 221-237:
`uniqueIndices` in ascending order.  `numIndices` (lines 222-225) is computed
and truncated by the source but read by no later statement. -/
def uniquePartIndices (meshPart : FBXMeshPart) : List Int :=
  let numIndices := meshPart.triangleIndices.length
  let _numIndices := numIndices - numIndices % 3
  insertIndices meshPart.triangleIndices []

/-- The loop over the parts of lines 219-240 (`SHAPE_TYPE_SIMPLE_COMPOUND`). -/
def simpleCompoundParts (s : Sentinels) : List FBXMeshPart → List Int → List Int
  | [], triangleIndices => triangleIndices
  | meshPart :: rest, triangleIndices =>
    simpleCompoundParts s rest
      (copyIndices (uniquePartIndices meshPart) triangleIndices ++ [s.END_OF_MESH_PART])

/-- The locals of the loop over the sub-meshes, lines 159-172. -/
structure BuildState (F : Type) where
  pointCollection : PointCollection F
  triangleIndices : List Int
  extents : List (Vec3 F)
  meshCount : Nat
  pointListIndex : Nat
deriving DecidableEq

/-- The body of the loop over the sub-meshes, lines 174-244.  `points` refers
to `pointCollection[pointListIndex]` as `pointListIndex` was before line 185;
`meshIndexOffset` (line 193) is computed and read by no later statement. -/
def meshStep (s : Sentinels) (type : ShapeType) (state : BuildState F) (mesh : FBXMesh F) :
    Option (BuildState F) :=
  if mesh.vertices.length = 0 then
    some state
  else do
    let vertices := mesh.vertices
    let slot := state.pointListIndex
    let points ← state.pointCollection[slot]?
    let pointListIndex :=
      if type = ShapeType.SIMPLE_COMPOUND then state.pointListIndex + 1 else state.pointListIndex
    let _meshIndexOffset := points.length
    let copied := copyPoints vertices (points, state.extents)
    let pointCollection := state.pointCollection.set slot copied.1
    let triangleIndices :=
      if type = ShapeType.STATIC_MESH then
        staticMeshParts mesh.parts state.triangleIndices
      else if type = ShapeType.SIMPLE_COMPOUND then
        simpleCompoundParts s mesh.parts state.triangleIndices ++ [s.END_OF_MESH]
      else state.triangleIndices
    some { pointCollection := pointCollection
           triangleIndices := triangleIndices
           extents := copied.2
           meshCount := state.meshCount + 1
           pointListIndex := pointListIndex }

/-- The loop over the sub-meshes, line 173. -/
def simpleMeshesLoop (s : Sentinels) (type : ShapeType) :
    List (FBXMesh F) → BuildState F → Option (BuildState F)
  | [], state => some state
  | mesh :: rest, state => do
    let state ← meshStep s type state mesh
    simpleMeshesLoop s type rest state

/-- The scale of lines 248-254: `dimensions / extentsSize`, with 1 on every
axis whose extent is below `1.0e-6f`. -/
def computeScaleToFit (dimensions extentsSize : Vec3 F) : Vec3 F :=
  let scaleToFit := Vec3.div dimensions extentsSize
  let scaleToFit :=
    if FloatOps.lt extentsSize.x FloatOps.epsilon then { scaleToFit with x := FloatOps.one }
    else scaleToFit
  let scaleToFit :=
    if FloatOps.lt extentsSize.y FloatOps.epsilon then { scaleToFit with y := FloatOps.one }
    else scaleToFit
  if FloatOps.lt extentsSize.z FloatOps.epsilon then { scaleToFit with z := FloatOps.one }
  else scaleToFit

/-- The inner loop of lines 256-258 on one list: `points[i] = points[i] * scaleToFit`. -/
def scalePoints (scaleToFit : Vec3 F) (points : PointList F) : PointList F :=
  points.map (fun p => Vec3.mul p scaleToFit)

/-- The loop of lines 255-259, `for (auto points : pointCollection)`: the loop
variable is declared by value, so each iteration works on a copy of the list
(a `QVector` detaches on the first write).  The result is the pair of the
collection as the loop leaves it and of the scaled copies, which are destroyed
at the end of their iteration. -/
def scaleLoop (scaleToFit : Vec3 F) (pointCollection : PointCollection F) :
    PointCollection F × PointCollection F :=
  (pointCollection, pointCollection.map (scalePoints scaleToFit))

/-- The branch of lines 133-262, for a `type` from `SHAPE_TYPE_SIMPLE_HULL` to
`SHAPE_TYPE_STATIC_MESH`.  `invRegistrationOffset` (line 137) and the calls of
`reserve` have no effect on the descriptor and are left out. -/
def computeSimple (s : Sentinels) (type : ShapeType) (dimensions : Vec3 F)
    (shapeInfo : ShapeInfo F) (resource : GeometryResource F) : Option (ShapeInfo F) := do
  let meshes := resource.geometry.meshes
  let totalNumVertices ← countVertices meshes 0
  if totalNumVertices > MAX_VERTICES_PER_STATIC_MESH then
    some (setParams shapeInfo ShapeType.BOX (Vec3.scale FloatOps.half dimensions) "")
  else
    let numMeshes := meshes.length
    if numMeshes > MAX_ALLOWED_MESH_COUNT then
      some (setParams shapeInfo ShapeType.BOX (Vec3.scale FloatOps.half dimensions) "")
    else do
      let pointCollection : PointCollection F :=
        if type = ShapeType.SIMPLE_COMPOUND then List.replicate numMeshes [] else [[]]
      let state ← simpleMeshesLoop s type meshes
        { pointCollection := pointCollection
          triangleIndices := []
          extents := []
          meshCount := 0
          pointListIndex := 0 }
      let extentsSize := FloatOps.extentsSize state.extents
      let scaleToFit := computeScaleToFit dimensions extentsSize
      let pointCollection := (scaleLoop scaleToFit state.pointCollection).1
      some (setParams
        { shapeInfo with pointCollection := pointCollection
                         triangleIndices := state.triangleIndices }
        type (Vec3.scale FloatOps.half dimensions) resource.url)

end Simple

/-! ## `computeShapeInfo` and `isShapeInfoReady` -/

section Ready

variable {F : Type} [FloatOps F]

/-- The fields of `CollisionRegion` the source uses: `modelURL`, the scale of
`transform` and `shapeInfo`. -/
structure CollisionRegion (F : Type) where
  modelURL : String
  transformScale : Vec3 F
  shapeInfo : ShapeInfo F
deriving DecidableEq

/-- The function `CollisionPick::computeShapeInfo`, lines 34-263.  The result is
the `shapeInfo` the call leaves behind; `none` is undefined behaviour.  A kind
outside both branches leaves the descriptor as it is. -/
def computeShapeInfo (s : Sentinels) (pick : CollisionRegion F) (shapeInfo : ShapeInfo F)
    (resource : GeometryResource F) : Option (ShapeInfo F) :=
  let type := shapeInfo.type
  let dimensions := pick.transformScale
  match type with
  | ShapeType.COMPOUND => computeCompound dimensions shapeInfo resource
  | ShapeType.SIMPLE_HULL => computeSimple s type dimensions shapeInfo resource
  | ShapeType.SIMPLE_COMPOUND => computeSimple s type dimensions shapeInfo resource
  | ShapeType.STATIC_MESH => computeSimple s type dimensions shapeInfo resource
  | ShapeType.NONE => some shapeInfo
  | ShapeType.BOX => some shapeInfo

/-- Lines 20-22: `_cachedResource` after the refresh, fetched again when it is
null or belongs to another URL.  `getCollisionGeometryResource` (of
`ModelCache`) is declared outside the translated sources. -/
def refreshResource (getCollisionGeometryResource : String → GeometryResource F)
    (cachedResource : Option (GeometryResource F)) (pick : CollisionRegion F) :
    GeometryResource F :=
  match cachedResource with
  | none => getCollisionGeometryResource pick.modelURL
  | some cached =>
    if cached.url ≠ pick.modelURL then getCollisionGeometryResource pick.modelURL
    else cached

/-- What one call of `isShapeInfoReady` leaves behind: the returned flag, the
pick, `_cachedResource`, and how many times `computeShapeInfo` was called. -/
structure ReadyResult (F : Type) where
  ready : Bool
  pick : CollisionRegion F
  cachedResource : Option (GeometryResource F)
  builderCalls : Nat
deriving DecidableEq

/-- The function `CollisionPick::isShapeInfoReady`, lines 18-32.  `shouldComputeShapeInfo`
(a member of `CollisionRegion`) and `getCollisionGeometryResource` (of
`ModelCache`) are declared outside the translated sources and are taken as
arguments. -/
def isShapeInfoReady (s : Sentinels) (shouldComputeShapeInfo : CollisionRegion F → Bool)
    (getCollisionGeometryResource : String → GeometryResource F)
    (cachedResource : Option (GeometryResource F)) (pick : CollisionRegion F) :
    Option (ReadyResult F) :=
  if shouldComputeShapeInfo pick then
    let resource := refreshResource getCollisionGeometryResource cachedResource pick
    if resource.loaded then do
      let shapeInfo ← computeShapeInfo s pick pick.shapeInfo resource
      some { ready := false
             pick := { pick with shapeInfo := shapeInfo }
             cachedResource := some resource
             builderCalls := 1 }
    else
      some { ready := false, pick := pick, cachedResource := some resource, builderCalls := 0 }
  else
    some { ready := true, pick := pick, cachedResource := cachedResource, builderCalls := 0 }

end Ready

/-! ## The contact callbacks and the queries (lines 269-357) -/

section Callbacks

variable {F M B G ID H SM : Type}

/-- What the callbacks read of a `btCollisionObject`: its identity (its
address), whether `dynamic_cast<const btRigidBody*>` succeeds on it, and what
`getMotionState()` returns (`none` for a null pointer). -/
structure CollisionObject (M : Type) where
  address : Nat
  isRigidBody : Bool
  motionState : Option M

/-- The arguments of `addSingleResult` that the source reads: the two local
points of the manifold point and the collision objects of the two wrappers. -/
structure ContactPair (M B : Type) where
  m_localPointA : B
  m_localPointB : B
  colObj0 : CollisionObject M
  colObj1 : CollisionObject M

/-- An element of `intersectingObjects`, built by `emplace_back` at line 356
from the object id and the two converted points. -/
structure Intersection (ID G : Type) where
  objectID : ID
  point : G
  otherPoint : G
deriving DecidableEq

/-- The owner kind `T` of a callback: whether `dynamic_cast<const T*>` succeeds
on a motion state, and `getObjectID()` of the motion state. Both belong to
classes declared outside the translated sources. -/
structure OwnerKind (M ID : Type) where
  isKind : M → Bool
  getObjectID : M → ID

/-- The members of a callback: `collisionObject` (its address and its collision
shape) and `intersectingObjects`. The world transform of lines 310-314 is read
by no function of the source and is left out. -/
structure Callback (H ID G : Type) where
  collisionObjectAddress : Nat
  collisionShape : H
  intersectingObjects : List (Intersection ID G)

/-- The function `AllObjectMotionStatesCallback::checkOrAddCollidingState`,
lines 349-357. `bulletToGLM` is declared outside the translated sources. -/
def checkOrAddCollidingState (kind : OwnerKind M ID) (bulletToGLM : B → G)
    (callback : Callback H ID G) (otherMotionState : Option M) (point otherPoint : B) :
    Callback H ID G :=
  match otherMotionState with
  | none => callback
  | some candidate =>
    if kind.isKind candidate then
      { callback with
        intersectingObjects := callback.intersectingObjects ++
          [⟨kind.getObjectID candidate, bulletToGLM point, bulletToGLM otherPoint⟩] }
    else callback

/-- The function `RigidBodyFilterResultCallback::addSingleResult`, lines
323-346, as the change it makes to the callback (it always returns 0). -/
def addSingleResult (kind : OwnerKind M ID) (bulletToGLM : B → G)
    (callback : Callback H ID G) (pair : ContactPair M B) : Callback H ID G :=
  let chosen : CollisionObject M × B × B :=
    if pair.colObj0.address = callback.collisionObjectAddress then
      (pair.colObj1, pair.m_localPointA, pair.m_localPointB)
    else
      (pair.colObj0, pair.m_localPointB, pair.m_localPointA)
  let otherBody := chosen.1
  let point := chosen.2.1
  let otherPoint := chosen.2.2
  if otherBody.isRigidBody then
    checkOrAddCollidingState kind bulletToGLM callback otherBody.motionState point otherPoint
  else callback

/-- The call of `contactTest` at lines 277 and 294, seen from the callback: the
engine calls `addSingleResult` once per contact pair it reports, in order. -/
def contactTest (kind : OwnerKind M ID) (bulletToGLM : B → G)
    (reported : List (ContactPair M B)) (callback : Callback H ID G) : Callback H ID G :=
  reported.foldl (addSingleResult kind bulletToGLM) callback

/-- A call of the shape manager made by a callback. -/
inductive ShapeEvent (H : Type) where
  | getShape (shape : H)
  | releaseShape (shape : H)
deriving DecidableEq

/-- The two functions of `ShapeManager` the callbacks call; the class is
declared outside the translated sources. `getShape` returns the manager after
the call and the shape handle. -/
structure ShapeManagerOps (F SM H : Type) where
  getShape : SM → ShapeInfo F → SM × H
  releaseShape : SM → H → SM

/-- The shape manager together with the record of the calls made to it. -/
structure Manager (SM H : Type) where
  state : SM
  events : List (ShapeEvent H)

/-- The constructor of `RigidBodyFilterResultCallback`, lines 304-315: the
shape is taken from the shape manager and set on `collisionObject`. -/
def construct (ops : ShapeManagerOps F SM H) (manager : Manager SM H)
    (shapeInfo : ShapeInfo F) (address : Nat) : Manager SM H × Callback H ID G :=
  let got := ops.getShape manager.state shapeInfo
  (⟨got.1, manager.events ++ [ShapeEvent.getShape got.2]⟩, ⟨address, got.2, []⟩)

/-- The destructor of `RigidBodyFilterResultCallback`, lines 318-320: the
collision shape of `collisionObject` is released. -/
def destruct (ops : ShapeManagerOps F SM H) (manager : Manager SM H)
    (callback : Callback H ID G) : Manager SM H :=
  ⟨ops.releaseShape manager.state callback.collisionShape,
    manager.events ++ [ShapeEvent.releaseShape callback.collisionShape]⟩

/-- A `CollisionPickResult`: default-constructed (lines 272 and 289), or built
from the pick and the entity and avatar intersections (lines 279 and 296). -/
inductive CollisionPickResult (F ID G : Type) where
  | empty
  | found (pick : CollisionRegion F) (entityIntersections : List (Intersection ID G))
      (avatarIntersections : List (Intersection ID G))

/-- What a query leaves behind: its result, what `isShapeInfoReady` left, and
the shape manager. -/
structure QueryOutcome (F SM H ID G : Type) where
  result : CollisionPickResult F ID G
  ready : ReadyResult F
  manager : Manager SM H

/-- The collaborators of a query that are outside the translated sources:
`shouldComputeShapeInfo`, `getCollisionGeometryResource`, the shape manager,
`bulletToGLM`, and the contact pairs the collision world reports for a probe. -/
structure Collaborators (F M B G ID H SM : Type) where
  shouldComputeShapeInfo : CollisionRegion F → Bool
  getCollisionGeometryResource : String → GeometryResource F
  shapeManager : ShapeManagerOps F SM H
  bulletToGLM : B → G
  reported : Callback H ID G → List (ContactPair M B)

variable [FloatOps F]

/-- The common body of `getEntityIntersection` and `getAvatarIntersection`,
lines 269-297, up to the construction of the result: the early return when the
shape is not ready, else the callback, constructed in place as a local object
(one constructor call), the contact test, and the destructor of the callback
when the function returns. `address` is the address of the local callback's
`collisionObject`. -/
def runQuery (s : Sentinels) (c : Collaborators F M B G ID H SM) (kind : OwnerKind M ID)
    (address : Nat) (manager : Manager SM H) (cachedResource : Option (GeometryResource F))
    (pick : CollisionRegion F) :
    Option (ReadyResult F × Manager SM H × Option (List (Intersection ID G))) := do
  let ready ← isShapeInfoReady s c.shouldComputeShapeInfo c.getCollisionGeometryResource
    cachedResource pick
  if !ready.ready then
    some (ready, manager, none)
  else
    let constructed : Manager SM H × Callback H ID G :=
      construct c.shapeManager manager ready.pick.shapeInfo address
    let callback := contactTest kind c.bulletToGLM (c.reported constructed.2) constructed.2
    let intersectingObjects := callback.intersectingObjects
    let manager := destruct c.shapeManager constructed.1 callback
    some (ready, manager, some intersectingObjects)

/-- The function `CollisionPick::getEntityIntersection`, lines 269-280, for the
owner kind `EntityMotionState`. -/
def getEntityIntersection (s : Sentinels) (c : Collaborators F M B G ID H SM)
    (entityKind : OwnerKind M ID) (address : Nat) (manager : Manager SM H)
    (cachedResource : Option (GeometryResource F)) (pick : CollisionRegion F) :
    Option (QueryOutcome F SM H ID G) := do
  let run ← runQuery s c entityKind address manager cachedResource pick
  match run.2.2 with
  | none => some ⟨CollisionPickResult.empty, run.1, run.2.1⟩
  | some intersectingObjects =>
    some ⟨CollisionPickResult.found run.1.pick intersectingObjects [], run.1, run.2.1⟩

/-- The function `CollisionPick::getAvatarIntersection`, lines 286-297, for the
owner kind `AvatarMotionState`. -/
def getAvatarIntersection (s : Sentinels) (c : Collaborators F M B G ID H SM)
    (avatarKind : OwnerKind M ID) (address : Nat) (manager : Manager SM H)
    (cachedResource : Option (GeometryResource F)) (pick : CollisionRegion F) :
    Option (QueryOutcome F SM H ID G) := do
  let run ← runQuery s c avatarKind address manager cachedResource pick
  match run.2.2 with
  | none => some ⟨CollisionPickResult.empty, run.1, run.2.1⟩
  | some intersectingObjects =>
    some ⟨CollisionPickResult.found run.1.pick [] intersectingObjects, run.1, run.2.1⟩

end Callbacks

end CollisionPick

/-!
# Domain server: the reply to a check-in

A shallow embedding of the receive loop of `domain/src/main.cpp` (lines 63-92).
Bytes are natural numbers; `broadcastPacket` is the list of the bytes written
into it, and a write past its `MAX_PACKET_SIZE` bytes is `none`.
-/

namespace DomainServer

/-- The size of `broadcastPacket`, `const int MAX_PACKET_SIZE = 1500;` (line 35). -/
def MAX_PACKET_SIZE : Nat := 1500

/-- The members of an `Agent` that `main` reads or writes; `S` is the type of
the socket addresses. -/
structure Agent (S : Type) where
  type : Nat
  publicSocket : S
  localSocket : S
  lastRecvTimeUsecs : Nat
deriving DecidableEq

/-- The functions `main` calls that are declared outside the translated
sources: `unpackSocket`, `packSocket` (given as the bytes it writes, its return
value being their number), `Agent::matches`, `AgentList::addOrUpdateAgent` and
`usecTimestampNow`. -/
structure Environment (S : Type) where
  unpackSocket : List Nat → S
  packSocket : S → List Nat
  agentMatches : Agent S → S → S → Nat → Bool
  addOrUpdateAgent : List (Agent S) → S → S → Nat → List (Agent S)
  usecTimestampNow : Nat

/-- The loop over the agents, lines 73-84, on the bytes written from
`startPointer` on: an agent that does not match the sender is written as its
type byte and its two packed sockets; the sender's own entry only has its
`lastRecvTimeUsecs` set. The result is the bytes written and the agents. -/
def writeAgents {S : Type} (env : Environment S) (agentPublicAddress agentLocalAddress : S)
    (agentType : Nat) : List (Agent S) → List Nat → List Nat × List (Agent S)
  | [], written => (written, [])
  | agent :: rest, written =>
    if !env.agentMatches agent agentPublicAddress agentLocalAddress agentType then
      let written := written ++ [agent.type]
      let written := written ++ env.packSocket agent.publicSocket
      let written := written ++ env.packSocket agent.localSocket
      let after := writeAgents env agentPublicAddress agentLocalAddress agentType rest written
      (after.1, agent :: after.2)
    else
      let after := writeAgents env agentPublicAddress agentLocalAddress agentType rest written
      (after.1, { agent with lastRecvTimeUsecs := env.usecTimestampNow } :: after.2)

/-- A call of `send`: the destination and the bytes sent. -/
structure Sent (S : Type) where
  address : S
  bytes : List Nat
deriving DecidableEq

/-- One pass of the body of `while (true)` in which `receive` returned a packet,
lines 64-91: `packetData` is the receive buffer, `agentPublicAddress` the
sender. The result is the agent list and the call of `send`, if one is made.
`send` is given `broadcastPacket`, which starts with the byte `D` (68), and the
length `packetBytesWithoutLeadingChar`. -/
def checkIn {S : Type} (env : Environment S) (agents : List (Agent S)) (agentPublicAddress : S)
    (packetData : List Nat) : Option (List (Agent S) × Option (Sent S)) :=
  let agentType := packetData.headD 0
  let agentLocalAddress := env.unpackSocket (packetData.drop 1)
  let agents := env.addOrUpdateAgent agents agentPublicAddress agentLocalAddress agentType
  let written := writeAgents env agentPublicAddress agentLocalAddress agentType agents []
  let broadcastPacket := 68 :: written.1
  if broadcastPacket.length ≤ MAX_PACKET_SIZE then
    let packetBytesWithoutLeadingChar := written.1.length
    if packetBytesWithoutLeadingChar ≠ 0 then
      some (written.2, some ⟨agentPublicAddress, broadcastPacket.take packetBytesWithoutLeadingChar⟩)
    else
      some (written.2, none)
  else none

/-! ## A worked check-in -/

/-- A socket address of the worked check-in: four address bytes and a port. -/
structure Socket where
  address : List Nat
  port : Nat
deriving DecidableEq

/-- The six bytes of a packed socket: the address, then the port, high byte
first. -/
def packSocket (socket : Socket) : List Nat :=
  socket.address ++ [socket.port / 256, socket.port % 256]

/-- The socket read back from six packed bytes. -/
def unpackSocket (bytes : List Nat) : Socket :=
  ⟨bytes.take 4, (bytes.drop 4).headD 0 * 256 + (bytes.drop 5).headD 0⟩

/-- An agent matches when its type and its two sockets are the given ones. -/
def agentMatches (agent : Agent Socket) (publicSocket localSocket : Socket) (type : Nat) : Bool :=
  decide (agent.type = type) && decide (agent.publicSocket = publicSocket)
    && decide (agent.localSocket = localSocket)

/-- The environment of the worked check-in: a known agent is kept as it is, an
unknown one is added at the end of the list; the time is 1. -/
def workedEnvironment : Environment Socket :=
  ⟨unpackSocket, packSocket, agentMatches,
   fun agents publicSocket localSocket type =>
     if agents.any (fun agent => agentMatches agent publicSocket localSocket type) then agents
     else agents ++ [⟨type, publicSocket, localSocket, 0⟩],
   1⟩

/-- The interactive agent (`I`, 73) at 10.0.0.1:4000, local 192.168.0.1:4000. -/
def senderAgent : Agent Socket := ⟨73, ⟨[10, 0, 0, 1], 4000⟩, ⟨[192, 168, 0, 1], 4000⟩, 0⟩

/-- The audio mixer (`M`, 77) at 10.0.0.2:5000, local 192.168.0.2:5000. -/
def mixerAgent : Agent Socket := ⟨77, ⟨[10, 0, 0, 2], 5000⟩, ⟨[192, 168, 0, 2], 5000⟩, 0⟩

/-- The check-in packet of `senderAgent`: its type byte and its packed local
socket. -/
def senderPacket : List Nat := 73 :: packSocket senderAgent.localSocket

end DomainServer

namespace CollisionPick

/-! ## Concrete scalars for the worked inputs -/

section Worked

/-- Component-wise extent `max - min` of a non-empty list of rational points;
`Extents` is not evaluated on the empty list by any worked input. -/
def ratExtentsSize : List (Vec3 ℚ) → Vec3 ℚ
  | [] => ⟨0, 0, 0⟩
  | p :: rest =>
    let lo := rest.foldl (fun m q => ⟨min m.x q.x, min m.y q.y, min m.z q.z⟩) p
    let hi := rest.foldl (fun m q => ⟨max m.x q.x, max m.y q.y, max m.z q.z⟩) p
    ⟨hi.x - lo.x, hi.y - lo.y, hi.z - lo.z⟩

/-- Exact rational arithmetic: it agrees with the float arithmetic of the
source on the worked inputs, whose values and results are small dyadics. -/
instance ratFloatOps : FloatOps ℚ where
  mul := fun a b => a * b
  div := fun a b => a / b
  lt := fun a b => decide (a < b)
  eq := fun a b => decide (a = b)
  half := 1 / 2
  one := 1
  epsilon := 1 / 1000000
  extentsSize := ratExtentsSize

/-- The values `-1` and `-2` of the two sentinels. -/
def sentinels : Sentinels := ⟨-1, -2⟩

/-- A sub-mesh of 1,000,001 vertices, (0, 0, 0) followed by 1,000,000 times
(1, 1, 1), with one part, the triangle over the vertices 0, 1, 1. -/
def hugeMesh : FBXMesh ℚ :=
  ⟨⟨0, 0, 0⟩ :: ⟨1, 1, 1⟩ :: List.replicate 999999 ⟨1, 1, 1⟩, [⟨[0, 1, 1], []⟩]⟩

/-- A loaded asset made of `hugeMesh`; its unscaled extents are (1, 1, 1). -/
def hugeResource : GeometryResource ℚ := ⟨"huge", true, ⟨[hugeMesh], ⟨1, 1, 1⟩⟩⟩

/-- An empty descriptor of the requested kind. -/
def emptyShapeInfo (type : ShapeType) : ShapeInfo ℚ := ⟨type, ⟨0, 0, 0⟩, "", [], []⟩

/-- A pick of the given URL and kind, with requested dimensions (2, 2, 2). -/
def pickOf (url : String) (type : ShapeType) : CollisionRegion ℚ :=
  ⟨url, ⟨2, 2, 2⟩, emptyShapeInfo type⟩

/-- A sub-mesh with the two vertices (0, 0, 0) and (1, 1, 1) and no part. -/
def diagonalMesh : FBXMesh ℚ := ⟨[⟨0, 0, 0⟩, ⟨1, 1, 1⟩], []⟩

/-- A loaded asset made of `diagonalMesh`; its extents are (1, 1, 1). -/
def diagonalResource : GeometryResource ℚ := ⟨"diagonal", true, ⟨[diagonalMesh], ⟨1, 1, 1⟩⟩⟩

/-- A sub-mesh of three vertices, the first two equal in value, with three
parts: a triangle naming vertex 0 twice and vertex 1, followed by a fourth,
trailing index; a part with two triangle indices and one quad index only; a
quad naming vertex 2 twice and the vertices 0 and 1. -/
def hullMesh : FBXMesh ℚ :=
  ⟨[⟨0, 0, 0⟩, ⟨0, 0, 0⟩, ⟨1, 2, 4⟩],
   [⟨[0, 0, 1, 2], []⟩, ⟨[2, 2], [1]⟩, ⟨[], [2, 0, 1, 2]⟩]⟩

/-- A loaded asset made of `hullMesh`; its unscaled extents are (1, 2, 4). -/
def hullResource : GeometryResource ℚ := ⟨"hull", true, ⟨[hullMesh], ⟨1, 2, 4⟩⟩⟩

/-- An asset of three sub-mesh entries: two vertices and no part; no vertex at
all; one vertex and no part. -/
def sharedResource : GeometryResource ℚ :=
  ⟨"shared", true,
   ⟨[⟨[⟨0, 0, 0⟩, ⟨1, 1, 1⟩], []⟩, ⟨[], []⟩, ⟨[⟨3, 3, 3⟩], []⟩], ⟨3, 3, 3⟩⟩⟩

/-- A sub-mesh of four vertices with one part whose triangle list has four
indices: the triangle (0, 1, 2) and the trailing index 3. -/
def trailingMesh : FBXMesh ℚ :=
  ⟨[⟨0, 0, 0⟩, ⟨1, 0, 0⟩, ⟨0, 1, 0⟩, ⟨0, 0, 1⟩], [⟨[0, 1, 2, 3], []⟩]⟩

/-- A loaded asset made of `trailingMesh`. -/
def trailingResource : GeometryResource ℚ := ⟨"trailing", true, ⟨[trailingMesh], ⟨1, 1, 1⟩⟩⟩

/-- An asset of two sub-mesh entries: one vertex and a single part without any
index; no vertex at all. -/
def degenerateResource : GeometryResource ℚ :=
  ⟨"degenerate", true, ⟨[⟨[⟨0, 0, 0⟩], [⟨[], []⟩]⟩, ⟨[], []⟩], ⟨0, 0, 0⟩⟩⟩

/-- An asset of two sub-meshes of three vertices; the first has a part naming
the indices 2, 0, 2, 1, 0, 0 and a part naming 1, 1, 1, the second one part
naming 0, 2, 1. -/
def runsResource : GeometryResource ℚ :=
  ⟨"runs", true,
   ⟨[⟨[⟨0, 0, 0⟩, ⟨1, 0, 0⟩, ⟨0, 1, 0⟩], [⟨[2, 0, 2, 1, 0, 0], []⟩, ⟨[1, 1, 1], []⟩]⟩,
     ⟨[⟨0, 0, 1⟩, ⟨1, 0, 1⟩, ⟨0, 1, 1⟩], [⟨[0, 2, 1], []⟩]⟩],
    ⟨1, 1, 1⟩⟩⟩

/-- An asset of two sub-meshes of three vertices each, the second one unit
above the first; each has one part, the triangle over its vertices 0, 1, 2. -/
def twinResource : GeometryResource ℚ :=
  ⟨"twin", true,
   ⟨[⟨[⟨0, 0, 0⟩, ⟨1, 0, 0⟩, ⟨0, 1, 0⟩], [⟨[0, 1, 2], []⟩]⟩,
     ⟨[⟨0, 0, 1⟩, ⟨1, 0, 1⟩, ⟨0, 1, 1⟩], [⟨[0, 1, 2], []⟩]⟩],
    ⟨1, 1, 1⟩⟩⟩

/-- A sub-mesh of four vertices in the plane z = 0 and no part. -/
def flatMesh : FBXMesh ℚ := ⟨[⟨0, 0, 0⟩, ⟨1, 0, 0⟩, ⟨0, 1, 0⟩, ⟨1, 1, 0⟩], []⟩

/-- A loaded asset made of `flatMesh`; its extents are (1, 1, 0). -/
def flatResource : GeometryResource ℚ := ⟨"flat", true, ⟨[flatMesh], ⟨1, 1, 0⟩⟩⟩

/-- An asset at both ceilings: 1,000 sub-meshes of 1,000 vertices each. -/
def boundaryResource : GeometryResource ℚ :=
  ⟨"boundary", true,
   ⟨List.replicate 1000 ⟨List.replicate 1000 ⟨0, 0, 0⟩, []⟩, ⟨0, 0, 0⟩⟩⟩

/-- The motion states of the worked contact pairs: of an entity or of an avatar,
with the object id, or of neither kind. -/
inductive WorkedMotionState where
  | entity (objectID : Nat)
  | avatar (objectID : Nat)
  | other
deriving DecidableEq

/-- The owner kind `EntityMotionState` on the worked motion states. -/
def entityKind : OwnerKind WorkedMotionState Nat :=
  ⟨fun m => match m with
     | WorkedMotionState.entity _ => true
     | _ => false,
   fun m => match m with
     | WorkedMotionState.entity objectID => objectID
     | WorkedMotionState.avatar objectID => objectID
     | WorkedMotionState.other => 0⟩

/-- A callback whose own collision object is at address 100. -/
def probeCallback : Callback Nat Nat (Vec3 ℚ) := ⟨100, 0, []⟩

/-- Four contact pairs reported for the probe at address 100: entity 7 with the
probe first; avatar 8; entity 9 with the probe second; entity 7 again. -/
def reportedPairs : List (ContactPair WorkedMotionState (Vec3 ℚ)) :=
  [⟨⟨1, 0, 0⟩, ⟨2, 0, 0⟩, ⟨100, false, none⟩, ⟨201, true, some (WorkedMotionState.entity 7)⟩⟩,
   ⟨⟨3, 0, 0⟩, ⟨4, 0, 0⟩, ⟨100, false, none⟩, ⟨202, true, some (WorkedMotionState.avatar 8)⟩⟩,
   ⟨⟨5, 0, 0⟩, ⟨6, 0, 0⟩, ⟨203, true, some (WorkedMotionState.entity 9)⟩, ⟨100, false, none⟩⟩,
   ⟨⟨7, 0, 0⟩, ⟨8, 0, 0⟩, ⟨100, false, none⟩, ⟨201, true, some (WorkedMotionState.entity 7)⟩⟩]

/-- A shape manager kept as the list of the handles in use, one entry per
reference; the handle of a descriptor is the number of its point lists. -/
def listShapeManager : ShapeManagerOps ℚ (List Nat) Nat :=
  ⟨fun held shapeInfo =>
     (shapeInfo.pointCollection.length :: held, shapeInfo.pointCollection.length),
   fun held shape => held.erase shape⟩

/-- The collaborators of the worked queries: a shape has to be computed when the
descriptor has no point list, and the world reports `reportedPairs`. -/
def workedCollaborators :
    Collaborators ℚ WorkedMotionState (Vec3 ℚ) (Vec3 ℚ) Nat Nat (List Nat) :=
  ⟨fun pick => pick.shapeInfo.pointCollection.isEmpty, fun _ => diagonalResource,
   listShapeManager, fun v => v, fun _ => reportedPairs⟩

/-- A pick whose shape is built: the descriptor of a StaticMesh build of
`diagonalResource`. -/
def builtPick : CollisionRegion ℚ :=
  ⟨"diagonal", ⟨2, 2, 2⟩,
   ⟨ShapeType.STATIC_MESH, ⟨1, 1, 1⟩, "diagonal", [[⟨0, 0, 0⟩, ⟨1, 1, 1⟩]], []⟩⟩

end Worked

/-! ## Vocabulary of the statements -/

section Vocabulary

variable {F : Type}

/-- Total vertex count across all sub-meshes of the asset. -/
def totalVertexCount (geometry : FBXGeometry F) : Nat :=
  (geometry.meshes.map (fun mesh => mesh.vertices.length)).sum

/-- The three kinds handled by the branch of lines 133-262. -/
def IsSimpleKind (type : ShapeType) : Prop :=
  type = ShapeType.SIMPLE_HULL ∨ type = ShapeType.SIMPLE_COMPOUND ∨ type = ShapeType.STATIC_MESH

/-- The index list cut down to a whole number of faces of `stride` indices:
the trailing `length % stride` indices are dropped. -/
def truncated (stride : Nat) (indices : List Int) : List Int :=
  indices.take (indices.length - indices.length % stride)

/-- Every triangle and quad index of every part is within the vertex range of
its sub-mesh. -/
def IndicesInRange (geometry : FBXGeometry F) : Prop :=
  ∀ mesh ∈ geometry.meshes, ∀ meshPart ∈ mesh.parts,
    (∀ index ∈ meshPart.triangleIndices, 0 ≤ index ∧ index < mesh.vertices.length) ∧
    (∀ index ∈ meshPart.quadIndices, 0 ≤ index ∧ index < mesh.vertices.length)

/-- The part has at least one complete triangle or one complete quad. -/
def hasCompleteFace (meshPart : FBXMeshPart) : Bool :=
  decide (3 ≤ meshPart.triangleIndices.length) || decide (4 ≤ meshPart.quadIndices.length)

/-- The vertices of all sub-meshes, in sub-mesh order and, within a sub-mesh,
in vertex order. -/
def allVertices (meshes : List (FBXMesh F)) : List (Vec3 F) :=
  (meshes.map (fun mesh => mesh.vertices)).flatten

/-- The sub-meshes with at least one vertex; lines 174-176 skip the others. -/
def nonEmptyMeshes (meshes : List (FBXMesh F)) : List (FBXMesh F) :=
  meshes.filter (fun mesh => decide (mesh.vertices.length ≠ 0))

/-- All triangle indices of all parts of the non-empty sub-meshes, in order. -/
def staticMeshBuffer (meshes : List (FBXMesh F)) : List Int :=
  ((nonEmptyMeshes meshes).map
    (fun mesh => (mesh.parts.map (fun meshPart => meshPart.triangleIndices)).flatten)).flatten

/-- What a SimpleCompound build emits for one part: the run of its unique
indices, then the part terminator. -/
def partRun (s : Sentinels) (meshPart : FBXMeshPart) : List Int :=
  uniquePartIndices meshPart ++ [s.END_OF_MESH_PART]

/-- What a SimpleCompound build emits for one sub-mesh: the runs of its parts,
then the mesh terminator. -/
def meshRuns (s : Sentinels) (mesh : FBXMesh F) : List Int :=
  (mesh.parts.map (partRun s)).flatten ++ [s.END_OF_MESH]

/-- The runs of all non-empty sub-meshes, in order. -/
def simpleCompoundBuffer (s : Sentinels) (meshes : List (FBXMesh F)) : List Int :=
  ((nonEmptyMeshes meshes).map (meshRuns s)).flatten

/-- The index buffer expected of a build of the given simple kind. -/
def expectedBuffer (s : Sentinels) (type : ShapeType) (meshes : List (FBXMesh F)) : List Int :=
  if type = ShapeType.STATIC_MESH then staticMeshBuffer meshes
  else if type = ShapeType.SIMPLE_COMPOUND then simpleCompoundBuffer s meshes
  else []

/-- The point lists a build of a simple kind is left with, as source vertices:
for SimpleCompound the vertex lists of the sub-meshes that have a vertex, in
order, then one empty list per sub-mesh without vertices; for the other kinds
the single list of all vertices. -/
def sourcePointLists (type : ShapeType) (meshes : List (FBXMesh F)) : PointCollection F :=
  if type = ShapeType.SIMPLE_COMPOUND then
    (nonEmptyMeshes meshes).map (fun mesh => mesh.vertices)
      ++ List.replicate (meshes.length - (nonEmptyMeshes meshes).length) []
  else [allVertices meshes]

/-- The member of a contact pair that is not the probe: the second object when
the first is the probe (by address), else the first. -/
def otherBodyOf {M B : Type} (probeAddress : Nat) (pair : ContactPair M B) : CollisionObject M :=
  if pair.colObj0.address = probeAddress then pair.colObj1 else pair.colObj0

/-- The other body of the pair is a rigid body whose motion state is of the
requested owner kind. -/
def isAccepted {M B ID : Type} (kind : OwnerKind M ID) (probeAddress : Nat)
    (pair : ContactPair M B) : Bool :=
  (otherBodyOf probeAddress pair).isRigidBody &&
    match (otherBodyOf probeAddress pair).motionState with
    | some candidate => kind.isKind candidate
    | none => false

/-- The contact result of an accepted pair: the id of the other body, the local
point on the side of the probe, the local point on the side of the other body;
`none` for a pair that is not accepted. -/
def contactResultOf {M B G ID : Type} (kind : OwnerKind M ID) (bulletToGLM : B → G)
    (probeAddress : Nat) (pair : ContactPair M B) : Option (Intersection ID G) :=
  if isAccepted kind probeAddress pair then
    match (otherBodyOf probeAddress pair).motionState with
    | some candidate =>
      if pair.colObj0.address = probeAddress then
        some ⟨kind.getObjectID candidate, bulletToGLM pair.m_localPointA,
          bulletToGLM pair.m_localPointB⟩
      else
        some ⟨kind.getObjectID candidate, bulletToGLM pair.m_localPointB,
          bulletToGLM pair.m_localPointA⟩
    | none => none
  else none

/-- The asset is within both size ceilings of lines 142-157. -/
def WithinCeilings (geometry : FBXGeometry F) : Prop :=
  totalVertexCount geometry ≤ 1000000 ∧ geometry.meshes.length ≤ 1000

variable [FloatOps F]

/-- The vertices referenced by a list of indices, in order; `none` when one of
the indices is out of range. -/
def lookupAll (vertices : List (Vec3 F)) : List Int → Option (List (Vec3 F))
  | [] => some []
  | index :: rest => do
    let v ← vertexAt vertices index
    let vs ← lookupAll vertices rest
    some (v :: vs)

/-- The vertices referenced by the complete triangles of a part, followed by
those referenced by its complete quads. -/
def facePoints (mesh : FBXMesh F) (meshPart : FBXMeshPart) : Option (List (Vec3 F)) := do
  let ofTriangles ← lookupAll mesh.vertices (truncated 3 meshPart.triangleIndices)
  let ofQuads ← lookupAll mesh.vertices (truncated 4 meshPart.quadIndices)
  some (ofTriangles ++ ofQuads)

/-- Keep the first occurrence of each point value, in order. -/
def firstOccurrences (points : List (Vec3 F)) : PointList F :=
  points.foldl addUnique []

/-- The hulls of the parts of one sub-mesh that have a point, in part order. -/
def hullsOfParts (mesh : FBXMesh F) : List FBXMeshPart → Option (PointCollection F)
  | [] => some []
  | meshPart :: rest => do
    let points ← facePoints mesh meshPart
    let hulls ← hullsOfParts mesh rest
    some (if (firstOccurrences points).length = 0 then hulls
      else firstOccurrences points :: hulls)

/-- The hulls of all parts of all sub-meshes, in sub-mesh then part order. -/
def hullsOfMeshes : List (FBXMesh F) → Option (PointCollection F)
  | [] => some []
  | mesh :: rest => do
    let hulls ← hullsOfParts mesh mesh.parts
    let more ← hullsOfMeshes rest
    some (hulls ++ more)

/-- The vertices the indices of a list refer to, in order. -/
def referencedVertices (vertices : List (Vec3 F)) (indices : List Int) : List (Vec3 F) :=
  indices.filterMap (vertexAt vertices)

/-- Keep only the first occurrence of each point value: a point of the list
stays when no point before it (`earlier`, then the points already passed)
compares `==` to it. -/
def keepFirstFrom : List (Vec3 F) → List (Vec3 F) → List (Vec3 F)
  | _, [] => []
  | earlier, p :: rest =>
    if contains earlier p then keepFirstFrom (earlier ++ [p]) rest
    else p :: keepFirstFrom (earlier ++ [p]) rest

/-- The reference hull of a part: the vertices referenced by its triangle
indices truncated to a multiple of 3, followed by those referenced by its quad
indices truncated to a multiple of 4, first occurrences only, every kept point
multiplied component-wise by `scale`. -/
def referenceHull (scale : Vec3 F) (mesh : FBXMesh F) (meshPart : FBXMeshPart) : PointList F :=
  (keepFirstFrom []
    (referencedVertices mesh.vertices (truncated 3 meshPart.triangleIndices)
      ++ referencedVertices mesh.vertices (truncated 4 meshPart.quadIndices))).map
    (fun p => Vec3.mul scale p)

/-- The reference hulls of an asset: one per part that has a complete face, in
sub-mesh then part order, scaled by `dimensions / unscaledMeshExtentsSize`. -/
def referenceHulls (dimensions : Vec3 F) (geometry : FBXGeometry F) : PointCollection F :=
  geometry.meshes.flatMap (fun mesh =>
    (mesh.parts.filter hasCompleteFace).map
      (referenceHull (Vec3.div dimensions geometry.unscaledMeshExtentsSize) mesh))

/-- No earlier point of the list compares `==` to a later one. -/
def NoRepeat (points : PointList F) : Prop :=
  points.Pairwise (fun a b => Vec3.eq a b = false)

end Vocabulary

/-! ## Lemmas on the guards -/

section GuardLemmas

variable {F : Type}

theorem countVertices_eq (meshes : List (FBXMesh F)) (start : Nat)
    (hfit : start + (meshes.map (fun mesh => mesh.vertices.length)).sum ≤ INT32_MAX) :
    countVertices meshes start
      = some (start + (meshes.map (fun mesh => mesh.vertices.length)).sum) := by
  induction meshes generalizing start with
  | nil => simp [countVertices]
  | cons mesh rest ih =>
    simp only [List.map_cons, List.sum_cons] at hfit ⊢
    have hstep : start + mesh.vertices.length ≤ INT32_MAX := by omega
    rw [countVertices, if_pos hstep, ih (start + mesh.vertices.length) (by omega)]
    simp [Nat.add_assoc]

theorem countVertices_total (geometry : FBXGeometry F)
    (hfit : totalVertexCount geometry ≤ INT32_MAX) :
    countVertices geometry.meshes 0 = some (totalVertexCount geometry) := by
  have h := countVertices_eq geometry.meshes 0 (by simpa [totalVertexCount] using hfit)
  simpa [totalVertexCount] using h

variable [FloatOps F]

theorem hugeResource_total : totalVertexCount hugeResource.geometry = 1000001 := by
  have hlen : hugeMesh.vertices.length = 1000001 := by
    show (_ :: _ :: List.replicate 999999 _).length = 1000001
    rw [List.length_cons, List.length_cons, List.length_replicate]
  show ([hugeMesh].map (fun mesh => mesh.vertices.length)).sum = 1000001
  rw [List.map_cons, List.map_nil, List.sum_cons, List.sum_nil, hlen, Nat.add_zero]

theorem computeShapeInfo_simple (s : Sentinels) (pick : CollisionRegion F)
    (shapeInfo : ShapeInfo F) (resource : GeometryResource F)
    (hkind : IsSimpleKind shapeInfo.type) :
    computeShapeInfo s pick shapeInfo resource
      = computeSimple s shapeInfo.type pick.transformScale shapeInfo resource := by
  rcases hkind with h | h | h <;> simp [computeShapeInfo, h]

end GuardLemmas

/-! ## Lemmas on the compound branch -/

section HullLemmas

variable {F : Type} [FloatOps F]

theorem drop_take_of_le (indices : List Int) (n j : Nat) (h : n ≤ j) :
    (indices.take n).drop j = [] := by
  apply List.drop_eq_nil_of_le
  rw [List.length_take]
  omega

theorem drop_take_cons (indices : List Int) (n j : Nat) (hn : n ≤ indices.length)
    (hj : j < n) :
    ∃ a, indices[j]? = some a ∧
      (indices.take n).drop j = a :: (indices.take n).drop (j + 1) := by
  have hlen : j < (indices.take n).length := by rw [List.length_take]; omega
  refine ⟨indices[j], List.getElem?_eq_getElem (by omega), ?_⟩
  rw [List.drop_eq_getElem_cons hlen, List.getElem_take]

theorem triangleLoop_eq (vertices : List (Vec3 F)) (indices : List Int) (n : Nat)
    (hn : n ≤ indices.length) (h3 : 3 ∣ n) :
    ∀ (fuel j : Nat) (points : PointList F), 3 ∣ j → n ≤ j + fuel →
      triangleLoop vertices indices n fuel j points
        = (lookupAll vertices ((indices.take n).drop j)).map
            (fun vs => vs.foldl addUnique points) := by
  intro fuel
  induction fuel with
  | zero =>
    intro j points _ hfuel
    have hle : n ≤ j := by omega
    simp [triangleLoop, Nat.not_lt.mpr hle, drop_take_of_le indices n j hle, lookupAll]
  | succ fuel ih =>
    intro j points hj hfuel
    by_cases hlt : j < n
    · have h2 : j + 2 < n := by omega
      obtain ⟨a, ga, ea⟩ := drop_take_cons indices n j hn (by omega)
      obtain ⟨b, gb, eb⟩ := drop_take_cons indices n (j + 1) hn (by omega)
      obtain ⟨c, gc, ec⟩ := drop_take_cons indices n (j + 2) hn (by omega)
      rw [ea, eb, ec]
      simp only [triangleLoop, if_pos hlt, ga, gb, gc, lookupAll, Option.bind_eq_bind,
        Option.some_bind]
      cases vertexAt vertices a with
      | none => simp
      | some p0 =>
        cases vertexAt vertices b with
        | none => simp
        | some p1 =>
          cases vertexAt vertices c with
          | none => simp
          | some p2 =>
            simp only [Option.bind_eq_bind, Option.some_bind]
            rw [ih (j + 3) _ (by omega) (by omega)]
            cases lookupAll vertices (List.drop (j + 2 + 1) (List.take n indices)) <;> simp
    · have hle : n ≤ j := by omega
      simp [triangleLoop, hlt, drop_take_of_le indices n j hle, lookupAll]

theorem quadLoop_eq (vertices : List (Vec3 F)) (indices : List Int) (n : Nat)
    (hn : n ≤ indices.length) (h4 : 4 ∣ n) :
    ∀ (fuel j : Nat) (points : PointList F), 4 ∣ j → n ≤ j + fuel →
      quadLoop vertices indices n fuel j points
        = (lookupAll vertices ((indices.take n).drop j)).map
            (fun vs => vs.foldl addUnique points) := by
  intro fuel
  induction fuel with
  | zero =>
    intro j points _ hfuel
    have hle : n ≤ j := by omega
    simp [quadLoop, Nat.not_lt.mpr hle, drop_take_of_le indices n j hle, lookupAll]
  | succ fuel ih =>
    intro j points hj hfuel
    by_cases hlt : j < n
    · have h2 : j + 3 < n := by omega
      obtain ⟨a, ga, ea⟩ := drop_take_cons indices n j hn (by omega)
      obtain ⟨b, gb, eb⟩ := drop_take_cons indices n (j + 1) hn (by omega)
      obtain ⟨c, gc, ec⟩ := drop_take_cons indices n (j + 2) hn (by omega)
      obtain ⟨d, gd, ed⟩ := drop_take_cons indices n (j + 3) hn (by omega)
      rw [ea, eb, ec, ed]
      simp only [quadLoop, if_pos hlt, ga, gb, gc, gd, lookupAll, Option.bind_eq_bind,
        Option.some_bind]
      cases vertexAt vertices a with
      | none => simp
      | some p0 =>
        cases vertexAt vertices b with
        | none => simp
        | some p1 =>
          cases vertexAt vertices c with
          | none => simp
          | some p2 =>
            cases vertexAt vertices d with
            | none => simp
            | some p3 =>
              simp only [Option.bind_eq_bind, Option.some_bind]
              rw [ih (j + 4) _ (by omega) (by omega)]
              cases lookupAll vertices (List.drop (j + 3 + 1) (List.take n indices)) <;> simp
    · have hle : n ≤ j := by omega
      simp [quadLoop, hlt, drop_take_of_le indices n j hle, lookupAll]

theorem collectPart_eq (mesh : FBXMesh F) (meshPart : FBXMeshPart) (points : PointList F) :
    collectPart mesh meshPart points
      = (facePoints mesh meshPart).map (fun vs => vs.foldl addUnique points) := by
  have ht := triangleLoop_eq mesh.vertices meshPart.triangleIndices
    (meshPart.triangleIndices.length - meshPart.triangleIndices.length % 3)
    (Nat.sub_le _ _) (Nat.dvd_sub_mod _)
    (meshPart.triangleIndices.length - meshPart.triangleIndices.length % 3) 0 points
    (Nat.dvd_zero 3) (by omega)
  have hq := quadLoop_eq mesh.vertices meshPart.quadIndices
    (meshPart.quadIndices.length - meshPart.quadIndices.length % 4)
    (Nat.sub_le _ _) (Nat.dvd_sub_mod _)
    (meshPart.quadIndices.length - meshPart.quadIndices.length % 4) 0
  simp only [List.drop_zero] at ht hq
  simp only [collectPart, facePoints, truncated, ht]
  cases lookupAll mesh.vertices
      (List.take (meshPart.triangleIndices.length - meshPart.triangleIndices.length % 3)
        meshPart.triangleIndices) with
  | none => simp
  | some ts =>
    simp only [Option.map_some', Option.bind_eq_bind, Option.some_bind]
    rw [hq _ (Nat.dvd_zero 4) (by omega)]
    cases lookupAll mesh.vertices
      (List.take (meshPart.quadIndices.length - meshPart.quadIndices.length % 4)
        meshPart.quadIndices) <;> simp

theorem partStep_eq (mesh : FBXMesh F) (meshPart : FBXMeshPart)
    (pointCollection : PointCollection F) :
    partStep mesh (pointCollection, pointCollection.length) meshPart
      = (facePoints mesh meshPart).map (fun vs =>
          if (firstOccurrences vs).length = 0 then (pointCollection, pointCollection.length)
          else (pointCollection ++ [firstOccurrences vs], pointCollection.length + 1)) := by
  simp only [partStep, List.getElem?_concat_length, Option.bind_eq_bind, Option.some_bind,
    collectPart_eq]
  cases facePoints mesh meshPart with
  | none => simp
  | some vs =>
    simp only [Option.map_some', Option.some_bind, firstOccurrences]
    by_cases h : (List.foldl addUnique [] vs).length = 0
    · simp [h, List.set_append_right]
    · simp [h, List.set_append_right]

theorem partsLoop_eq (mesh : FBXMesh F) (parts : List FBXMeshPart) :
    ∀ pointCollection : PointCollection F,
      partsLoop mesh parts (pointCollection, pointCollection.length)
        = (hullsOfParts mesh parts).map (fun hulls =>
            (pointCollection ++ hulls, pointCollection.length + hulls.length)) := by
  induction parts with
  | nil => intro pointCollection; simp [partsLoop, hullsOfParts]
  | cons meshPart rest ih =>
    intro pointCollection
    simp only [partsLoop, hullsOfParts, partStep_eq, Option.bind_eq_bind]
    cases facePoints mesh meshPart with
    | none => simp
    | some vs =>
      simp only [Option.map_some', Option.some_bind]
      by_cases h : (firstOccurrences vs).length = 0
      · simp only [h, if_true, ih]
        cases hullsOfParts mesh rest <;> simp
      · simp only [h, if_false]
        have hrec := ih (pointCollection ++ [firstOccurrences vs])
        simp only [List.length_append, List.length_singleton] at hrec
        rw [hrec]
        cases hullsOfParts mesh rest
        · simp
        · simp; omega

theorem meshesLoop_eq (meshes : List (FBXMesh F)) :
    ∀ pointCollection : PointCollection F,
      meshesLoop meshes (pointCollection, pointCollection.length)
        = (hullsOfMeshes meshes).map (fun hulls =>
            (pointCollection ++ hulls, pointCollection.length + hulls.length)) := by
  induction meshes with
  | nil => intro pointCollection; simp [meshesLoop, hullsOfMeshes]
  | cons mesh rest ih =>
    intro pointCollection
    simp only [meshesLoop, hullsOfMeshes, partsLoop_eq, Option.bind_eq_bind]
    cases hullsOfParts mesh mesh.parts with
    | none => simp
    | some hulls =>
      simp only [Option.map_some', Option.some_bind]
      have hrec := ih (pointCollection ++ hulls)
      simp only [List.length_append] at hrec
      rw [hrec]
      cases hullsOfMeshes rest <;> simp [Nat.add_assoc]

end HullLemmas

section HullProperties

variable {F : Type} [FloatOps F]

theorem computeCompound_eq (dimensions : Vec3 F) (shapeInfo : ShapeInfo F)
    (resource : GeometryResource F) :
    computeCompound dimensions shapeInfo resource
      = (hullsOfMeshes resource.geometry.meshes).map (fun hulls =>
          { shapeInfo with
            type := ShapeType.COMPOUND
            halfExtents := dimensions
            url := resource.url
            pointCollection := scaleInPlace
              (Vec3.div dimensions resource.geometry.unscaledMeshExtentsSize) hulls }) := by
  have h := meshesLoop_eq resource.geometry.meshes ([] : PointCollection F)
  simp only [List.length_nil, List.nil_append, Nat.zero_add] at h
  simp only [computeCompound, h, setParams]
  cases hullsOfMeshes resource.geometry.meshes <;> simp

theorem addUnique_noRepeat (points : PointList F) (p : Vec3 F) (h : NoRepeat points) :
    NoRepeat (addUnique points p) := by
  unfold addUnique
  by_cases hc : contains points p = true
  · simpa [hc] using h
  · rw [if_neg hc]
    unfold NoRepeat at h ⊢
    rw [List.pairwise_append]
    refine ⟨h, List.pairwise_singleton _ _, ?_⟩
    intro a ha b hb
    rw [List.mem_singleton] at hb
    subst hb
    cases hab : Vec3.eq a b with
    | false => rfl
    | true =>
      exfalso
      apply hc
      unfold contains
      rw [List.any_eq_true]
      exact ⟨a, ha, hab⟩

theorem foldl_addUnique_noRepeat (vs : List (Vec3 F)) :
    ∀ points : PointList F, NoRepeat points → NoRepeat (vs.foldl addUnique points) := by
  induction vs with
  | nil => intro points h; simpa using h
  | cons v rest ih =>
    intro points h
    exact ih (addUnique points v) (addUnique_noRepeat points v h)

theorem firstOccurrences_noRepeat (vs : List (Vec3 F)) : NoRepeat (firstOccurrences vs) :=
  foldl_addUnique_noRepeat vs [] List.Pairwise.nil

theorem addUnique_length_pos (points : PointList F) (p : Vec3 F) :
    0 < (addUnique points p).length := by
  unfold addUnique
  by_cases hc : contains points p = true
  · rw [if_pos hc]
    unfold contains at hc
    rw [List.any_eq_true] at hc
    obtain ⟨a, ha, _⟩ := hc
    exact List.length_pos_of_mem ha
  · rw [if_neg hc]
    simp

theorem length_le_addUnique (points : PointList F) (p : Vec3 F) :
    points.length ≤ (addUnique points p).length := by
  unfold addUnique
  split <;> simp

theorem length_le_foldl_addUnique (vs : List (Vec3 F)) :
    ∀ points : PointList F, points.length ≤ (vs.foldl addUnique points).length := by
  induction vs with
  | nil => intro points; simp
  | cons v rest ih =>
    intro points
    exact Nat.le_trans (length_le_addUnique points v) (ih (addUnique points v))

theorem firstOccurrences_length_eq_zero (vs : List (Vec3 F)) :
    (firstOccurrences vs).length = 0 ↔ vs.length = 0 := by
  cases vs with
  | nil => simp [firstOccurrences]
  | cons v rest =>
    have h1 := addUnique_length_pos ([] : PointList F) v
    have h2 := length_le_foldl_addUnique rest (addUnique [] v)
    simp only [firstOccurrences, List.foldl_cons, List.length_cons]
    omega

omit [FloatOps F] in
theorem lookupAll_length (vertices : List (Vec3 F)) :
    ∀ (indices : List Int) (vs : List (Vec3 F)),
      lookupAll vertices indices = some vs → vs.length = indices.length := by
  intro indices
  induction indices with
  | nil => intro vs h; simp [lookupAll] at h; simp [← h]
  | cons index rest ih =>
    intro vs h
    simp only [lookupAll, Option.bind_eq_bind] at h
    cases hv : vertexAt vertices index with
    | none => simp [hv] at h
    | some v =>
      cases hr : lookupAll vertices rest with
      | none => simp [hv, hr] at h
      | some ws =>
        simp [hv, hr] at h
        simp [← h, ih ws hr]

omit [FloatOps F] in
theorem lookupAll_isSome (vertices : List (Vec3 F)) (indices : List Int)
    (hrange : ∀ index ∈ indices, 0 ≤ index ∧ index < vertices.length) :
    ∃ vs, lookupAll vertices indices = some vs := by
  induction indices with
  | nil => exact ⟨[], rfl⟩
  | cons index rest ih =>
    obtain ⟨ws, hws⟩ := ih (fun i hi => hrange i (List.mem_cons_of_mem _ hi))
    obtain ⟨h0, h1⟩ := hrange index (List.mem_cons_self _ _)
    have hlt : index.toNat < vertices.length := by omega
    refine ⟨vertices[index.toNat] :: ws, ?_⟩
    simp [lookupAll, vertexAt, h0, hws, List.getElem?_eq_getElem hlt]

theorem truncated_length (stride : Nat) (indices : List Int) :
    (truncated stride indices).length = indices.length - indices.length % stride := by
  simp [truncated, List.length_take]

theorem mem_truncated (stride : Nat) (indices : List Int) (index : Int)
    (h : index ∈ truncated stride indices) : index ∈ indices :=
  List.mem_of_mem_take h

omit [FloatOps F] in
theorem facePoints_length (mesh : FBXMesh F) (meshPart : FBXMeshPart) (vs : List (Vec3 F))
    (h : facePoints mesh meshPart = some vs) :
    vs.length = (meshPart.triangleIndices.length - meshPart.triangleIndices.length % 3)
      + (meshPart.quadIndices.length - meshPart.quadIndices.length % 4) := by
  simp only [facePoints, Option.bind_eq_bind] at h
  cases ht : lookupAll mesh.vertices (truncated 3 meshPart.triangleIndices) with
  | none => simp [ht] at h
  | some ts =>
    cases hq : lookupAll mesh.vertices (truncated 4 meshPart.quadIndices) with
    | none => simp [ht, hq] at h
    | some qs =>
      simp [ht, hq] at h
      have h1 := lookupAll_length _ _ _ ht
      have h2 := lookupAll_length _ _ _ hq
      rw [truncated_length] at h1 h2
      simp [← h, h1, h2]

omit [FloatOps F] in
theorem facePoints_length_eq_zero (mesh : FBXMesh F) (meshPart : FBXMeshPart)
    (vs : List (Vec3 F)) (h : facePoints mesh meshPart = some vs) :
    vs.length = 0 ↔ hasCompleteFace meshPart = false := by
  rw [facePoints_length mesh meshPart vs h]
  simp only [hasCompleteFace, Bool.or_eq_false_iff, decide_eq_false_iff_not]
  omega

omit [FloatOps F] in
theorem facePoints_isSome (mesh : FBXMesh F) (meshPart : FBXMeshPart)
    (ht : ∀ index ∈ meshPart.triangleIndices, 0 ≤ index ∧ index < mesh.vertices.length)
    (hq : ∀ index ∈ meshPart.quadIndices, 0 ≤ index ∧ index < mesh.vertices.length) :
    ∃ vs, facePoints mesh meshPart = some vs := by
  obtain ⟨ts, hts⟩ := lookupAll_isSome mesh.vertices (truncated 3 meshPart.triangleIndices)
    (fun i hi => ht i (mem_truncated _ _ _ hi))
  obtain ⟨qs, hqs⟩ := lookupAll_isSome mesh.vertices (truncated 4 meshPart.quadIndices)
    (fun i hi => hq i (mem_truncated _ _ _ hi))
  exact ⟨ts ++ qs, by simp [facePoints, hts, hqs]⟩

theorem hullsOfParts_isSome (mesh : FBXMesh F) (parts : List FBXMeshPart)
    (hrange : ∀ meshPart ∈ parts,
      (∀ index ∈ meshPart.triangleIndices, 0 ≤ index ∧ index < mesh.vertices.length) ∧
      (∀ index ∈ meshPart.quadIndices, 0 ≤ index ∧ index < mesh.vertices.length)) :
    ∃ hulls, hullsOfParts mesh parts = some hulls := by
  induction parts with
  | nil => exact ⟨[], rfl⟩
  | cons meshPart rest ih =>
    obtain ⟨hulls, hh⟩ := ih (fun p hp => hrange p (List.mem_cons_of_mem _ hp))
    obtain ⟨ht, hq⟩ := hrange meshPart (List.mem_cons_self _ _)
    obtain ⟨vs, hvs⟩ := facePoints_isSome mesh meshPart ht hq
    exact ⟨_, by simp only [hullsOfParts, hvs, hh, Option.bind_eq_bind, Option.some_bind]; rfl⟩

theorem hullsOfMeshes_isSome (meshes : List (FBXMesh F))
    (hrange : ∀ mesh ∈ meshes, ∀ meshPart ∈ mesh.parts,
      (∀ index ∈ meshPart.triangleIndices, 0 ≤ index ∧ index < mesh.vertices.length) ∧
      (∀ index ∈ meshPart.quadIndices, 0 ≤ index ∧ index < mesh.vertices.length)) :
    ∃ hulls, hullsOfMeshes meshes = some hulls := by
  induction meshes with
  | nil => exact ⟨[], rfl⟩
  | cons mesh rest ih =>
    obtain ⟨more, hm⟩ := ih (fun m hm => hrange m (List.mem_cons_of_mem _ hm))
    obtain ⟨hulls, hh⟩ := hullsOfParts_isSome mesh mesh.parts (hrange mesh (List.mem_cons_self _ _))
    exact ⟨_, by simp only [hullsOfMeshes, hm, hh, Option.bind_eq_bind, Option.some_bind]; rfl⟩

theorem hullsOfParts_spec (mesh : FBXMesh F) :
    ∀ (parts : List FBXMeshPart) (hulls : PointCollection F),
      hullsOfParts mesh parts = some hulls →
        (∀ points ∈ hulls, 1 ≤ points.length ∧ NoRepeat points) ∧
        hulls.length = parts.countP hasCompleteFace := by
  intro parts
  induction parts with
  | nil =>
    intro hulls h
    simp [hullsOfParts] at h
    subst h
    simp
  | cons meshPart rest ih =>
    intro hulls h
    simp only [hullsOfParts, Option.bind_eq_bind] at h
    cases hf : facePoints mesh meshPart with
    | none => simp [hf] at h
    | some vs =>
      cases hr : hullsOfParts mesh rest with
      | none => simp [hf, hr] at h
      | some more =>
        obtain ⟨hmore, hcount⟩ := ih more hr
        simp only [hf, hr, Option.some_bind, Option.some.injEq] at h
        have hzero := facePoints_length_eq_zero mesh meshPart vs hf
        by_cases hz : (firstOccurrences vs).length = 0
        · rw [if_pos hz] at h
          subst h
          have hface : hasCompleteFace meshPart = false :=
            hzero.mp ((firstOccurrences_length_eq_zero vs).mp hz)
          refine ⟨hmore, ?_⟩
          rw [List.countP_cons, hface, hcount]
          simp
        · rw [if_neg hz] at h
          subst h
          have hface : hasCompleteFace meshPart = true := by
            cases hb : hasCompleteFace meshPart with
            | true => rfl
            | false =>
              exact absurd ((firstOccurrences_length_eq_zero vs).mpr (hzero.mpr hb)) hz
          refine ⟨?_, ?_⟩
          · intro points hp
            rcases List.mem_cons.mp hp with rfl | hp
            · exact ⟨by omega, firstOccurrences_noRepeat vs⟩
            · exact hmore points hp
          · rw [List.countP_cons, hface, List.length_cons, hcount]
            simp

theorem hullsOfMeshes_spec :
    ∀ (meshes : List (FBXMesh F)) (hulls : PointCollection F),
      hullsOfMeshes meshes = some hulls →
        (∀ points ∈ hulls, 1 ≤ points.length ∧ NoRepeat points) ∧
        hulls.length = (meshes.map (fun mesh => mesh.parts.countP hasCompleteFace)).sum := by
  intro meshes
  induction meshes with
  | nil =>
    intro hulls h
    simp [hullsOfMeshes] at h
    subst h
    simp
  | cons mesh rest ih =>
    intro hulls h
    simp only [hullsOfMeshes, Option.bind_eq_bind] at h
    cases hp : hullsOfParts mesh mesh.parts with
    | none => simp [hp] at h
    | some first =>
      cases hr : hullsOfMeshes rest with
      | none => simp [hp, hr] at h
      | some more =>
        simp only [hp, hr, Option.some_bind, Option.some.injEq] at h
        subst h
        obtain ⟨h1, c1⟩ := hullsOfParts_spec mesh mesh.parts first hp
        obtain ⟨h2, c2⟩ := ih more hr
        refine ⟨?_, ?_⟩
        · intro points hmem
          rcases List.mem_append.mp hmem with hm | hm
          · exact h1 points hm
          · exact h2 points hm
        · simp [List.length_append, c1, c2]

theorem noRepeat_nodup (points : PointList F) (hrefl : ∀ a : F, FloatOps.eq a a = true)
    (h : NoRepeat points) : points.Nodup := by
  unfold NoRepeat at h
  refine List.Pairwise.imp ?_ h
  intro a b hab heq
  subst heq
  simp [Vec3.eq, hrefl] at hab

end HullProperties

/-! ## Lemmas on the branch of the simple kinds -/

section SimpleLemmas

variable {F : Type}

theorem copyPoints_eq (vertices : List (Vec3 F)) :
    ∀ state : PointList F × List (Vec3 F),
      copyPoints vertices state = (state.1 ++ vertices, state.2 ++ vertices) := by
  induction vertices with
  | nil => intro state; simp [copyPoints]
  | cons point rest ih => intro state; simp [copyPoints, ih]

theorem copyIndices_eq (indices : List Int) :
    ∀ triangleIndices : List Int,
      copyIndices indices triangleIndices = triangleIndices ++ indices := by
  induction indices with
  | nil => intro triangleIndices; simp [copyIndices]
  | cons index rest ih => intro triangleIndices; simp [copyIndices, ih]

theorem staticMeshParts_eq (parts : List FBXMeshPart) :
    ∀ triangleIndices : List Int,
      staticMeshParts parts triangleIndices
        = triangleIndices ++ (parts.map (fun meshPart => meshPart.triangleIndices)).flatten := by
  induction parts with
  | nil => intro triangleIndices; simp [staticMeshParts]
  | cons meshPart rest ih =>
    intro triangleIndices
    simp [staticMeshParts, ih, copyIndices_eq]

theorem simpleCompoundParts_eq (s : Sentinels) (parts : List FBXMeshPart) :
    ∀ triangleIndices : List Int,
      simpleCompoundParts s parts triangleIndices
        = triangleIndices ++ (parts.map (partRun s)).flatten := by
  induction parts with
  | nil => intro triangleIndices; simp [simpleCompoundParts]
  | cons meshPart rest ih =>
    intro triangleIndices
    simp [simpleCompoundParts, ih, copyIndices_eq, partRun]

theorem mem_setInsert (index x : Int) (set : List Int) :
    x ∈ setInsert index set ↔ x = index ∨ x ∈ set := by
  induction set with
  | nil => simp [setInsert]
  | cons head tail ih =>
    unfold setInsert
    by_cases h1 : index < head
    · simp [h1]
    · by_cases h2 : index = head
      · subst h2
        simp
      · simp only [h1, h2, if_false, List.mem_cons, ih]
        tauto

theorem mem_insertIndices (indices : List Int) (x : Int) :
    ∀ set : List Int, x ∈ insertIndices indices set ↔ x ∈ indices ∨ x ∈ set := by
  induction indices with
  | nil => intro set; simp [insertIndices]
  | cons index rest ih =>
    intro set
    simp only [insertIndices, ih, mem_setInsert, List.mem_cons]
    tauto

theorem mem_uniquePartIndices (meshPart : FBXMeshPart) (x : Int) :
    x ∈ uniquePartIndices meshPart ↔ x ∈ meshPart.triangleIndices := by
  simp [uniquePartIndices, mem_insertIndices]

theorem allVertices_cons (mesh : FBXMesh F) (rest : List (FBXMesh F)) :
    allVertices (mesh :: rest) = mesh.vertices ++ allVertices rest := by
  simp [allVertices]

theorem allVertices_length (geometry : FBXGeometry F) :
    (allVertices geometry.meshes).length = totalVertexCount geometry := by
  simp [allVertices, totalVertexCount, List.length_flatten, Function.comp_def]

theorem expectedBuffer_cons_empty (s : Sentinels) (type : ShapeType) (mesh : FBXMesh F)
    (rest : List (FBXMesh F)) (h : mesh.vertices.length = 0) :
    expectedBuffer s type (mesh :: rest) = expectedBuffer s type rest := by
  simp [expectedBuffer, staticMeshBuffer, simpleCompoundBuffer, nonEmptyMeshes, h]

theorem expectedBuffer_cons (s : Sentinels) (type : ShapeType) (mesh : FBXMesh F)
    (rest : List (FBXMesh F)) (h : mesh.vertices.length ≠ 0) :
    expectedBuffer s type (mesh :: rest)
      = (if type = ShapeType.STATIC_MESH then
          (mesh.parts.map (fun meshPart => meshPart.triangleIndices)).flatten
        else if type = ShapeType.SIMPLE_COMPOUND then meshRuns s mesh
        else []) ++ expectedBuffer s type rest := by
  by_cases h1 : type = ShapeType.STATIC_MESH
  · simp [expectedBuffer, staticMeshBuffer, nonEmptyMeshes, h, h1]
  · by_cases h2 : type = ShapeType.SIMPLE_COMPOUND
    · simp [expectedBuffer, simpleCompoundBuffer, nonEmptyMeshes, h, h1, h2]
    · simp [expectedBuffer, h1, h2]

theorem simpleMeshesLoop_spec (s : Sentinels) (type : ShapeType) :
    ∀ (meshes : List (FBXMesh F)) (state : BuildState F),
      state.pointListIndex + (if type = ShapeType.SIMPLE_COMPOUND then meshes.length else 1)
          ≤ state.pointCollection.length →
      ∃ final, simpleMeshesLoop s type meshes state = some final ∧
        final.triangleIndices = state.triangleIndices ++ expectedBuffer s type meshes ∧
        final.extents = state.extents ++ allVertices meshes ∧
        final.pointCollection.length = state.pointCollection.length ∧
        (type ≠ ShapeType.SIMPLE_COMPOUND →
          final.pointListIndex = state.pointListIndex ∧
          ∀ points, state.pointListIndex = 0 → state.pointCollection = [points] →
            final.pointCollection = [points ++ allVertices meshes]) := by
  intro meshes
  induction meshes with
  | nil =>
    intro state _
    refine ⟨state, rfl, ?_, ?_, rfl, ?_⟩
    · simp [expectedBuffer, staticMeshBuffer, simpleCompoundBuffer, nonEmptyMeshes]
    · simp [allVertices]
    · intro _
      refine ⟨rfl, ?_⟩
      intro points _ hpc
      simp [allVertices, hpc]
  | cons mesh rest ih =>
    intro state hslots
    by_cases hempty : mesh.vertices.length = 0
    · have hslots' : state.pointListIndex
          + (if type = ShapeType.SIMPLE_COMPOUND then rest.length else 1)
          ≤ state.pointCollection.length := by
        by_cases hsc : type = ShapeType.SIMPLE_COMPOUND
        · simp only [hsc, if_true, List.length_cons] at hslots ⊢
          omega
        · simpa only [hsc, if_false] using hslots
      obtain ⟨final, hfinal, hti, hext, hlen, hshared⟩ := ih state hslots'
      refine ⟨final, ?_, ?_, ?_, hlen, ?_⟩
      · simp [simpleMeshesLoop, meshStep, hempty, hfinal]
      · rw [hti, expectedBuffer_cons_empty s type mesh rest hempty]
      · rw [hext, allVertices_cons, List.length_eq_zero.mp hempty, List.nil_append]
      · intro hne
        obtain ⟨hpli, hpts⟩ := hshared hne
        refine ⟨hpli, ?_⟩
        intro points h0 hpc
        rw [hpts points h0 hpc, allVertices_cons, List.length_eq_zero.mp hempty,
          List.nil_append]
    · have hslot : state.pointListIndex < state.pointCollection.length := by
        by_cases hsc : type = ShapeType.SIMPLE_COMPOUND
        · simp only [hsc, if_true, List.length_cons] at hslots
          omega
        · simp only [hsc, if_false] at hslots
          omega
      obtain ⟨points, hpoints⟩ : ∃ points,
          state.pointCollection[state.pointListIndex]? = some points :=
        ⟨_, List.getElem?_eq_getElem hslot⟩
      let next : BuildState F :=
        { pointCollection := state.pointCollection.set state.pointListIndex
            (points ++ mesh.vertices)
          triangleIndices :=
            if type = ShapeType.STATIC_MESH then
              staticMeshParts mesh.parts state.triangleIndices
            else if type = ShapeType.SIMPLE_COMPOUND then
              simpleCompoundParts s mesh.parts state.triangleIndices ++ [s.END_OF_MESH]
            else state.triangleIndices
          extents := state.extents ++ mesh.vertices
          meshCount := state.meshCount + 1
          pointListIndex :=
            if type = ShapeType.SIMPLE_COMPOUND then state.pointListIndex + 1
            else state.pointListIndex }
      have hstep : meshStep s type state mesh = some next := by
        simp [meshStep, hempty, hpoints, copyPoints_eq, next]
      have hslots' : next.pointListIndex
          + (if type = ShapeType.SIMPLE_COMPOUND then rest.length else 1)
          ≤ next.pointCollection.length := by
        simp only [next, List.length_set]
        by_cases hsc : type = ShapeType.SIMPLE_COMPOUND
        · simp only [hsc, if_true, List.length_cons] at hslots ⊢
          omega
        · simp only [hsc, if_false] at hslots ⊢
          omega
      obtain ⟨final, hfinal, hti, hext, hlen, hshared⟩ := ih next hslots'
      refine ⟨final, ?_, ?_, ?_, ?_, ?_⟩
      · simp [simpleMeshesLoop, hstep, hfinal]
      · rw [hti, expectedBuffer_cons s type mesh rest hempty]
        by_cases h1 : type = ShapeType.STATIC_MESH
        · simp [next, h1, staticMeshParts_eq]
        · by_cases h2 : type = ShapeType.SIMPLE_COMPOUND
          · simp [next, h1, h2, simpleCompoundParts_eq, meshRuns]
          · simp [next, h1, h2]
      · rw [hext, allVertices_cons]
        simp [next]
      · rw [hlen]
        simp [next]
      · intro hne
        obtain ⟨hpli, hpts⟩ := hshared hne
        refine ⟨by rw [hpli]; simp [next, hne], ?_⟩
        intro pts h0 hpc
        have hp : points = pts := by
          rw [hpc, h0] at hpoints
          simpa using hpoints.symm
        rw [hpts (pts ++ mesh.vertices) (by simp [next, hne, h0])
          (by simp [next, hpc, h0, hp]), allVertices_cons, List.append_assoc]

end SimpleLemmas

section BuiltLemmas

variable {F : Type} [FloatOps F]

theorem computeSimple_built (s : Sentinels) (type : ShapeType) (dimensions : Vec3 F)
    (shapeInfo : ShapeInfo F) (resource : GeometryResource F)
    (hwithin : WithinCeilings resource.geometry) :
    ∃ final : BuildState F,
      computeSimple s type dimensions shapeInfo resource
        = some { type := type
                 halfExtents := Vec3.scale FloatOps.half dimensions
                 url := resource.url
                 pointCollection := final.pointCollection
                 triangleIndices := final.triangleIndices } ∧
      final.triangleIndices = expectedBuffer s type resource.geometry.meshes ∧
      final.extents = allVertices resource.geometry.meshes ∧
      (type ≠ ShapeType.SIMPLE_COMPOUND →
        final.pointCollection = [allVertices resource.geometry.meshes]) := by
  obtain ⟨hvertices, hmeshes⟩ := hwithin
  have hfit : totalVertexCount resource.geometry ≤ INT32_MAX := by
    unfold INT32_MAX
    omega
  have hv : ¬ totalVertexCount resource.geometry > MAX_VERTICES_PER_STATIC_MESH := by
    unfold MAX_VERTICES_PER_STATIC_MESH
    omega
  have hm : ¬ resource.geometry.meshes.length > MAX_ALLOWED_MESH_COUNT := by
    unfold MAX_ALLOWED_MESH_COUNT
    omega
  obtain ⟨final, hfinal, hti, hext, _, hshared⟩ :=
    simpleMeshesLoop_spec s type resource.geometry.meshes
      { pointCollection :=
          if type = ShapeType.SIMPLE_COMPOUND then
            List.replicate resource.geometry.meshes.length [] else [[]]
        triangleIndices := []
        extents := []
        meshCount := 0
        pointListIndex := 0 }
      (by by_cases hsc : type = ShapeType.SIMPLE_COMPOUND <;> simp [hsc])
  refine ⟨final, ?_, by simpa using hti, by simpa using hext, ?_⟩
  · simp [computeSimple, countVertices_total resource.geometry hfit, hv, hm, hfinal,
      scaleLoop, setParams]
  · intro hne
    have h := (hshared hne).2 [] rfl (by simp [hne])
    simpa using h

theorem count_runs_mesh_terminator (s : Sentinels) (parts : List FBXMeshPart)
    (hdistinct : s.END_OF_MESH_PART ≠ s.END_OF_MESH)
    (hfree : ∀ meshPart ∈ parts, ∀ index ∈ meshPart.triangleIndices,
      index ≠ s.END_OF_MESH) :
    ((parts.map (partRun s)).flatten).count s.END_OF_MESH = 0 := by
  rw [List.count_eq_zero]
  intro hmem
  rw [List.mem_flatten] at hmem
  obtain ⟨run, hrun, hin⟩ := hmem
  rw [List.mem_map] at hrun
  obtain ⟨meshPart, hp, rfl⟩ := hrun
  rcases List.mem_append.mp hin with h | h
  · exact (hfree meshPart hp _ ((mem_uniquePartIndices meshPart _).mp h)) rfl
  · exact hdistinct (List.mem_singleton.mp h).symm

theorem count_runs_part_terminator (s : Sentinels) (parts : List FBXMeshPart)
    (hfree : ∀ meshPart ∈ parts, ∀ index ∈ meshPart.triangleIndices,
      index ≠ s.END_OF_MESH_PART) :
    ((parts.map (partRun s)).flatten).count s.END_OF_MESH_PART = parts.length := by
  induction parts with
  | nil => simp
  | cons meshPart rest ih =>
    have hrun : (uniquePartIndices meshPart).count s.END_OF_MESH_PART = 0 := by
      rw [List.count_eq_zero]
      intro h
      exact (hfree meshPart (List.mem_cons_self _ _) _
        ((mem_uniquePartIndices meshPart _).mp h)) rfl
    have hrest := ih (fun p hp => hfree p (List.mem_cons_of_mem _ hp))
    simp only [List.map_cons, List.flatten_cons, List.count_append, hrest, partRun, hrun,
      List.count_singleton_self, List.length_cons]
    omega

omit [FloatOps F] in
theorem count_mesh_terminator (s : Sentinels) (meshes : List (FBXMesh F))
    (hdistinct : s.END_OF_MESH_PART ≠ s.END_OF_MESH)
    (hfree : ∀ mesh ∈ meshes, ∀ meshPart ∈ mesh.parts, ∀ index ∈ meshPart.triangleIndices,
      index ≠ s.END_OF_MESH) :
    (simpleCompoundBuffer s meshes).count s.END_OF_MESH
      = (meshes.filter (fun mesh => decide (mesh.vertices.length ≠ 0))).length := by
  induction meshes with
  | nil => simp [simpleCompoundBuffer, nonEmptyMeshes]
  | cons mesh rest ih =>
    have hrest := ih (fun m hm => hfree m (List.mem_cons_of_mem _ hm))
    have hruns := count_runs_mesh_terminator s mesh.parts hdistinct
      (hfree mesh (List.mem_cons_self _ _))
    simp only [simpleCompoundBuffer, nonEmptyMeshes] at hrest ⊢
    by_cases hempty : mesh.vertices.length = 0
    · simpa [List.filter_cons, hempty] using hrest
    · simp only [List.filter_cons, hempty, ne_eq, not_false_eq_true, decide_True, if_true,
        List.map_cons, List.flatten_cons, List.count_append, hrest, meshRuns, hruns,
        List.count_singleton_self, List.length_cons]
      omega

omit [FloatOps F] in
theorem count_part_terminator (s : Sentinels) (meshes : List (FBXMesh F))
    (hdistinct : s.END_OF_MESH_PART ≠ s.END_OF_MESH)
    (hfree : ∀ mesh ∈ meshes, ∀ meshPart ∈ mesh.parts, ∀ index ∈ meshPart.triangleIndices,
      index ≠ s.END_OF_MESH_PART) :
    (simpleCompoundBuffer s meshes).count s.END_OF_MESH_PART
      = ((meshes.filter (fun mesh => decide (mesh.vertices.length ≠ 0))).map
          (fun mesh => mesh.parts.length)).sum := by
  induction meshes with
  | nil => simp [simpleCompoundBuffer, nonEmptyMeshes]
  | cons mesh rest ih =>
    have hrest := ih (fun m hm => hfree m (List.mem_cons_of_mem _ hm))
    have hruns := count_runs_part_terminator s mesh.parts
      (hfree mesh (List.mem_cons_self _ _))
    simp only [simpleCompoundBuffer, nonEmptyMeshes] at hrest ⊢
    by_cases hempty : mesh.vertices.length = 0
    · simpa [List.filter_cons, hempty] using hrest
    · have hne : (s.END_OF_MESH == s.END_OF_MESH_PART) = false := by
        simpa using fun h => hdistinct h.symm
      simp only [List.filter_cons, hempty, ne_eq, not_false_eq_true, decide_True, if_true,
        List.map_cons, List.flatten_cons, List.count_append, hrest, meshRuns, hruns,
        List.sum_cons, List.count_singleton, hne]
      simp

end BuiltLemmas

/-! ## What a build of a simple kind returns -/

section ResultLemmas

variable {F : Type}

theorem countVertices_unfold (meshes : List (FBXMesh F)) :
    ∀ start : Nat, start ≤ INT32_MAX →
      countVertices meshes start
        = if start + (meshes.map (fun mesh => mesh.vertices.length)).sum ≤ INT32_MAX then
            some (start + (meshes.map (fun mesh => mesh.vertices.length)).sum)
          else none := by
  induction meshes with
  | nil => intro start hstart; simp [countVertices, hstart]
  | cons mesh rest ih =>
    intro start _
    simp only [countVertices, List.map_cons, List.sum_cons]
    by_cases h1 : start + mesh.vertices.length ≤ INT32_MAX
    · simp only [h1, if_true, ih _ h1, Nat.add_assoc]
    · have h2 : ¬ start + (mesh.vertices.length
          + (rest.map (fun mesh => mesh.vertices.length)).sum) ≤ INT32_MAX := by omega
      simp only [h1, h2, if_false]

theorem nonEmptyMeshes_length_le (meshes : List (FBXMesh F)) :
    (nonEmptyMeshes meshes).length ≤ meshes.length :=
  List.length_filter_le _ _

variable [FloatOps F]

theorem computeSimple_unfold (s : Sentinels) (type : ShapeType) (dimensions : Vec3 F)
    (shapeInfo : ShapeInfo F) (resource : GeometryResource F) :
    computeSimple s type dimensions shapeInfo resource
      = if totalVertexCount resource.geometry ≤ INT32_MAX then
          if 1000000 < totalVertexCount resource.geometry
              ∨ 1000 < resource.geometry.meshes.length then
            some ⟨ShapeType.BOX, Vec3.scale FloatOps.half dimensions, "",
              shapeInfo.pointCollection, shapeInfo.triangleIndices⟩
          else
            (simpleMeshesLoop s type resource.geometry.meshes
              ⟨if type = ShapeType.SIMPLE_COMPOUND then
                  List.replicate resource.geometry.meshes.length [] else [[]],
                [], [], 0, 0⟩).map
              (fun final => ⟨type, Vec3.scale FloatOps.half dimensions, resource.url,
                final.pointCollection, final.triangleIndices⟩)
        else none := by
  have hcount := countVertices_unfold resource.geometry.meshes 0 (Nat.zero_le _)
  simp only [Nat.zero_add] at hcount
  simp only [computeSimple, hcount]
  by_cases hfit : totalVertexCount resource.geometry ≤ INT32_MAX
  · have hfit' : (resource.geometry.meshes.map (fun mesh => mesh.vertices.length)).sum
        ≤ INT32_MAX := hfit
    simp only [hfit, hfit', if_true, Option.bind_eq_bind, Option.some_bind]
    by_cases hv : 1000000 < totalVertexCount resource.geometry
    · have hv' : (resource.geometry.meshes.map (fun mesh => mesh.vertices.length)).sum
          > MAX_VERTICES_PER_STATIC_MESH := hv
      simp [hv, hv', setParams]
    · have hv' : ¬ (resource.geometry.meshes.map (fun mesh => mesh.vertices.length)).sum
          > MAX_VERTICES_PER_STATIC_MESH := hv
      by_cases hm : 1000 < resource.geometry.meshes.length
      · have hm' : resource.geometry.meshes.length > MAX_ALLOWED_MESH_COUNT := hm
        simp [hv, hv', hm, hm', setParams]
      · have hm' : ¬ resource.geometry.meshes.length > MAX_ALLOWED_MESH_COUNT := hm
        simp only [hv, hv', hm, hm', if_false, or_self]
        cases simpleMeshesLoop s type resource.geometry.meshes
          ⟨if type = ShapeType.SIMPLE_COMPOUND then
              List.replicate resource.geometry.meshes.length [] else [[]],
            [], [], 0, 0⟩ <;> simp [scaleLoop, setParams]
  · have hfit' : ¬ (resource.geometry.meshes.map (fun mesh => mesh.vertices.length)).sum
        ≤ INT32_MAX := hfit
    simp [hfit, hfit']

omit [FloatOps F] in
theorem simpleMeshesLoop_compound_points (s : Sentinels) :
    ∀ (meshes : List (FBXMesh F)) (state final : BuildState F)
      (filled : PointCollection F) (spare : Nat),
      state.pointCollection = filled ++ List.replicate spare [] →
      filled.length = state.pointListIndex →
      meshes.length ≤ spare →
      simpleMeshesLoop s ShapeType.SIMPLE_COMPOUND meshes state = some final →
      final.pointCollection
        = filled ++ (nonEmptyMeshes meshes).map (fun mesh => mesh.vertices)
          ++ List.replicate (spare - (nonEmptyMeshes meshes).length) [] := by
  intro meshes
  induction meshes with
  | nil =>
    intro state final filled spare hpc _ _ hloop
    simp only [simpleMeshesLoop, Option.some.injEq] at hloop
    subst hloop
    simp [nonEmptyMeshes, hpc]
  | cons mesh rest ih =>
    intro state final filled spare hpc hlen hspare hloop
    by_cases hempty : mesh.vertices.length = 0
    · have hstep : meshStep s ShapeType.SIMPLE_COMPOUND state mesh = some state := by
        simp [meshStep, hempty]
      simp only [simpleMeshesLoop, hstep, Option.bind_eq_bind, Option.some_bind] at hloop
      have h := ih state final filled spare hpc hlen
        (by simp only [List.length_cons] at hspare; omega) hloop
      simpa [nonEmptyMeshes, hempty] using h
    · simp only [List.length_cons] at hspare
      obtain ⟨spare', rfl⟩ : ∃ k, spare = k + 1 := ⟨spare - 1, by omega⟩
      have hslot : state.pointCollection[state.pointListIndex]? = some [] := by
        rw [hpc, ← hlen, List.getElem?_append_right (Nat.le_refl _)]
        simp [List.replicate_succ]
      have hset : state.pointCollection.set state.pointListIndex mesh.vertices
          = (filled ++ [mesh.vertices]) ++ List.replicate spare' [] := by
        rw [hpc, ← hlen, List.set_append_right _ _ (Nat.le_refl _)]
        simp [List.replicate_succ]
      have hstep : meshStep s ShapeType.SIMPLE_COMPOUND state mesh
          = some ⟨(filled ++ [mesh.vertices]) ++ List.replicate spare' [],
              simpleCompoundParts s mesh.parts state.triangleIndices ++ [s.END_OF_MESH],
              state.extents ++ mesh.vertices, state.meshCount + 1,
              state.pointListIndex + 1⟩ := by
        simp [meshStep, hempty, hslot, copyPoints_eq, hset]
      simp only [simpleMeshesLoop, hstep, Option.bind_eq_bind, Option.some_bind] at hloop
      have h := ih _ final (filled ++ [mesh.vertices]) spare' rfl
        (by simp [hlen]) (by omega) hloop
      rw [h]
      have hne : nonEmptyMeshes (mesh :: rest) = mesh :: nonEmptyMeshes rest := by
        simp [nonEmptyMeshes, hempty]
      simp [hne]

theorem computeSimple_points (s : Sentinels) (type : ShapeType) (dimensions : Vec3 F)
    (shapeInfo : ShapeInfo F) (resource : GeometryResource F)
    (hwithin : WithinCeilings resource.geometry) :
    ∃ out, computeSimple s type dimensions shapeInfo resource = some out ∧
      out.pointCollection = sourcePointLists type resource.geometry.meshes ∧
      out.triangleIndices = expectedBuffer s type resource.geometry.meshes ∧
      out.type = type ∧
      out.halfExtents = Vec3.scale FloatOps.half dimensions ∧
      out.url = resource.url := by
  obtain ⟨hvertices, hmeshes⟩ := hwithin
  have hfit : totalVertexCount resource.geometry ≤ INT32_MAX := by
    unfold INT32_MAX
    omega
  have hceil : ¬ (1000000 < totalVertexCount resource.geometry
      ∨ 1000 < resource.geometry.meshes.length) := by omega
  obtain ⟨final, hfinal, hti, _, _, hshared⟩ :=
    simpleMeshesLoop_spec s type resource.geometry.meshes
      ⟨if type = ShapeType.SIMPLE_COMPOUND then
          List.replicate resource.geometry.meshes.length [] else [[]],
        [], [], 0, 0⟩
      (by by_cases hsc : type = ShapeType.SIMPLE_COMPOUND <;> simp [hsc])
  refine ⟨⟨type, Vec3.scale FloatOps.half dimensions, resource.url,
      final.pointCollection, final.triangleIndices⟩, ?_, ?_, by simpa using hti,
    rfl, rfl, rfl⟩
  · rw [computeSimple_unfold, if_pos hfit, if_neg hceil, hfinal]
    rfl
  · show final.pointCollection = _
    by_cases hsc : type = ShapeType.SIMPLE_COMPOUND
    · subst hsc
      have h := simpleMeshesLoop_compound_points s resource.geometry.meshes _ final []
        resource.geometry.meshes.length (by simp) rfl (Nat.le_refl _) hfinal
      simpa [sourcePointLists] using h
    · have h := (hshared hsc).2 [] rfl (by simp [hsc])
      simpa [sourcePointLists, hsc] using h

end ResultLemmas

section MoreResultLemmas
variable {F : Type} [FloatOps F]

theorem computeSimple_isSome (s : Sentinels) (type : ShapeType) (dimensions : Vec3 F)
    (shapeInfo : ShapeInfo F) (resource : GeometryResource F)
    (hfit : totalVertexCount resource.geometry ≤ INT32_MAX) :
    ∃ out, computeSimple s type dimensions shapeInfo resource = some out := by
  by_cases hceil : 1000000 < totalVertexCount resource.geometry
      ∨ 1000 < resource.geometry.meshes.length
  · exact ⟨_, by rw [computeSimple_unfold, if_pos hfit, if_pos hceil]⟩
  · obtain ⟨out, hout, _⟩ := computeSimple_points s type dimensions shapeInfo resource
      ⟨by omega, by omega⟩
    exact ⟨out, hout⟩

theorem boundaryResource_total : totalVertexCount boundaryResource.geometry = 1000000 := by
  show ((List.replicate 1000 (⟨List.replicate 1000 ⟨0, 0, 0⟩, []⟩ : FBXMesh ℚ)).map
    (fun mesh => mesh.vertices.length)).sum = 1000000
  rw [List.map_replicate, List.length_replicate, List.sum_replicate, smul_eq_mul]

theorem boundaryResource_meshes : boundaryResource.geometry.meshes.length = 1000 :=
  List.length_replicate _ _

theorem second_simple_build (s : Sentinels) (pick : CollisionRegion F)
    (shapeInfo : ShapeInfo F) (resource : GeometryResource F) (out : ShapeInfo F)
    (hkind : IsSimpleKind shapeInfo.type)
    (hout : computeShapeInfo s pick shapeInfo resource = some out) :
    computeShapeInfo s { pick with shapeInfo := out } out resource = some out := by
  rw [computeShapeInfo_simple s pick shapeInfo resource hkind, computeSimple_unfold] at hout
  split at hout
  next hfit =>
    split at hout
    next hceil =>
      simp only [Option.some.injEq] at hout
      subst hout
      simp [computeShapeInfo]
    next hceil =>
      cases hloop : simpleMeshesLoop s shapeInfo.type resource.geometry.meshes
        ⟨if shapeInfo.type = ShapeType.SIMPLE_COMPOUND then
            List.replicate resource.geometry.meshes.length [] else [[]],
          [], [], 0, 0⟩ with
      | none => simp [hloop] at hout
      | some final =>
        simp only [hloop, Option.map_some', Option.some.injEq] at hout
        subst hout
        have hsecond := computeShapeInfo_simple s
          { pick with
            shapeInfo := ⟨shapeInfo.type, Vec3.scale FloatOps.half pick.transformScale,
              resource.url, final.pointCollection, final.triangleIndices⟩ }
          ⟨shapeInfo.type, Vec3.scale FloatOps.half pick.transformScale, resource.url,
            final.pointCollection, final.triangleIndices⟩ resource hkind
        rw [hsecond, computeSimple_unfold, if_pos hfit, if_neg hceil]
        exact congrArg _ hloop
  next => simp at hout

end MoreResultLemmas

/-! ## The compound hulls against their reference -/

section ReferenceHulls
variable {F : Type} [FloatOps F]

omit [FloatOps F] in
theorem lookupAll_eq_referenced (vertices : List (Vec3 F)) (indices : List Int)
    (hrange : ∀ index ∈ indices, 0 ≤ index ∧ index < vertices.length) :
    lookupAll vertices indices = some (referencedVertices vertices indices) := by
  induction indices with
  | nil => rfl
  | cons index rest ih =>
    obtain ⟨h0, h1⟩ := hrange index (List.mem_cons_self _ _)
    have hlt : index.toNat < vertices.length := by omega
    have hv : vertexAt vertices index = some vertices[index.toNat] := by
      simp [vertexAt, h0, List.getElem?_eq_getElem hlt]
    simp [lookupAll, referencedVertices, hv,
      ih (fun i hi => hrange i (List.mem_cons_of_mem _ hi))]

omit [FloatOps F] in
theorem facePoints_eq_referenced (mesh : FBXMesh F) (meshPart : FBXMeshPart)
    (ht : ∀ index ∈ meshPart.triangleIndices, 0 ≤ index ∧ index < mesh.vertices.length)
    (hq : ∀ index ∈ meshPart.quadIndices, 0 ≤ index ∧ index < mesh.vertices.length) :
    facePoints mesh meshPart
      = some (referencedVertices mesh.vertices (truncated 3 meshPart.triangleIndices)
          ++ referencedVertices mesh.vertices (truncated 4 meshPart.quadIndices)) := by
  simp [facePoints,
    lookupAll_eq_referenced mesh.vertices _ (fun i hi => ht i (mem_truncated _ _ _ hi)),
    lookupAll_eq_referenced mesh.vertices _ (fun i hi => hq i (mem_truncated _ _ _ hi))]

theorem vec3_eq_trans
    (htrans : ∀ a b c : F, FloatOps.eq a b = true → FloatOps.eq b c = true →
      FloatOps.eq a c = true)
    (p q r : Vec3 F) (hpq : Vec3.eq p q = true) (hqr : Vec3.eq q r = true) :
    Vec3.eq p r = true := by
  simp only [Vec3.eq, Bool.and_eq_true] at hpq hqr ⊢
  exact ⟨⟨htrans _ _ _ hpq.1.1 hqr.1.1, htrans _ _ _ hpq.1.2 hqr.1.2⟩,
    htrans _ _ _ hpq.2 hqr.2⟩

theorem contains_append_singleton (points : PointList F) (p q : Vec3 F) :
    contains (points ++ [p]) q = (contains points q || Vec3.eq p q) := by
  simp [contains]

theorem foldl_addUnique_eq_keepFirstFrom
    (htrans : ∀ a b c : F, FloatOps.eq a b = true → FloatOps.eq b c = true →
      FloatOps.eq a c = true)
    (points : List (Vec3 F)) :
    ∀ kept earlier : List (Vec3 F),
      (∀ q, contains kept q = contains earlier q) →
      points.foldl addUnique kept = kept ++ keepFirstFrom earlier points := by
  induction points with
  | nil => intro kept earlier _; simp [keepFirstFrom]
  | cons p rest ih =>
    intro kept earlier hinv
    simp only [List.foldl_cons, keepFirstFrom]
    by_cases hc : contains kept p = true
    · have hc' : contains earlier p = true := by rw [← hinv]; exact hc
      rw [if_pos hc']
      have hadd : addUnique kept p = kept := by simp [addUnique, hc]
      rw [hadd]
      apply ih
      intro q
      rw [contains_append_singleton, ← hinv q]
      cases hpq : Vec3.eq p q with
      | false => simp
      | true =>
        simp only [Bool.or_true]
        unfold contains at hc ⊢
        rw [List.any_eq_true] at hc ⊢
        obtain ⟨e, he, hep⟩ := hc
        exact ⟨e, he, vec3_eq_trans htrans e p q hep hpq⟩
    · have hc' : ¬ contains earlier p = true := by rw [← hinv]; exact hc
      rw [if_neg hc']
      have hadd : addUnique kept p = kept ++ [p] := by simp [addUnique, hc]
      rw [hadd, ih (kept ++ [p]) (earlier ++ [p])]
      · simp
      · intro q
        rw [contains_append_singleton, contains_append_singleton, hinv q]

theorem firstOccurrences_eq_keepFirstFrom
    (htrans : ∀ a b c : F, FloatOps.eq a b = true → FloatOps.eq b c = true →
      FloatOps.eq a c = true)
    (points : List (Vec3 F)) :
    firstOccurrences points = keepFirstFrom [] points := by
  have h := foldl_addUnique_eq_keepFirstFrom htrans points [] [] (fun _ => rfl)
  simpa [firstOccurrences] using h

theorem hullsOfParts_eq_filter (mesh : FBXMesh F) (parts : List FBXMeshPart)
    (hrange : ∀ meshPart ∈ parts,
      (∀ index ∈ meshPart.triangleIndices, 0 ≤ index ∧ index < mesh.vertices.length) ∧
      (∀ index ∈ meshPart.quadIndices, 0 ≤ index ∧ index < mesh.vertices.length)) :
    hullsOfParts mesh parts
      = some ((parts.filter hasCompleteFace).map (fun meshPart =>
          firstOccurrences
            (referencedVertices mesh.vertices (truncated 3 meshPart.triangleIndices)
              ++ referencedVertices mesh.vertices (truncated 4 meshPart.quadIndices)))) := by
  induction parts with
  | nil => rfl
  | cons meshPart rest ih =>
    obtain ⟨ht, hq⟩ := hrange meshPart (List.mem_cons_self _ _)
    have hface := facePoints_eq_referenced mesh meshPart ht hq
    have hzero := facePoints_length_eq_zero mesh meshPart _ hface
    have hrest := ih (fun p hp => hrange p (List.mem_cons_of_mem _ hp))
    simp only [hullsOfParts, hface, hrest, Option.bind_eq_bind, Option.some_bind]
    by_cases hz : (firstOccurrences
        (referencedVertices mesh.vertices (truncated 3 meshPart.triangleIndices)
          ++ referencedVertices mesh.vertices (truncated 4 meshPart.quadIndices))).length = 0
    · have hf : hasCompleteFace meshPart = false :=
        hzero.mp ((firstOccurrences_length_eq_zero _).mp hz)
      simp [hz, List.filter_cons, hf]
    · have hf : hasCompleteFace meshPart = true := by
        cases hb : hasCompleteFace meshPart with
        | true => rfl
        | false => exact absurd ((firstOccurrences_length_eq_zero _).mpr (hzero.mpr hb)) hz
      simp [hz, List.filter_cons, hf]

theorem hullsOfMeshes_eq_flatMap (meshes : List (FBXMesh F))
    (hrange : ∀ mesh ∈ meshes, ∀ meshPart ∈ mesh.parts,
      (∀ index ∈ meshPart.triangleIndices, 0 ≤ index ∧ index < mesh.vertices.length) ∧
      (∀ index ∈ meshPart.quadIndices, 0 ≤ index ∧ index < mesh.vertices.length)) :
    hullsOfMeshes meshes
      = some (meshes.flatMap (fun mesh =>
          (mesh.parts.filter hasCompleteFace).map (fun meshPart =>
            firstOccurrences
              (referencedVertices mesh.vertices (truncated 3 meshPart.triangleIndices)
                ++ referencedVertices mesh.vertices (truncated 4 meshPart.quadIndices))))) := by
  induction meshes with
  | nil => rfl
  | cons mesh rest ih =>
    have hparts := hullsOfParts_eq_filter mesh mesh.parts (hrange mesh (List.mem_cons_self _ _))
    have hrest := ih (fun m hm => hrange m (List.mem_cons_of_mem _ hm))
    simp [hullsOfMeshes, hparts, hrest, List.flatMap_cons]

end ReferenceHulls

/-! ## Lemmas on the callbacks and the queries -/

section CallbackLemmas
variable {F M B G ID H SM : Type}

theorem addSingleResult_eq (kind : OwnerKind M ID) (bulletToGLM : B → G)
    (callback : Callback H ID G) (pair : ContactPair M B) :
    addSingleResult kind bulletToGLM callback pair
      = { callback with
          intersectingObjects := callback.intersectingObjects ++
            (contactResultOf kind bulletToGLM callback.collisionObjectAddress pair).toList } := by
  by_cases h0 : pair.colObj0.address = callback.collisionObjectAddress
  · cases hr : pair.colObj1.isRigidBody with
    | false => simp [addSingleResult, contactResultOf, isAccepted, otherBodyOf, h0, hr]
    | true =>
      cases hm : pair.colObj1.motionState with
      | none =>
        simp [addSingleResult, checkOrAddCollidingState, contactResultOf, isAccepted,
          otherBodyOf, h0, hr, hm]
      | some candidate =>
        cases hk : kind.isKind candidate <;>
          simp [addSingleResult, checkOrAddCollidingState, contactResultOf, isAccepted,
            otherBodyOf, h0, hr, hm, hk]
  · cases hr : pair.colObj0.isRigidBody with
    | false => simp [addSingleResult, contactResultOf, isAccepted, otherBodyOf, h0, hr]
    | true =>
      cases hm : pair.colObj0.motionState with
      | none =>
        simp [addSingleResult, checkOrAddCollidingState, contactResultOf, isAccepted,
          otherBodyOf, h0, hr, hm]
      | some candidate =>
        cases hk : kind.isKind candidate <;>
          simp [addSingleResult, checkOrAddCollidingState, contactResultOf, isAccepted,
            otherBodyOf, h0, hr, hm, hk]

theorem contactTest_eq (kind : OwnerKind M ID) (bulletToGLM : B → G)
    (reported : List (ContactPair M B)) :
    ∀ callback : Callback H ID G,
      contactTest kind bulletToGLM reported callback
        = { callback with
            intersectingObjects := callback.intersectingObjects ++
              reported.filterMap
                (contactResultOf kind bulletToGLM callback.collisionObjectAddress) } := by
  induction reported with
  | nil => intro callback; simp [contactTest]
  | cons pair rest ih =>
    intro callback
    have hstep := addSingleResult_eq kind bulletToGLM callback pair
    have hrest := ih (addSingleResult kind bulletToGLM callback pair)
    simp only [contactTest, List.foldl_cons] at hrest ⊢
    rw [hrest, hstep]
    cases hres : contactResultOf kind bulletToGLM callback.collisionObjectAddress pair <;>
      simp [List.filterMap_cons, hres]

theorem contactResultOf_isSome (kind : OwnerKind M ID) (bulletToGLM : B → G)
    (probeAddress : Nat) (pair : ContactPair M B) :
    (contactResultOf kind bulletToGLM probeAddress pair).isSome
      = isAccepted kind probeAddress pair := by
  unfold contactResultOf
  cases ha : isAccepted kind probeAddress pair with
  | false => simp
  | true =>
    simp only [if_true]
    cases hm : (otherBodyOf probeAddress pair).motionState with
    | none => simp [isAccepted, hm] at ha
    | some candidate =>
      by_cases h0 : pair.colObj0.address = probeAddress <;> simp [h0]

end CallbackLemmas

section QueryLemmas
variable {F M B G ID H SM : Type} [FloatOps F]

theorem runQuery_ready (s : Sentinels) (c : Collaborators F M B G ID H SM)
    (kind : OwnerKind M ID) (address : Nat) (manager : Manager SM H)
    (cachedResource : Option (GeometryResource F)) (pick : CollisionRegion F)
    (hready : c.shouldComputeShapeInfo pick = false) :
    runQuery s c kind address manager cachedResource pick
      = some (⟨true, pick, cachedResource, 0⟩,
          ⟨c.shapeManager.releaseShape
              (c.shapeManager.getShape manager.state pick.shapeInfo).1
              (c.shapeManager.getShape manager.state pick.shapeInfo).2,
            manager.events ++
              [ShapeEvent.getShape (c.shapeManager.getShape manager.state pick.shapeInfo).2,
               ShapeEvent.releaseShape
                (c.shapeManager.getShape manager.state pick.shapeInfo).2]⟩,
          some ((c.reported
              ⟨address, (c.shapeManager.getShape manager.state pick.shapeInfo).2, []⟩).filterMap
            (contactResultOf kind c.bulletToGLM address))) := by
  simp only [runQuery, isShapeInfoReady, hready, Bool.false_eq_true, if_false,
    Option.bind_eq_bind, Option.some_bind, Bool.not_true, construct, destruct,
    contactTest_eq, List.append_assoc, List.singleton_append, List.nil_append]

theorem runQuery_not_ready (s : Sentinels) (c : Collaborators F M B G ID H SM)
    (kind : OwnerKind M ID) (address : Nat) (manager : Manager SM H)
    (cachedResource : Option (GeometryResource F)) (pick : CollisionRegion F)
    (hcompute : c.shouldComputeShapeInfo pick = true)
    (run : ReadyResult F × Manager SM H × Option (List (Intersection ID G)))
    (hrun : runQuery s c kind address manager cachedResource pick = some run) :
    run.2.1 = manager ∧ run.2.2 = none := by
  simp only [runQuery, isShapeInfoReady, hcompute, if_true, Option.bind_eq_bind] at hrun
  split at hrun
  · cases hbuilt : computeShapeInfo s pick pick.shapeInfo
        (refreshResource c.getCollisionGeometryResource cachedResource pick) with
    | none => simp [hbuilt] at hrun
    | some built =>
      simp only [hbuilt, Option.some_bind, Bool.not_false, if_true, Option.some.injEq] at hrun
      subst hrun
      exact ⟨rfl, rfl⟩
  · simp only [Option.some_bind, Bool.not_false, if_true, Option.some.injEq] at hrun
    subst hrun
    exact ⟨rfl, rfl⟩

end QueryLemmas

/-! ## The counters of the two branches and the reads of a face -/

section IndexLemmas

variable {F : Type} [FloatOps F]

theorem meshesLoop_state_before (before : List (FBXMesh F)) (mesh : FBXMesh F)
    (partsBefore : List FBXMeshPart)
    (hbefore : ∀ m ∈ before, ∀ meshPart ∈ m.parts,
      (∀ index ∈ meshPart.triangleIndices, 0 ≤ index ∧ index < m.vertices.length) ∧
      (∀ index ∈ meshPart.quadIndices, 0 ≤ index ∧ index < m.vertices.length))
    (hparts : ∀ meshPart ∈ partsBefore,
      (∀ index ∈ meshPart.triangleIndices, 0 ≤ index ∧ index < mesh.vertices.length) ∧
      (∀ index ∈ meshPart.quadIndices, 0 ≤ index ∧ index < mesh.vertices.length)) :
    ∃ pointCollection : PointCollection F,
      (meshesLoop before ([], 0)).bind (partsLoop mesh partsBefore)
        = some (pointCollection, pointCollection.length) := by
  obtain ⟨hulls, hhulls⟩ := hullsOfMeshes_isSome before hbefore
  obtain ⟨more, hmore⟩ := hullsOfParts_isSome mesh partsBefore hparts
  have h := meshesLoop_eq before ([] : PointCollection F)
  simp only [List.length_nil, List.nil_append, Nat.zero_add, hhulls, Option.map_some'] at h
  refine ⟨hulls ++ more, ?_⟩
  rw [h, Option.some_bind, partsLoop_eq mesh partsBefore hulls, hmore, Option.map_some',
    List.length_append]

theorem partStep_isSome (mesh : FBXMesh F) (meshPart : FBXMeshPart)
    (pointCollection : PointCollection F)
    (ht : ∀ index ∈ meshPart.triangleIndices, 0 ≤ index ∧ index < mesh.vertices.length)
    (hq : ∀ index ∈ meshPart.quadIndices, 0 ≤ index ∧ index < mesh.vertices.length) :
    ∃ next : PointCollection F,
      partStep mesh (pointCollection, pointCollection.length) meshPart
        = some (next, next.length) := by
  obtain ⟨vs, hvs⟩ := facePoints_isSome mesh meshPart ht hq
  rw [partStep_eq, hvs, Option.map_some']
  by_cases h0 : (firstOccurrences vs).length = 0
  · exact ⟨pointCollection, by rw [if_pos h0]⟩
  · exact ⟨pointCollection ++ [firstOccurrences vs], by
      rw [if_neg h0, List.length_append, List.length_singleton]⟩

omit [FloatOps F] in
theorem meshStep_index (s : Sentinels) (type : ShapeType) (state next : BuildState F)
    (mesh : FBXMesh F) (h : meshStep s type state mesh = some next) :
    next.pointCollection.length = state.pointCollection.length ∧
    next.pointListIndex ≤ state.pointListIndex + 1 ∧
    (type ≠ ShapeType.SIMPLE_COMPOUND → next.pointListIndex = state.pointListIndex) := by
  unfold meshStep at h
  by_cases h0 : mesh.vertices.length = 0
  · rw [if_pos h0, Option.some.injEq] at h
    subst h
    exact ⟨rfl, Nat.le_succ _, fun _ => rfl⟩
  · rw [if_neg h0] at h
    simp only [Option.bind_eq_bind] at h
    cases hslot : state.pointCollection[state.pointListIndex]? with
    | none => simp [hslot] at h
    | some points =>
      simp only [hslot, Option.some_bind, Option.some.injEq] at h
      subst h
      refine ⟨by simp, ?_, ?_⟩
      · by_cases hk : type = ShapeType.SIMPLE_COMPOUND
        · simp [hk]
        · simp [hk]
      · intro hk
        simp [hk]

omit [FloatOps F] in
theorem simpleMeshesLoop_index (s : Sentinels) (type : ShapeType) :
    ∀ (meshes : List (FBXMesh F)) (state final : BuildState F),
      simpleMeshesLoop s type meshes state = some final →
      final.pointCollection.length = state.pointCollection.length ∧
      final.pointListIndex ≤ state.pointListIndex + meshes.length ∧
      (type ≠ ShapeType.SIMPLE_COMPOUND → final.pointListIndex = state.pointListIndex) := by
  intro meshes
  induction meshes with
  | nil =>
    intro state final h
    simp only [simpleMeshesLoop, Option.some.injEq] at h
    subst h
    exact ⟨rfl, Nat.le_refl _, fun _ => rfl⟩
  | cons mesh rest ih =>
    intro state final h
    simp only [simpleMeshesLoop, Option.bind_eq_bind] at h
    cases hstep : meshStep s type state mesh with
    | none => simp [hstep] at h
    | some next =>
      rw [hstep, Option.some_bind] at h
      obtain ⟨h1, h2, h3⟩ := meshStep_index s type state next mesh hstep
      obtain ⟨k1, k2, k3⟩ := ih next final h
      refine ⟨k1.trans h1, ?_, fun hk => (k3 hk).trans (h3 hk)⟩
      rw [List.length_cons]
      omega

omit [FloatOps F] in
theorem meshStep_isSome (s : Sentinels) (type : ShapeType) (state : BuildState F)
    (mesh : FBXMesh F) (h : state.pointListIndex < state.pointCollection.length) :
    ∃ next, meshStep s type state mesh = some next := by
  unfold meshStep
  by_cases h0 : mesh.vertices.length = 0
  · exact ⟨state, by rw [if_pos h0]⟩
  · rw [if_neg h0]
    simp only [Option.bind_eq_bind, List.getElem?_eq_getElem h, Option.some_bind]
    exact ⟨_, rfl⟩

omit [FloatOps F] in
theorem simpleMeshesLoop_state_before (s : Sentinels) (type : ShapeType)
    (before : List (FBXMesh F)) (mesh : FBXMesh F) (after : List (FBXMesh F)) :
    ∃ state,
      simpleMeshesLoop s type before
          ⟨if type = ShapeType.SIMPLE_COMPOUND then
              List.replicate (before ++ mesh :: after).length [] else [[]],
            [], [], 0, 0⟩ = some state ∧
      state.pointListIndex < state.pointCollection.length := by
  have hslots : (0 : Nat) + (if type = ShapeType.SIMPLE_COMPOUND then before.length else 1)
      ≤ (if type = ShapeType.SIMPLE_COMPOUND then
          List.replicate (before ++ mesh :: after).length ([] : PointList F)
          else [[]]).length := by
    by_cases hk : type = ShapeType.SIMPLE_COMPOUND
    · simp [hk]
    · simp [hk]
  obtain ⟨state, hstate, _⟩ := simpleMeshesLoop_spec s type before
    (⟨if type = ShapeType.SIMPLE_COMPOUND then
        List.replicate (before ++ mesh :: after).length [] else [[]], [], [], 0, 0⟩ :
      BuildState F) hslots
  obtain ⟨hlen, hle, hsame⟩ := simpleMeshesLoop_index s type before _ state hstate
  refine ⟨state, hstate, ?_⟩
  rw [hlen]
  by_cases hk : type = ShapeType.SIMPLE_COMPOUND
  · simp only [hk, if_true, List.length_replicate, List.length_append, List.length_cons,
      Nat.zero_add] at hle ⊢
    omega
  · rw [hsame hk]
    simp [hk]


omit [FloatOps F] in
theorem vertexAt_isSome (vertices : List (Vec3 F)) (index : Int)
    (h : 0 ≤ index ∧ index < vertices.length) :
    ∃ p, vertexAt vertices index = some p := by
  have hlt : index.toNat < vertices.length := by omega
  exact ⟨vertices[index.toNat], by simp [vertexAt, h.1, List.getElem?_eq_getElem hlt]⟩

theorem stride_read_lt (stride length j k : Nat) (hj : stride ∣ j)
    (hlt : j < length - length % stride) (hk : k < stride) :
    j + k < length - length % stride := by
  obtain ⟨a, rfl⟩ := hj
  obtain ⟨b, hb⟩ : stride ∣ length - length % stride := Nat.dvd_sub_mod _
  rw [hb] at hlt ⊢
  have hab : a < b := Nat.lt_of_mul_lt_mul_left hlt
  have hle : stride * (a + 1) ≤ stride * b := Nat.mul_le_mul_left _ hab
  rw [Nat.mul_succ] at hle
  omega

omit [FloatOps F] in
theorem face_read_isSome (vertices : List (Vec3 F)) (indices : List Int) (stride : Nat)
    (hrange : ∀ index ∈ indices, 0 ≤ index ∧ index < vertices.length)
    (j k : Nat) (hj : stride ∣ j) (hlt : j < indices.length - indices.length % stride)
    (hk : k < stride) :
    j + k < indices.length - indices.length % stride ∧
    ∃ p, (indices[j + k]?).bind (vertexAt vertices) = some p := by
  have hread := stride_read_lt stride indices.length j k hj hlt hk
  have hin : j + k < indices.length := by omega
  refine ⟨hread, ?_⟩
  rw [List.getElem?_eq_getElem hin, Option.some_bind]
  exact vertexAt_isSome vertices _ (hrange _ (List.getElem_mem _))

end IndexLemmas

/-! ## A compound build whose vertex list has an arbitrary tail -/

section LeadingTriangle

theorem compound_of_leading_triangle (tail : List (Vec3 ℚ)) :
    computeShapeInfo sentinels (pickOf "huge" ShapeType.COMPOUND)
        (emptyShapeInfo ShapeType.COMPOUND)
        ⟨"huge", true, ⟨[⟨⟨0, 0, 0⟩ :: ⟨1, 1, 1⟩ :: tail, [⟨[0, 1, 1], []⟩]⟩], ⟨1, 1, 1⟩⟩⟩
      = some ⟨ShapeType.COMPOUND, ⟨2, 2, 2⟩, "huge", [[⟨0, 0, 0⟩, ⟨2, 2, 2⟩]], []⟩ := by
  simp [computeShapeInfo, emptyShapeInfo, pickOf, computeCompound_eq, hullsOfMeshes,
    hullsOfParts, facePoints, truncated, lookupAll, vertexAt, firstOccurrences, addUnique,
    contains, Vec3.eq, FloatOps.eq, scaleInPlace, Vec3.mul, Vec3.div, FloatOps.mul,
    FloatOps.div]

end LeadingTriangle

/-! ## Theorems -/

section Claims

variable {F : Type} [FloatOps F]

/-- C1, as the code has it: for a SimpleHull, SimpleCompound or StaticMesh
request on an asset whose total vertex count exceeds 1,000,000 (and fits the
32-bit counter), `computeShapeInfo` yields a Box descriptor whose size is half
of the requested dimensions, whatever the parts and indices are. -/
theorem box_above_vertex_ceiling (s : Sentinels) (pick : CollisionRegion F)
    (shapeInfo : ShapeInfo F) (resource : GeometryResource F)
    (hkind : IsSimpleKind shapeInfo.type)
    (hover : 1000000 < totalVertexCount resource.geometry)
    (hfit : totalVertexCount resource.geometry ≤ INT32_MAX) :
    ∃ out, computeShapeInfo s pick shapeInfo resource = some out ∧
      out.type = ShapeType.BOX ∧
      out.halfExtents = Vec3.scale FloatOps.half pick.transformScale := by
  refine ⟨setParams shapeInfo ShapeType.BOX (Vec3.scale FloatOps.half pick.transformScale) "",
    ?_, rfl, rfl⟩
  rw [computeShapeInfo_simple s pick shapeInfo resource hkind]
  have hgt : totalVertexCount resource.geometry > MAX_VERTICES_PER_STATIC_MESH := hover
  simp [computeSimple, countVertices_total resource.geometry hfit, hgt]

/-- The theorem `box_above_vertex_ceiling` at a StaticMesh request for an asset
of 1,000,001 vertices. -/
theorem box_above_vertex_ceiling_witness :
    1000000 < totalVertexCount hugeResource.geometry ∧
    ∃ out, computeShapeInfo sentinels (pickOf "huge" ShapeType.STATIC_MESH)
        (emptyShapeInfo ShapeType.STATIC_MESH) hugeResource = some out ∧
      out.type = ShapeType.BOX ∧
      out.halfExtents = Vec3.scale FloatOps.half
        (pickOf "huge" ShapeType.STATIC_MESH).transformScale :=
  ⟨by rw [hugeResource_total]; decide,
   box_above_vertex_ceiling sentinels (pickOf "huge" ShapeType.STATIC_MESH)
    (emptyShapeInfo ShapeType.STATIC_MESH) hugeResource
    (Or.inr (Or.inr rfl))
    (by rw [hugeResource_total]; decide)
    (by rw [hugeResource_total]; decide)⟩

/-- C1 fails as stated: a CompoundConvexHull request for an asset of 1,000,001
vertices is built as a compound shape, one hull of two scaled points, with the
full requested dimensions (2, 2, 2), not as a Box with half of them. -/
theorem compound_above_vertex_ceiling_not_box :
    1000000 < totalVertexCount hugeResource.geometry ∧
    computeShapeInfo sentinels (pickOf "huge" ShapeType.COMPOUND)
        (emptyShapeInfo ShapeType.COMPOUND) hugeResource
      = some ⟨ShapeType.COMPOUND, ⟨2, 2, 2⟩, "huge", [[⟨0, 0, 0⟩, ⟨2, 2, 2⟩]], []⟩ ∧
    ShapeType.COMPOUND ≠ ShapeType.BOX :=
  ⟨by rw [hugeResource_total]; decide, compound_of_leading_triangle _, by decide⟩

/-- C2, as the code has it: for every pick whose shape still has to be
computed and whose asset is reported as loaded, a call of `isShapeInfoReady`
in which the builder completes invokes the builder exactly once, stores its
result in the pick, and returns not ready (`false`) from that same call. -/
theorem isShapeInfoReady_builds_once (s : Sentinels)
    (shouldComputeShapeInfo : CollisionRegion F → Bool)
    (getCollisionGeometryResource : String → GeometryResource F)
    (cachedResource : Option (GeometryResource F)) (pick : CollisionRegion F)
    (built : ShapeInfo F)
    (hcompute : shouldComputeShapeInfo pick = true)
    (hloaded : (refreshResource getCollisionGeometryResource cachedResource pick).loaded = true)
    (hbuilt : computeShapeInfo s pick pick.shapeInfo
      (refreshResource getCollisionGeometryResource cachedResource pick) = some built) :
    ∃ out, isShapeInfoReady s shouldComputeShapeInfo getCollisionGeometryResource
        cachedResource pick = some out ∧
      out.builderCalls = 1 ∧ out.pick.shapeInfo = built ∧ out.ready = false := by
  refine ⟨⟨false, { pick with shapeInfo := built },
    some (refreshResource getCollisionGeometryResource cachedResource pick), 1⟩, ?_, rfl, rfl, rfl⟩
  simp [isShapeInfoReady, hcompute, hloaded, hbuilt]

/-- The theorem `isShapeInfoReady_builds_once` at a StaticMesh pick whose asset
is already cached and loaded. -/
theorem isShapeInfoReady_builds_once_witness :
    ∃ out, isShapeInfoReady sentinels (fun _ => true) (fun _ => diagonalResource)
        (some diagonalResource) (pickOf "diagonal" ShapeType.STATIC_MESH) = some out ∧
      out.builderCalls = 1 ∧
      out.pick.shapeInfo
        = ⟨ShapeType.STATIC_MESH, ⟨1, 1, 1⟩, "diagonal", [[⟨0, 0, 0⟩, ⟨1, 1, 1⟩]], []⟩ ∧
      out.ready = false :=
  isShapeInfoReady_builds_once sentinels (fun _ => true) (fun _ => diagonalResource)
    (some diagonalResource) (pickOf "diagonal" ShapeType.STATIC_MESH)
    ⟨ShapeType.STATIC_MESH, ⟨1, 1, 1⟩, "diagonal", [[⟨0, 0, 0⟩, ⟨1, 1, 1⟩]], []⟩
    rfl (by decide) (by decide!)

/-- C2 fails as stated: for a pick whose shape has to be computed and whose
asset is loaded, the call that runs the builder returns `false`, not ready. -/
theorem isShapeInfoReady_not_ready_after_build :
    (fun _ => true : CollisionRegion ℚ → Bool) (pickOf "diagonal" ShapeType.STATIC_MESH) = true ∧
    (refreshResource (fun _ => diagonalResource) (some diagonalResource)
      (pickOf "diagonal" ShapeType.STATIC_MESH)).loaded = true ∧
    (isShapeInfoReady sentinels (fun _ => true) (fun _ => diagonalResource)
        (some diagonalResource) (pickOf "diagonal" ShapeType.STATIC_MESH)).map
      (fun out => (out.ready, out.builderCalls)) = some (false, 1) := by
  refine ⟨rfl, by decide, by decide!⟩

/-- C3, the code at a failing input: a StaticMesh build of the sub-mesh with
vertices (0, 0, 0), (1, 1, 1) and requested dimensions (2, 2, 2) has extents
(1, 1, 1), hence scale (2, 2, 2); the scaled points (0, 0, 0), (2, 2, 2) exist
only in the loop's copy, and the descriptor keeps the unscaled vertices. -/
theorem static_mesh_points_left_unscaled :
    computeScaleToFit (pickOf "diagonal" ShapeType.STATIC_MESH).transformScale
        (FloatOps.extentsSize diagonalMesh.vertices) = ⟨2, 2, 2⟩ ∧
    (scaleLoop (⟨2, 2, 2⟩ : Vec3 ℚ) [diagonalMesh.vertices]).2
      = [[⟨0, 0, 0⟩, ⟨2, 2, 2⟩]] ∧
    computeShapeInfo sentinels (pickOf "diagonal" ShapeType.STATIC_MESH)
        (emptyShapeInfo ShapeType.STATIC_MESH) diagonalResource
      = some ⟨ShapeType.STATIC_MESH, ⟨1, 1, 1⟩, "diagonal", [[⟨0, 0, 0⟩, ⟨1, 1, 1⟩]], []⟩ := by
  refine ⟨by decide!, by decide!, by decide!⟩

/-- C4: for a CompoundConvexHull build over a mesh whose triangle and quad
indices are all within the vertex range of their sub-mesh, the collection
loop completes, and in every hull point list it collected no earlier point
compares `==` to a later one, so (where `==` holds of a value and itself) no
point occurs twice; the descriptor's lists are these lists, scaled. -/
theorem compound_hulls_without_repeats (s : Sentinels) (pick : CollisionRegion F)
    (shapeInfo : ShapeInfo F) (resource : GeometryResource F)
    (hkind : shapeInfo.type = ShapeType.COMPOUND)
    (hrange : IndicesInRange resource.geometry) :
    ∃ collected, meshesLoop resource.geometry.meshes ([], 0) = some collected ∧
      (∀ points ∈ collected.1,
        points.Pairwise (fun a b => Vec3.eq a b = false) ∧
        ((∀ a : F, FloatOps.eq a a = true) → points.Nodup)) ∧
      (computeShapeInfo s pick shapeInfo resource).map (fun out => out.pointCollection)
        = some (scaleInPlace
            (Vec3.div pick.transformScale resource.geometry.unscaledMeshExtentsSize)
            collected.1) := by
  obtain ⟨hulls, hh⟩ := hullsOfMeshes_isSome resource.geometry.meshes hrange
  have hloop := meshesLoop_eq resource.geometry.meshes ([] : PointCollection F)
  simp only [List.length_nil, List.nil_append, Nat.zero_add, hh, Option.map_some'] at hloop
  refine ⟨(hulls, hulls.length), hloop, ?_, ?_⟩
  · intro points hp
    have hno := ((hullsOfMeshes_spec resource.geometry.meshes hulls hh).1 points hp).2
    exact ⟨hno, fun hrefl => noRepeat_nodup points hrefl hno⟩
  · simp [computeShapeInfo, hkind, computeCompound_eq, hh]

/-- The theorem `compound_hulls_without_repeats` at `hullResource`, whose first
part names vertex 0 twice and the equal-valued vertex 1: the hulls collected
are [(0,0,0)] and [(1,2,4), (0,0,0)], and the second part is dropped. -/
theorem compound_hulls_without_repeats_witness :
    meshesLoop hullResource.geometry.meshes ([], 0)
      = some ([[⟨0, 0, 0⟩], [⟨1, 2, 4⟩, ⟨0, 0, 0⟩]], 2) ∧
    ∃ collected, meshesLoop hullResource.geometry.meshes ([], 0) = some collected ∧
      (∀ points ∈ collected.1,
        points.Pairwise (fun a b => Vec3.eq a b = false) ∧
        ((∀ a : ℚ, FloatOps.eq a a = true) → points.Nodup)) ∧
      (computeShapeInfo sentinels (pickOf "hull" ShapeType.COMPOUND)
          (emptyShapeInfo ShapeType.COMPOUND) hullResource).map (fun out => out.pointCollection)
        = some (scaleInPlace
            (Vec3.div (pickOf "hull" ShapeType.COMPOUND).transformScale
              hullResource.geometry.unscaledMeshExtentsSize)
            collected.1) :=
  ⟨by decide!,
   compound_hulls_without_repeats sentinels (pickOf "hull" ShapeType.COMPOUND)
    (emptyShapeInfo ShapeType.COMPOUND) hullResource rfl (by unfold IndicesInRange; decide)⟩

/-- C5: a CompoundConvexHull build over a mesh whose indices are in range
completes, and whenever the build completes every point list of the output has
length at least 1 and the number of output lists is the number of parts, over
all sub-meshes, that have at least one complete triangle or one complete quad. -/
theorem compound_hulls_nonempty_and_counted (s : Sentinels) (pick : CollisionRegion F)
    (shapeInfo : ShapeInfo F) (resource : GeometryResource F)
    (hkind : shapeInfo.type = ShapeType.COMPOUND) :
    (IndicesInRange resource.geometry →
      ∃ out, computeShapeInfo s pick shapeInfo resource = some out) ∧
    ∀ out, computeShapeInfo s pick shapeInfo resource = some out →
      (∀ points ∈ out.pointCollection, 1 ≤ points.length) ∧
      out.pointCollection.length
        = (resource.geometry.meshes.map
            (fun mesh => mesh.parts.countP hasCompleteFace)).sum := by
  have hcompute : computeShapeInfo s pick shapeInfo resource
      = computeCompound pick.transformScale shapeInfo resource := by
    simp [computeShapeInfo, hkind]
  rw [hcompute, computeCompound_eq]
  constructor
  · intro hrange
    obtain ⟨hulls, hh⟩ := hullsOfMeshes_isSome resource.geometry.meshes hrange
    exact ⟨_, by rw [hh]; rfl⟩
  · intro out hout
    cases hh : hullsOfMeshes resource.geometry.meshes with
    | none => simp [hh] at hout
    | some hulls =>
      obtain ⟨hpoints, hcount⟩ := hullsOfMeshes_spec resource.geometry.meshes hulls hh
      simp only [hh, Option.map_some', Option.some.injEq] at hout
      subst hout
      constructor
      · intro points hp
        simp only [scaleInPlace, List.mem_map] at hp
        obtain ⟨original, horiginal, rfl⟩ := hp
        simpa using (hpoints original horiginal).1
      · simpa [scaleInPlace] using hcount

/-- The theorem `compound_hulls_nonempty_and_counted` at `hullResource`: of the
three parts, the one with two triangle indices and one quad index is dropped,
and two lists come out. -/
theorem compound_hulls_nonempty_and_counted_witness :
    IndicesInRange hullResource.geometry ∧
    (hullResource.geometry.meshes.map (fun mesh => mesh.parts.countP hasCompleteFace)).sum = 2 ∧
    ∃ out, computeShapeInfo sentinels (pickOf "hull" ShapeType.COMPOUND)
        (emptyShapeInfo ShapeType.COMPOUND) hullResource = some out ∧
      (∀ points ∈ out.pointCollection, 1 ≤ points.length) ∧
      out.pointCollection.length
        = (hullResource.geometry.meshes.map
            (fun mesh => mesh.parts.countP hasCompleteFace)).sum :=
  have h := compound_hulls_nonempty_and_counted sentinels (pickOf "hull" ShapeType.COMPOUND)
    (emptyShapeInfo ShapeType.COMPOUND) hullResource rfl
  have hrange : IndicesInRange hullResource.geometry := by unfold IndicesInRange; decide
  ⟨hrange, by decide, (h.1 hrange).elim (fun out hout => ⟨out, hout, h.2 out hout⟩)⟩

/-- C6: for every mesh asset within the size ceilings, a StaticMesh or
SimpleHull build produces exactly one point list, which holds the vertices of
the sub-meshes in sub-mesh order and, within a sub-mesh, in vertex order, and
whose length is the total vertex count across all sub-meshes. -/
theorem shared_point_list_holds_all_vertices (s : Sentinels) (pick : CollisionRegion F)
    (shapeInfo : ShapeInfo F) (resource : GeometryResource F)
    (hkind : shapeInfo.type = ShapeType.STATIC_MESH ∨ shapeInfo.type = ShapeType.SIMPLE_HULL)
    (hwithin : WithinCeilings resource.geometry) :
    ∃ out, computeShapeInfo s pick shapeInfo resource = some out ∧
      out.type = shapeInfo.type ∧
      out.pointCollection
        = [(resource.geometry.meshes.map (fun mesh => mesh.vertices)).flatten] ∧
      ((resource.geometry.meshes.map (fun mesh => mesh.vertices)).flatten).length
        = totalVertexCount resource.geometry := by
  have hsimple : IsSimpleKind shapeInfo.type := by
    rcases hkind with h | h
    · exact Or.inr (Or.inr h)
    · exact Or.inl h
  have hne : shapeInfo.type ≠ ShapeType.SIMPLE_COMPOUND := by
    rcases hkind with h | h <;> simp [h]
  obtain ⟨final, hout, _, _, hshared⟩ :=
    computeSimple_built s shapeInfo.type pick.transformScale shapeInfo resource hwithin
  refine ⟨⟨shapeInfo.type, Vec3.scale FloatOps.half pick.transformScale, resource.url,
      final.pointCollection, final.triangleIndices⟩,
    by rw [computeShapeInfo_simple s pick shapeInfo resource hsimple]; exact hout,
    rfl, ?_, allVertices_length resource.geometry⟩
  simpa [allVertices] using hshared hne

/-- The theorem `shared_point_list_holds_all_vertices` at a SimpleHull request
for `sharedResource`, whose second sub-mesh has no vertex. -/
theorem shared_point_list_holds_all_vertices_witness :
    WithinCeilings sharedResource.geometry ∧
    ∃ out, computeShapeInfo sentinels (pickOf "shared" ShapeType.SIMPLE_HULL)
        (emptyShapeInfo ShapeType.SIMPLE_HULL) sharedResource = some out ∧
      out.type = (emptyShapeInfo ShapeType.SIMPLE_HULL).type ∧
      out.pointCollection
        = [(sharedResource.geometry.meshes.map (fun mesh => mesh.vertices)).flatten] ∧
      ((sharedResource.geometry.meshes.map (fun mesh => mesh.vertices)).flatten).length
        = totalVertexCount sharedResource.geometry :=
  ⟨by unfold WithinCeilings; decide,
   shared_point_list_holds_all_vertices sentinels (pickOf "shared" ShapeType.SIMPLE_HULL)
    (emptyShapeInfo ShapeType.SIMPLE_HULL) sharedResource (Or.inr rfl)
    (by unfold WithinCeilings; decide)⟩

/-- C7, the code at a failing input: a StaticMesh build of one sub-mesh whose
only part lists the four triangle indices 0, 1, 2, 3 copies all four into the
index buffer, whose length 4 is not a multiple of 3. -/
theorem static_mesh_buffer_keeps_trailing_index :
    WithinCeilings trailingResource.geometry ∧
    computeShapeInfo sentinels (pickOf "trailing" ShapeType.STATIC_MESH)
        (emptyShapeInfo ShapeType.STATIC_MESH) trailingResource
      = some ⟨ShapeType.STATIC_MESH, ⟨1, 1, 1⟩, "trailing",
          [[⟨0, 0, 0⟩, ⟨1, 0, 0⟩, ⟨0, 1, 0⟩, ⟨0, 0, 1⟩]], [0, 1, 2, 3]⟩ ∧
    ([0, 1, 2, 3] : List Int).length % 3 = 1 := by
  refine ⟨by unfold WithinCeilings; decide, by decide!, by decide⟩

/-- C8, as the code has it: for every mesh asset within the size ceilings whose
triangle indices are no sentinel values, the index buffer of a SimpleCompound
build contains exactly one mesh terminator per sub-mesh that has a vertex, and
exactly one part terminator per part of those sub-meshes. -/
theorem simple_compound_terminator_counts (s : Sentinels) (pick : CollisionRegion F)
    (shapeInfo : ShapeInfo F) (resource : GeometryResource F)
    (hkind : shapeInfo.type = ShapeType.SIMPLE_COMPOUND)
    (hwithin : WithinCeilings resource.geometry)
    (hdistinct : s.END_OF_MESH_PART ≠ s.END_OF_MESH)
    (hfree : ∀ mesh ∈ resource.geometry.meshes, ∀ meshPart ∈ mesh.parts,
      ∀ index ∈ meshPart.triangleIndices,
        index ≠ s.END_OF_MESH_PART ∧ index ≠ s.END_OF_MESH) :
    ∃ out, computeShapeInfo s pick shapeInfo resource = some out ∧
      out.triangleIndices.count s.END_OF_MESH
        = (resource.geometry.meshes.filter
            (fun mesh => decide (mesh.vertices.length ≠ 0))).length ∧
      out.triangleIndices.count s.END_OF_MESH_PART
        = ((resource.geometry.meshes.filter
            (fun mesh => decide (mesh.vertices.length ≠ 0))).map
              (fun mesh => mesh.parts.length)).sum := by
  obtain ⟨final, hout, hti, _, _⟩ :=
    computeSimple_built s shapeInfo.type pick.transformScale shapeInfo resource hwithin
  have hbuffer : final.triangleIndices
      = simpleCompoundBuffer s resource.geometry.meshes := by
    rw [hti]
    simp [expectedBuffer, hkind]
  refine ⟨⟨shapeInfo.type, Vec3.scale FloatOps.half pick.transformScale, resource.url,
      final.pointCollection, final.triangleIndices⟩,
    by
      rw [computeShapeInfo_simple s pick shapeInfo resource (Or.inr (Or.inl hkind))]
      exact hout, ?_, ?_⟩
  · show final.triangleIndices.count s.END_OF_MESH = _
    rw [hbuffer]
    exact count_mesh_terminator s resource.geometry.meshes hdistinct
      (fun mesh hm meshPart hp index hi => (hfree mesh hm meshPart hp index hi).2)
  · show final.triangleIndices.count s.END_OF_MESH_PART = _
    rw [hbuffer]
    exact count_part_terminator s resource.geometry.meshes hdistinct
      (fun mesh hm meshPart hp index hi => (hfree mesh hm meshPart hp index hi).1)

/-- The theorem `simple_compound_terminator_counts` at `runsResource`: two
sub-meshes and three parts, two mesh terminators and three part terminators. -/
theorem simple_compound_terminator_counts_witness :
    (computeShapeInfo sentinels (pickOf "runs" ShapeType.SIMPLE_COMPOUND)
        (emptyShapeInfo ShapeType.SIMPLE_COMPOUND) runsResource).map
      (fun out => out.triangleIndices) = some [0, 1, 2, -1, 1, -1, -2, 0, 1, 2, -1, -2] ∧
    ∃ out, computeShapeInfo sentinels (pickOf "runs" ShapeType.SIMPLE_COMPOUND)
        (emptyShapeInfo ShapeType.SIMPLE_COMPOUND) runsResource = some out ∧
      out.triangleIndices.count sentinels.END_OF_MESH
        = (runsResource.geometry.meshes.filter
            (fun mesh => decide (mesh.vertices.length ≠ 0))).length ∧
      out.triangleIndices.count sentinels.END_OF_MESH_PART
        = ((runsResource.geometry.meshes.filter
            (fun mesh => decide (mesh.vertices.length ≠ 0))).map
              (fun mesh => mesh.parts.length)).sum :=
  ⟨by decide!,
   simple_compound_terminator_counts sentinels (pickOf "runs" ShapeType.SIMPLE_COMPOUND)
    (emptyShapeInfo ShapeType.SIMPLE_COMPOUND) runsResource rfl
    (by unfold WithinCeilings; decide) (by decide) (by decide)⟩

/-- C8 fails as stated: in a SimpleCompound build of an asset whose first
sub-mesh has one vertex and a single part without any index, and whose second
sub-mesh has no vertex, the buffer is one part terminator and one mesh
terminator, while the asset has no part with a triangle index and has two
sub-meshes. -/
theorem simple_compound_terminators_of_degenerate_asset :
    WithinCeilings degenerateResource.geometry ∧
    (computeShapeInfo sentinels (pickOf "degenerate" ShapeType.SIMPLE_COMPOUND)
        (emptyShapeInfo ShapeType.SIMPLE_COMPOUND) degenerateResource).map
      (fun out => out.triangleIndices)
      = some [sentinels.END_OF_MESH_PART, sentinels.END_OF_MESH] ∧
    (degenerateResource.geometry.meshes.map (fun mesh =>
      mesh.parts.countP (fun meshPart => decide (1 ≤ meshPart.triangleIndices.length)))).sum
      = 0 ∧
    degenerateResource.geometry.meshes.length = 2 := by
  refine ⟨by unfold WithinCeilings; decide, by decide!, by decide, by decide⟩

/-- C10, the code at a failing input: a SimpleCompound build of one sub-mesh
whose only part lists the triangle indices 0, 1, 2, 3 emits the run 0, 1, 2, 3,
although the list cut down to whole triangles is 0, 1, 2 and the index 3 occurs
in the trailing position only. -/
theorem simple_compound_run_keeps_trailing_index :
    WithinCeilings trailingResource.geometry ∧
    (computeShapeInfo sentinels (pickOf "trailing" ShapeType.SIMPLE_COMPOUND)
        (emptyShapeInfo ShapeType.SIMPLE_COMPOUND) trailingResource).map
      (fun out => out.triangleIndices)
      = some [0, 1, 2, 3, sentinels.END_OF_MESH_PART, sentinels.END_OF_MESH] ∧
    uniquePartIndices ⟨[0, 1, 2, 3], []⟩ = [0, 1, 2, 3] ∧
    truncated 3 [0, 1, 2, 3] = [0, 1, 2] := by
  refine ⟨by unfold WithinCeilings; decide, by decide!, by decide, by decide⟩

/-- C11: in every SimpleHull, SimpleCompound or StaticMesh build within the size
ceilings, the scale of lines 248-254 is exactly 1 on every axis whose extent is
below `1.0e-6f`, whatever the quotient on that axis is, and every point of the
descriptor is the source vertex itself, on that axis as on the others. -/
theorem degenerate_axis_keeps_coordinates (s : Sentinels) (pick : CollisionRegion F)
    (shapeInfo : ShapeInfo F) (resource : GeometryResource F)
    (hkind : IsSimpleKind shapeInfo.type)
    (hwithin : WithinCeilings resource.geometry) :
    (∀ extentsSize : Vec3 F,
      (FloatOps.lt extentsSize.x FloatOps.epsilon = true →
        (computeScaleToFit pick.transformScale extentsSize).x = FloatOps.one) ∧
      (FloatOps.lt extentsSize.y FloatOps.epsilon = true →
        (computeScaleToFit pick.transformScale extentsSize).y = FloatOps.one) ∧
      (FloatOps.lt extentsSize.z FloatOps.epsilon = true →
        (computeScaleToFit pick.transformScale extentsSize).z = FloatOps.one)) ∧
    ∃ out, computeShapeInfo s pick shapeInfo resource = some out ∧
      out.pointCollection = sourcePointLists shapeInfo.type resource.geometry.meshes := by
  constructor
  · intro extentsSize
    refine ⟨fun hx => ?_, fun hy => ?_, fun hz => ?_⟩
    · simp only [computeScaleToFit, hx, if_true]
      split <;> split <;> rfl
    · simp only [computeScaleToFit, hy, if_true]
      split <;> rfl
    · simp only [computeScaleToFit, hz, if_true]
  · obtain ⟨out, hout, hpoints, _⟩ :=
      computeSimple_points s shapeInfo.type pick.transformScale shapeInfo resource hwithin
    exact ⟨out, by rw [computeShapeInfo_simple s pick shapeInfo resource hkind]; exact hout,
      hpoints⟩

/-- The theorem `degenerate_axis_keeps_coordinates` at a SimpleHull request for
`flatResource`, whose extent on the z axis is 0: the scale is (2, 2, 1). -/
theorem degenerate_axis_keeps_coordinates_witness :
    computeScaleToFit (pickOf "flat" ShapeType.SIMPLE_HULL).transformScale
      (FloatOps.extentsSize flatMesh.vertices) = ⟨2, 2, 1⟩ ∧
    (∀ extentsSize : Vec3 ℚ,
      (FloatOps.lt extentsSize.x FloatOps.epsilon = true →
        (computeScaleToFit (pickOf "flat" ShapeType.SIMPLE_HULL).transformScale
          extentsSize).x = FloatOps.one) ∧
      (FloatOps.lt extentsSize.y FloatOps.epsilon = true →
        (computeScaleToFit (pickOf "flat" ShapeType.SIMPLE_HULL).transformScale
          extentsSize).y = FloatOps.one) ∧
      (FloatOps.lt extentsSize.z FloatOps.epsilon = true →
        (computeScaleToFit (pickOf "flat" ShapeType.SIMPLE_HULL).transformScale
          extentsSize).z = FloatOps.one)) ∧
    ∃ out, computeShapeInfo sentinels (pickOf "flat" ShapeType.SIMPLE_HULL)
        (emptyShapeInfo ShapeType.SIMPLE_HULL) flatResource = some out ∧
      out.pointCollection
        = sourcePointLists (emptyShapeInfo ShapeType.SIMPLE_HULL).type
            flatResource.geometry.meshes :=
  ⟨by decide!,
   degenerate_axis_keeps_coordinates sentinels (pickOf "flat" ShapeType.SIMPLE_HULL)
    (emptyShapeInfo ShapeType.SIMPLE_HULL) flatResource (Or.inl rfl)
    (by unfold WithinCeilings; decide)⟩

/-- C12: a CompoundConvexHull build stores the full requested dimensions, the
kind and the URL of the asset; a SimpleHull, SimpleCompound or StaticMesh
request stores exactly half of the requested dimensions, and either the kind
Box (the fallback) or the requested kind together with the URL of the asset.
The build completes for a compound request with indices in range and for a
simple request whose vertex total fits the 32-bit counter. -/
theorem canonical_size_by_kind (s : Sentinels) (pick : CollisionRegion F)
    (shapeInfo : ShapeInfo F) (resource : GeometryResource F) :
    (shapeInfo.type = ShapeType.COMPOUND → IndicesInRange resource.geometry →
      ∃ out, computeShapeInfo s pick shapeInfo resource = some out) ∧
    (IsSimpleKind shapeInfo.type → totalVertexCount resource.geometry ≤ INT32_MAX →
      ∃ out, computeShapeInfo s pick shapeInfo resource = some out) ∧
    ∀ out, computeShapeInfo s pick shapeInfo resource = some out →
      (shapeInfo.type = ShapeType.COMPOUND →
        out.halfExtents = pick.transformScale ∧ out.type = ShapeType.COMPOUND ∧
        out.url = resource.url) ∧
      (IsSimpleKind shapeInfo.type →
        out.halfExtents = Vec3.scale FloatOps.half pick.transformScale ∧
        (out.type = ShapeType.BOX ∨ (out.type = shapeInfo.type ∧ out.url = resource.url))) := by
  refine ⟨?_, ?_, ?_⟩
  · intro hkind hrange
    obtain ⟨hulls, hh⟩ := hullsOfMeshes_isSome resource.geometry.meshes hrange
    exact ⟨_, by simp only [computeShapeInfo, hkind, computeCompound_eq, hh]; rfl⟩
  · intro hkind hfit
    rw [computeShapeInfo_simple s pick shapeInfo resource hkind]
    exact computeSimple_isSome s shapeInfo.type pick.transformScale shapeInfo resource hfit
  · intro out hout
    constructor
    · intro hkind
      simp only [computeShapeInfo, hkind, computeCompound_eq] at hout
      cases hh : hullsOfMeshes resource.geometry.meshes with
      | none => simp [hh] at hout
      | some hulls =>
        simp only [hh, Option.map_some', Option.some.injEq] at hout
        subst hout
        exact ⟨rfl, rfl, rfl⟩
    · intro hkind
      rw [computeShapeInfo_simple s pick shapeInfo resource hkind, computeSimple_unfold] at hout
      split at hout
      · split at hout
        · simp only [Option.some.injEq] at hout
          subst hout
          exact ⟨rfl, Or.inl rfl⟩
        · cases hloop : simpleMeshesLoop s shapeInfo.type resource.geometry.meshes
            ⟨if shapeInfo.type = ShapeType.SIMPLE_COMPOUND then
                List.replicate resource.geometry.meshes.length [] else [[]],
              [], [], 0, 0⟩ with
          | none => simp [hloop] at hout
          | some final =>
            simp only [hloop, Option.map_some', Option.some.injEq] at hout
            subst hout
            exact ⟨rfl, Or.inr ⟨rfl, rfl⟩⟩
      · simp at hout

/-- The theorem `canonical_size_by_kind` at `hullResource` and requested
dimensions (2, 2, 2): the compound build stores (2, 2, 2). -/
theorem canonical_size_by_kind_witness :
    ∃ out, computeShapeInfo sentinels (pickOf "hull" ShapeType.COMPOUND)
        (emptyShapeInfo ShapeType.COMPOUND) hullResource = some out ∧
      out.halfExtents = ⟨2, 2, 2⟩ ∧ out.type = ShapeType.COMPOUND ∧ out.url = "hull" :=
  have h := canonical_size_by_kind sentinels (pickOf "hull" ShapeType.COMPOUND)
    (emptyShapeInfo ShapeType.COMPOUND) hullResource
  (h.1 rfl (by unfold IndicesInRange; decide)).elim
    (fun out hout => ⟨out, hout, (h.2.2 out hout).1 rfl⟩)

/-- C13: building is idempotent on the descriptor. When a run of
`computeShapeInfo` has produced a descriptor, a second run on that descriptor,
with the same asset and the same requested dimensions, completes and produces
the same descriptor: point lists, index buffer, kind, canonical size and URL. -/
theorem second_build_changes_nothing (s : Sentinels) (pick : CollisionRegion F)
    (shapeInfo : ShapeInfo F) (resource : GeometryResource F) (out : ShapeInfo F)
    (hout : computeShapeInfo s pick shapeInfo resource = some out) :
    computeShapeInfo s { pick with shapeInfo := out } out resource = some out := by
  cases hkind : shapeInfo.type with
  | NONE =>
    simp only [computeShapeInfo, hkind, Option.some.injEq] at hout
    subst hout
    simp [computeShapeInfo, hkind]
  | BOX =>
    simp only [computeShapeInfo, hkind, Option.some.injEq] at hout
    subst hout
    simp [computeShapeInfo, hkind]
  | COMPOUND =>
    simp only [computeShapeInfo, hkind, computeCompound_eq] at hout
    cases hh : hullsOfMeshes resource.geometry.meshes with
    | none => simp [hh] at hout
    | some hulls =>
      simp only [hh, Option.map_some', Option.some.injEq] at hout
      subst hout
      simp [computeShapeInfo, computeCompound_eq, hh]
  | SIMPLE_HULL =>
    exact second_simple_build s pick shapeInfo resource out (Or.inl hkind) hout
  | SIMPLE_COMPOUND =>
    exact second_simple_build s pick shapeInfo resource out (Or.inr (Or.inl hkind)) hout
  | STATIC_MESH =>
    exact second_simple_build s pick shapeInfo resource out (Or.inr (Or.inr hkind)) hout

/-- The theorem `second_build_changes_nothing` at a SimpleCompound build of
`runsResource`. -/
theorem second_build_changes_nothing_witness :
    computeShapeInfo sentinels (pickOf "runs" ShapeType.SIMPLE_COMPOUND)
        (emptyShapeInfo ShapeType.SIMPLE_COMPOUND) runsResource
      = some ⟨ShapeType.SIMPLE_COMPOUND, ⟨1, 1, 1⟩, "runs",
          [[⟨0, 0, 0⟩, ⟨1, 0, 0⟩, ⟨0, 1, 0⟩], [⟨0, 0, 1⟩, ⟨1, 0, 1⟩, ⟨0, 1, 1⟩]],
          [0, 1, 2, -1, 1, -1, -2, 0, 1, 2, -1, -2]⟩ ∧
    computeShapeInfo sentinels
        { pickOf "runs" ShapeType.SIMPLE_COMPOUND with
          shapeInfo := ⟨ShapeType.SIMPLE_COMPOUND, ⟨1, 1, 1⟩, "runs",
            [[⟨0, 0, 0⟩, ⟨1, 0, 0⟩, ⟨0, 1, 0⟩], [⟨0, 0, 1⟩, ⟨1, 0, 1⟩, ⟨0, 1, 1⟩]],
            [0, 1, 2, -1, 1, -1, -2, 0, 1, 2, -1, -2]⟩ }
        ⟨ShapeType.SIMPLE_COMPOUND, ⟨1, 1, 1⟩, "runs",
          [[⟨0, 0, 0⟩, ⟨1, 0, 0⟩, ⟨0, 1, 0⟩], [⟨0, 0, 1⟩, ⟨1, 0, 1⟩, ⟨0, 1, 1⟩]],
          [0, 1, 2, -1, 1, -1, -2, 0, 1, 2, -1, -2]⟩ runsResource
      = some ⟨ShapeType.SIMPLE_COMPOUND, ⟨1, 1, 1⟩, "runs",
          [[⟨0, 0, 0⟩, ⟨1, 0, 0⟩, ⟨0, 1, 0⟩], [⟨0, 0, 1⟩, ⟨1, 0, 1⟩, ⟨0, 1, 1⟩]],
          [0, 1, 2, -1, 1, -1, -2, 0, 1, 2, -1, -2]⟩ :=
  have hfirst : computeShapeInfo sentinels (pickOf "runs" ShapeType.SIMPLE_COMPOUND)
        (emptyShapeInfo ShapeType.SIMPLE_COMPOUND) runsResource
      = some ⟨ShapeType.SIMPLE_COMPOUND, ⟨1, 1, 1⟩, "runs",
          [[⟨0, 0, 0⟩, ⟨1, 0, 0⟩, ⟨0, 1, 0⟩], [⟨0, 0, 1⟩, ⟨1, 0, 1⟩, ⟨0, 1, 1⟩]],
          [0, 1, 2, -1, 1, -1, -2, 0, 1, 2, -1, -2]⟩ := by decide!
  ⟨hfirst, second_build_changes_nothing sentinels (pickOf "runs" ShapeType.SIMPLE_COMPOUND)
    (emptyShapeInfo ShapeType.SIMPLE_COMPOUND) runsResource _ hfirst⟩

/-- C17, the code at a failing input: a StaticMesh build of two sub-meshes of
three vertices, each with the triangle 0, 1, 2, emits 0, 1, 2 for both. The
buffer value 0 emitted for the second sub-mesh names position 0 of the shared
list, the point (0, 0, 0) of the first sub-mesh, while vertex 0 of the second
sub-mesh, (0, 0, 1), is at position 3. -/
theorem static_mesh_indices_not_offset :
    WithinCeilings twinResource.geometry ∧
    computeShapeInfo sentinels (pickOf "twin" ShapeType.STATIC_MESH)
        (emptyShapeInfo ShapeType.STATIC_MESH) twinResource
      = some ⟨ShapeType.STATIC_MESH, ⟨1, 1, 1⟩, "twin",
          [[⟨0, 0, 0⟩, ⟨1, 0, 0⟩, ⟨0, 1, 0⟩, ⟨0, 0, 1⟩, ⟨1, 0, 1⟩, ⟨0, 1, 1⟩]],
          [0, 1, 2, 0, 1, 2]⟩ ∧
    ([⟨0, 0, 0⟩, ⟨1, 0, 0⟩, ⟨0, 1, 0⟩, ⟨0, 0, 1⟩, ⟨1, 0, 1⟩, ⟨0, 1, 1⟩] : List (Vec3 ℚ))[0]?
      = some ⟨0, 0, 0⟩ ∧
    (twinResource.geometry.meshes[1]?).map (fun mesh => mesh.vertices[0]?)
      = some (some ⟨0, 0, 1⟩) := by
  refine ⟨by unfold WithinCeilings; decide, by decide!, by decide, by decide⟩

/-- C18: for a SimpleHull, SimpleCompound or StaticMesh request the build
completes whenever the vertex total fits the 32-bit counter, and a completed
build is a Box with half of the requested dimensions, point lists and index
buffer as they were, exactly when the total vertex count is above 1,000,000 or
the sub-mesh count is above 1,000; otherwise it has the requested kind. -/
theorem box_iff_above_a_ceiling (s : Sentinels) (pick : CollisionRegion F)
    (shapeInfo : ShapeInfo F) (resource : GeometryResource F)
    (hkind : IsSimpleKind shapeInfo.type) :
    (totalVertexCount resource.geometry ≤ INT32_MAX →
      ∃ out, computeShapeInfo s pick shapeInfo resource = some out) ∧
    ∀ out, computeShapeInfo s pick shapeInfo resource = some out →
      ((out.type = ShapeType.BOX ∧
          out.halfExtents = Vec3.scale FloatOps.half pick.transformScale ∧
          out.pointCollection = shapeInfo.pointCollection ∧
          out.triangleIndices = shapeInfo.triangleIndices)
        ↔ (1000000 < totalVertexCount resource.geometry
            ∨ 1000 < resource.geometry.meshes.length)) ∧
      (totalVertexCount resource.geometry ≤ 1000000 →
        resource.geometry.meshes.length ≤ 1000 → out.type = shapeInfo.type) := by
  have hnotbox : shapeInfo.type ≠ ShapeType.BOX := by
    rcases hkind with h | h | h <;> simp [h]
  rw [computeShapeInfo_simple s pick shapeInfo resource hkind]
  refine ⟨computeSimple_isSome s shapeInfo.type pick.transformScale shapeInfo resource, ?_⟩
  intro out hout
  rw [computeSimple_unfold] at hout
  split at hout
  · split at hout
    next hceil =>
      simp only [Option.some.injEq] at hout
      subst hout
      exact ⟨⟨fun _ => hceil, fun _ => ⟨rfl, rfl, rfl, rfl⟩⟩, fun hv hm => by omega⟩
    next hceil =>
      cases hloop : simpleMeshesLoop s shapeInfo.type resource.geometry.meshes
        ⟨if shapeInfo.type = ShapeType.SIMPLE_COMPOUND then
            List.replicate resource.geometry.meshes.length [] else [[]],
          [], [], 0, 0⟩ with
      | none => simp [hloop] at hout
      | some final =>
        simp only [hloop, Option.map_some', Option.some.injEq] at hout
        subst hout
        exact ⟨⟨fun hbox => absurd hbox.1 hnotbox, fun h => absurd h hceil⟩, fun _ _ => rfl⟩
  · simp at hout

/-- The theorem `box_iff_above_a_ceiling` at a StaticMesh request for
`boundaryResource`, which has exactly 1,000,000 vertices in exactly 1,000
sub-meshes: it is built as a StaticMesh. -/
theorem box_iff_above_a_ceiling_witness :
    totalVertexCount boundaryResource.geometry = 1000000 ∧
    boundaryResource.geometry.meshes.length = 1000 ∧
    ∃ out, computeShapeInfo sentinels (pickOf "boundary" ShapeType.STATIC_MESH)
        (emptyShapeInfo ShapeType.STATIC_MESH) boundaryResource = some out ∧
      out.type = ShapeType.STATIC_MESH :=
  have h := box_iff_above_a_ceiling sentinels (pickOf "boundary" ShapeType.STATIC_MESH)
    (emptyShapeInfo ShapeType.STATIC_MESH) boundaryResource (Or.inr (Or.inr rfl))
  ⟨boundaryResource_total, boundaryResource_meshes,
   (h.1 (by rw [boundaryResource_total]; decide)).elim (fun out hout =>
    ⟨out, hout, (h.2 out hout).2 (by rw [boundaryResource_total])
      (by rw [boundaryResource_meshes])⟩)⟩

/-- C16: for every CompoundConvexHull build over a mesh whose indices are in
range (the `==` of the scalars being transitive), the output hull lists are,
in order, the reference hulls of the parts that have at least one complete
face: the vertices referenced by the triangle indices truncated to a multiple
of 3, then by the quad indices truncated to a multiple of 4, first occurrences
only, each multiplied by `requestedDimensions / unscaledMeshExtentsSize`. -/
theorem compound_hulls_equal_reference (s : Sentinels) (pick : CollisionRegion F)
    (shapeInfo : ShapeInfo F) (resource : GeometryResource F)
    (hkind : shapeInfo.type = ShapeType.COMPOUND)
    (hrange : IndicesInRange resource.geometry)
    (htrans : ∀ a b c : F, FloatOps.eq a b = true → FloatOps.eq b c = true →
      FloatOps.eq a c = true) :
    ∃ out, computeShapeInfo s pick shapeInfo resource = some out ∧
      out.pointCollection = referenceHulls pick.transformScale resource.geometry := by
  have hh := hullsOfMeshes_eq_flatMap resource.geometry.meshes hrange
  refine ⟨_, by simp only [computeShapeInfo, hkind, computeCompound_eq, hh]; rfl, ?_⟩
  simp only [scaleInPlace, referenceHulls, referenceHull, List.map_flatMap, List.map_map]
  congr 1
  funext mesh
  apply List.map_congr_left
  intro meshPart _
  simp [firstOccurrences_eq_keepFirstFrom htrans, referenceHull]

/-- The theorem `compound_hulls_equal_reference` at `hullResource` and requested
dimensions (2, 2, 2): with unscaled extents (1, 2, 4) the scale is
(2, 1, 1/2), and the hulls are [(0,0,0)] and [(2,2,2), (0,0,0)]. -/
theorem compound_hulls_equal_reference_witness :
    referenceHulls (pickOf "hull" ShapeType.COMPOUND).transformScale hullResource.geometry
      = [[⟨0, 0, 0⟩], [⟨2, 2, 2⟩, ⟨0, 0, 0⟩]] ∧
    ∃ out, computeShapeInfo sentinels (pickOf "hull" ShapeType.COMPOUND)
        (emptyShapeInfo ShapeType.COMPOUND) hullResource = some out ∧
      out.pointCollection
        = referenceHulls (pickOf "hull" ShapeType.COMPOUND).transformScale
            hullResource.geometry :=
  ⟨by decide!,
   compound_hulls_equal_reference sentinels (pickOf "hull" ShapeType.COMPOUND)
    (emptyShapeInfo ShapeType.COMPOUND) hullResource rfl
    (by unfold IndicesInRange; decide)
    (fun a b c hab hbc => by
      simp only [FloatOps.eq, decide_eq_true_eq] at hab hbc ⊢
      exact hab.trans hbc)⟩

variable {M B G ID H SM : Type}

/-- C14: for every sequence of contact pairs reported to a callback of owner
kind T, the resulting `intersectingObjects` is what the callback held before,
followed by the contact results of the reported pairs, in report order, one
for each pair whose other body is a rigid body with a motion state of kind T
and none for any other pair; if no reported pair is of that sort, nothing is
added. -/
theorem contact_results_are_the_accepted_pairs (kind : OwnerKind M ID) (bulletToGLM : B → G)
    (reported : List (ContactPair M B)) (callback : Callback H ID G) :
    (contactTest kind bulletToGLM reported callback).intersectingObjects
      = callback.intersectingObjects ++
          (reported.filter (isAccepted kind callback.collisionObjectAddress)).filterMap
            (contactResultOf kind bulletToGLM callback.collisionObjectAddress) ∧
    ((reported.filter (isAccepted kind callback.collisionObjectAddress)).filterMap
        (contactResultOf kind bulletToGLM callback.collisionObjectAddress)).length
      = (reported.filter (isAccepted kind callback.collisionObjectAddress)).length ∧
    ((∀ pair ∈ reported, isAccepted kind callback.collisionObjectAddress pair = false) →
      (contactTest kind bulletToGLM reported callback).intersectingObjects
        = callback.intersectingObjects) := by
  have hfilter : ∀ pairs : List (ContactPair M B),
      (pairs.filter (isAccepted kind callback.collisionObjectAddress)).filterMap
          (contactResultOf kind bulletToGLM callback.collisionObjectAddress)
        = pairs.filterMap
          (contactResultOf kind bulletToGLM callback.collisionObjectAddress) := by
    intro pairs
    induction pairs with
    | nil => rfl
    | cons pair rest ih =>
      have hsome := contactResultOf_isSome kind bulletToGLM callback.collisionObjectAddress pair
      cases ha : isAccepted kind callback.collisionObjectAddress pair with
      | false =>
        rw [ha] at hsome
        cases hres : contactResultOf kind bulletToGLM callback.collisionObjectAddress pair with
        | none => simp [List.filter_cons, ha, List.filterMap_cons, hres, ih]
        | some r => simp [hres] at hsome
      | true => simp [List.filter_cons, ha, List.filterMap_cons, ih]
  have hlength : ∀ pairs : List (ContactPair M B),
      ((pairs.filter (isAccepted kind callback.collisionObjectAddress)).filterMap
          (contactResultOf kind bulletToGLM callback.collisionObjectAddress)).length
        = (pairs.filter (isAccepted kind callback.collisionObjectAddress)).length := by
    intro pairs
    induction pairs with
    | nil => rfl
    | cons pair rest ih =>
      have hsome := contactResultOf_isSome kind bulletToGLM callback.collisionObjectAddress pair
      cases ha : isAccepted kind callback.collisionObjectAddress pair with
      | false => simpa [List.filter_cons, ha] using ih
      | true =>
        rw [ha] at hsome
        cases hres : contactResultOf kind bulletToGLM callback.collisionObjectAddress pair with
        | none => simp [hres] at hsome
        | some r => simp [List.filter_cons, ha, List.filterMap_cons, hres, ih]
  refine ⟨?_, hlength reported, ?_⟩
  · rw [contactTest_eq, hfilter]
  · intro hnone
    rw [contactTest_eq, ← hfilter]
    have hempty : reported.filter (isAccepted kind callback.collisionObjectAddress) = [] := by
      rw [List.filter_eq_nil_iff]
      intro pair hp
      simp [hnone pair hp]
    simp [hempty]

/-- The theorem `contact_results_are_the_accepted_pairs` at `reportedPairs` for
the entity kind: the avatar contact is left out, and entity 7, reported twice,
is listed twice. -/
theorem contact_results_are_the_accepted_pairs_witness :
    (contactTest entityKind (fun v => v) reportedPairs probeCallback).intersectingObjects
      = [⟨7, ⟨1, 0, 0⟩, ⟨2, 0, 0⟩⟩, ⟨9, ⟨6, 0, 0⟩, ⟨5, 0, 0⟩⟩, ⟨7, ⟨7, 0, 0⟩, ⟨8, 0, 0⟩⟩] ∧
    (contactTest entityKind (fun v => v) reportedPairs probeCallback).intersectingObjects
      = probeCallback.intersectingObjects ++
          (reportedPairs.filter (isAccepted entityKind probeCallback.collisionObjectAddress)).filterMap
            (contactResultOf entityKind (fun v => v) probeCallback.collisionObjectAddress) :=
  ⟨by decide,
   (contact_results_are_the_accepted_pairs entityKind (fun v => v) reportedPairs
    probeCallback).1⟩

/-- C19: for an accepted contact pair, `addSingleResult` appends one contact
result. When the first object of the pair is the callback's own collision
object (by address), the result is the id of the second object's motion state
with (localPointA, localPointB); when the first object is not the probe, so
that the probe is the second, the result is the id of the first object's motion
state with (localPointB, localPointA). -/
theorem contact_result_points (kind : OwnerKind M ID) (bulletToGLM : B → G)
    (callback : Callback H ID G) (pair : ContactPair M B) (candidate : M)
    (hkind : kind.isKind candidate = true) :
    (pair.colObj0.address = callback.collisionObjectAddress →
      pair.colObj1.isRigidBody = true → pair.colObj1.motionState = some candidate →
      (addSingleResult kind bulletToGLM callback pair).intersectingObjects
        = callback.intersectingObjects ++
          [⟨kind.getObjectID candidate, bulletToGLM pair.m_localPointA,
            bulletToGLM pair.m_localPointB⟩]) ∧
    (pair.colObj0.address ≠ callback.collisionObjectAddress →
      pair.colObj0.isRigidBody = true → pair.colObj0.motionState = some candidate →
      (addSingleResult kind bulletToGLM callback pair).intersectingObjects
        = callback.intersectingObjects ++
          [⟨kind.getObjectID candidate, bulletToGLM pair.m_localPointB,
            bulletToGLM pair.m_localPointA⟩]) := by
  constructor
  · intro h0 hr hm
    simp [addSingleResult, checkOrAddCollidingState, h0, hr, hm, hkind]
  · intro h0 hr hm
    simp [addSingleResult, checkOrAddCollidingState, h0, hr, hm, hkind]

/-- The theorem `contact_result_points` at a pair in which entity 9 is the first
object and the probe the second: the result is (9, localPointB, localPointA). -/
theorem contact_result_points_witness :
    (addSingleResult entityKind (fun v => v) probeCallback
        ⟨⟨5, 0, 0⟩, ⟨6, 0, 0⟩, ⟨203, true, some (WorkedMotionState.entity 9)⟩,
          ⟨100, false, none⟩⟩).intersectingObjects
      = probeCallback.intersectingObjects ++ [⟨9, ⟨6, 0, 0⟩, ⟨5, 0, 0⟩⟩] :=
  (contact_result_points entityKind (fun v => v) probeCallback
    ⟨⟨5, 0, 0⟩, ⟨6, 0, 0⟩, ⟨203, true, some (WorkedMotionState.entity 9)⟩, ⟨100, false, none⟩⟩
    (WorkedMotionState.entity 9) rfl).2 (by decide) rfl rfl

/-- C15: an entity or avatar query on a pick whose shape is ready completes,
calls `getShape` once and then `releaseShape` once, on the handle `getShape`
returned, and makes no other call of the shape manager; a query that returns
early because the shape is not ready makes no call and leaves the shape manager
as it was. Hence, for a shape manager in which releasing the handle just
acquired restores every reference count, the counts after a query are the
counts before it. -/
theorem shape_handle_released_once (s : Sentinels) (c : Collaborators F M B G ID H SM)
    (entityKind avatarKind : OwnerKind M ID) (address : Nat) (manager : Manager SM H)
    (cachedResource : Option (GeometryResource F)) (pick : CollisionRegion F)
    (refCount : SM → H → Nat) :
    (c.shouldComputeShapeInfo pick = false →
      ∃ ofEntity ofAvatar,
        getEntityIntersection s c entityKind address manager cachedResource pick
          = some ofEntity ∧
        getAvatarIntersection s c avatarKind address manager cachedResource pick
          = some ofAvatar ∧
        ofEntity.manager = ofAvatar.manager ∧
        ofEntity.manager.events = manager.events ++
          [ShapeEvent.getShape (c.shapeManager.getShape manager.state pick.shapeInfo).2,
           ShapeEvent.releaseShape (c.shapeManager.getShape manager.state pick.shapeInfo).2] ∧
        ofEntity.manager.state
          = c.shapeManager.releaseShape
              (c.shapeManager.getShape manager.state pick.shapeInfo).1
              (c.shapeManager.getShape manager.state pick.shapeInfo).2) ∧
    (c.shouldComputeShapeInfo pick = true →
      ∀ out,
        (getEntityIntersection s c entityKind address manager cachedResource pick = some out ∨
          getAvatarIntersection s c avatarKind address manager cachedResource pick
            = some out) →
        out.manager = manager ∧ out.result = CollisionPickResult.empty) ∧
    ((∀ state shapeInfo shape,
        refCount (c.shapeManager.releaseShape (c.shapeManager.getShape state shapeInfo).1
          (c.shapeManager.getShape state shapeInfo).2) shape = refCount state shape) →
      ∀ out,
        (getEntityIntersection s c entityKind address manager cachedResource pick = some out ∨
          getAvatarIntersection s c avatarKind address manager cachedResource pick
            = some out) →
        ∀ shape, refCount out.manager.state shape = refCount manager.state shape) := by
  have hnot : c.shouldComputeShapeInfo pick = true → ∀ out,
      (getEntityIntersection s c entityKind address manager cachedResource pick = some out ∨
        getAvatarIntersection s c avatarKind address manager cachedResource pick
          = some out) →
      out.manager = manager ∧ out.result = CollisionPickResult.empty := by
    intro hcompute out hout
    rcases hout with hout | hout
    · simp only [getEntityIntersection, Option.bind_eq_bind] at hout
      cases hrun : runQuery s c entityKind address manager cachedResource pick with
      | none => simp [hrun] at hout
      | some run =>
        obtain ⟨hmanager, hnone⟩ := runQuery_not_ready s c entityKind address manager
          cachedResource pick hcompute run hrun
        simp only [hrun, Option.some_bind, hnone, Option.some.injEq] at hout
        subst hout
        exact ⟨hmanager, rfl⟩
    · simp only [getAvatarIntersection, Option.bind_eq_bind] at hout
      cases hrun : runQuery s c avatarKind address manager cachedResource pick with
      | none => simp [hrun] at hout
      | some run =>
        obtain ⟨hmanager, hnone⟩ := runQuery_not_ready s c avatarKind address manager
          cachedResource pick hcompute run hrun
        simp only [hrun, Option.some_bind, hnone, Option.some.injEq] at hout
        subst hout
        exact ⟨hmanager, rfl⟩
  refine ⟨?_, hnot, ?_⟩
  · intro hready
    have hentity := runQuery_ready s c entityKind address manager cachedResource pick hready
    have havatar := runQuery_ready s c avatarKind address manager cachedResource pick hready
    cases hE : getEntityIntersection s c entityKind address manager cachedResource pick with
    | none => simp [getEntityIntersection, hentity] at hE
    | some ofEntity =>
      cases hA : getAvatarIntersection s c avatarKind address manager cachedResource pick with
      | none => simp [getAvatarIntersection, havatar] at hA
      | some ofAvatar =>
        simp only [getEntityIntersection, hentity, Option.bind_eq_bind, Option.some_bind,
          Option.some.injEq] at hE
        simp only [getAvatarIntersection, havatar, Option.bind_eq_bind, Option.some_bind,
          Option.some.injEq] at hA
        subst hE
        subst hA
        exact ⟨_, _, rfl, rfl, rfl, rfl, rfl⟩
  · intro hlaw out hout shape
    cases hcompute : c.shouldComputeShapeInfo pick with
    | true => rw [(hnot hcompute out hout).1]
    | false =>
      rcases hout with hout | hout
      · simp only [getEntityIntersection, runQuery_ready s c entityKind address manager
          cachedResource pick hcompute, Option.bind_eq_bind, Option.some_bind,
          Option.some.injEq] at hout
        subst hout
        exact hlaw _ _ _
      · simp only [getAvatarIntersection, runQuery_ready s c avatarKind address manager
          cachedResource pick hcompute, Option.bind_eq_bind, Option.some_bind,
          Option.some.injEq] at hout
        subst hout
        exact hlaw _ _ _

/-- The theorem `shape_handle_released_once` at an entity query on `builtPick`,
with a shape manager holding one reference to handle 1 and two to handle 5:
the query acquires and releases handle 1 and leaves the manager as it was. -/
theorem shape_handle_released_once_witness :
    ∃ ofEntity,
      getEntityIntersection sentinels workedCollaborators entityKind 100
          ⟨[1, 5, 5], []⟩ none builtPick = some ofEntity ∧
      ofEntity.manager.events = [ShapeEvent.getShape 1, ShapeEvent.releaseShape 1] ∧
      ofEntity.manager.state = [1, 5, 5] := by
  obtain ⟨ofEntity, _, hentity, _, _, hevents, hstate⟩ :=
    (shape_handle_released_once sentinels workedCollaborators entityKind entityKind 100
      ⟨[1, 5, 5], []⟩ none builtPick (fun held shape => held.count shape)).1 rfl
  exact ⟨ofEntity, hentity, hevents, hstate⟩

/-- C21: indexing safety of `computeShapeInfo`, for an asset whose triangle and
quad indices are all within the vertex range of their sub-mesh.
(1) CompoundConvexHull branch, at every iteration of the loop over the parts
(the parts `partsBefore` of `mesh` and the sub-meshes `before` have been
processed): the loops so far have completed, the counter `i` is the length of
`pointCollection`, so that after the `push_back` of line 61
`pointCollection[i]` is the list just pushed, at the last position, and the
iteration completes and again leaves `i` equal to the length, whether the hull
was popped or kept.
(2) For every part, at every `j` the triangle loop visits (a multiple of 3
below the truncated count) the reads at `j`, `j + 1`, `j + 2` are below the
truncated count and yield an index at which `mesh.vertices` has an element;
likewise for the quad loop and `j`, ..., `j + 3`.
(3) Branch of the simple kinds, at every iteration of the loop over the
sub-meshes: the loop so far has completed, `pointListIndex` is below the
number of allocated point lists, and the iteration completes, whether the
sub-mesh is empty or not.
(4) The call completes, for the simple kinds provided the vertex counter of
line 139 stays within `int32_t`. -/
theorem builder_reads_stay_in_bounds (s : Sentinels) (pick : CollisionRegion F)
    (shapeInfo : ShapeInfo F) (resource : GeometryResource F)
    (hrange : IndicesInRange resource.geometry) :
    (∀ (before : List (FBXMesh F)) (mesh : FBXMesh F) (after : List (FBXMesh F))
        (partsBefore : List FBXMeshPart) (meshPart : FBXMeshPart)
        (partsAfter : List FBXMeshPart),
      resource.geometry.meshes = before ++ mesh :: after →
      mesh.parts = partsBefore ++ meshPart :: partsAfter →
      ∃ (pointCollection : PointCollection F) (i : Nat),
        (meshesLoop before ([], 0)).bind (partsLoop mesh partsBefore)
          = some (pointCollection, i) ∧
        i = pointCollection.length ∧
        (pointCollection ++ [[]])[i]? = some [] ∧
        i + 1 = (pointCollection ++ [[]]).length ∧
        ∃ next, partStep mesh (pointCollection, i) meshPart = some next ∧
          next.2 = next.1.length) ∧
    (∀ mesh ∈ resource.geometry.meshes, ∀ meshPart ∈ mesh.parts,
      (∀ j k : Nat, 3 ∣ j →
        j < meshPart.triangleIndices.length - meshPart.triangleIndices.length % 3 → k < 3 →
        j + k < meshPart.triangleIndices.length - meshPart.triangleIndices.length % 3 ∧
        ∃ p, (meshPart.triangleIndices[j + k]?).bind (vertexAt mesh.vertices) = some p) ∧
      (∀ j k : Nat, 4 ∣ j →
        j < meshPart.quadIndices.length - meshPart.quadIndices.length % 4 → k < 4 →
        j + k < meshPart.quadIndices.length - meshPart.quadIndices.length % 4 ∧
        ∃ p, (meshPart.quadIndices[j + k]?).bind (vertexAt mesh.vertices) = some p)) ∧
    (∀ (type : ShapeType) (before : List (FBXMesh F)) (mesh : FBXMesh F)
        (after : List (FBXMesh F)),
      resource.geometry.meshes = before ++ mesh :: after →
      ∃ state,
        simpleMeshesLoop s type before
            ⟨if type = ShapeType.SIMPLE_COMPOUND then
                List.replicate resource.geometry.meshes.length [] else [[]],
              [], [], 0, 0⟩ = some state ∧
        state.pointListIndex < state.pointCollection.length ∧
        ∃ next, meshStep s type state mesh = some next) ∧
    ((IsSimpleKind shapeInfo.type → totalVertexCount resource.geometry ≤ INT32_MAX) →
      ∃ out, computeShapeInfo s pick shapeInfo resource = some out) := by
  refine ⟨?_, ?_, ?_, ?_⟩
  · intro before mesh after partsBefore meshPart partsAfter hmeshes hparts
    have hmesh : mesh ∈ resource.geometry.meshes := by rw [hmeshes]; simp
    have hbefore : ∀ m ∈ before, m ∈ resource.geometry.meshes := by
      intro m hm
      rw [hmeshes]
      exact List.mem_append_left _ hm
    have hpart : meshPart ∈ mesh.parts := by rw [hparts]; simp
    have hpartsBefore : ∀ p ∈ partsBefore, p ∈ mesh.parts := by
      intro p hp
      rw [hparts]
      exact List.mem_append_left _ hp
    obtain ⟨pointCollection, hstate⟩ := meshesLoop_state_before before mesh partsBefore
      (fun m hm => hrange m (hbefore m hm))
      (fun p hp => hrange mesh hmesh p (hpartsBefore p hp))
    obtain ⟨next, hnext⟩ := partStep_isSome mesh meshPart pointCollection
      (hrange mesh hmesh meshPart hpart).1 (hrange mesh hmesh meshPart hpart).2
    exact ⟨pointCollection, pointCollection.length, hstate, rfl,
      List.getElem?_concat_length _ _, by rw [List.length_append, List.length_singleton],
      (next, next.length), hnext, rfl⟩
  · intro mesh hmesh meshPart hpart
    exact ⟨fun j k hj hlt hk => face_read_isSome mesh.vertices meshPart.triangleIndices 3
        (hrange mesh hmesh meshPart hpart).1 j k hj hlt hk,
      fun j k hj hlt hk => face_read_isSome mesh.vertices meshPart.quadIndices 4
        (hrange mesh hmesh meshPart hpart).2 j k hj hlt hk⟩
  · intro type before mesh after hmeshes
    rw [hmeshes]
    obtain ⟨state, hstate, hlt⟩ := simpleMeshesLoop_state_before s type before mesh after
    exact ⟨state, hstate, hlt, meshStep_isSome s type state mesh hlt⟩
  · intro hfit
    cases hkind : shapeInfo.type with
    | COMPOUND =>
      obtain ⟨hulls, hh⟩ := hullsOfMeshes_isSome resource.geometry.meshes hrange
      have hcompute : computeShapeInfo s pick shapeInfo resource
          = computeCompound pick.transformScale shapeInfo resource := by
        simp [computeShapeInfo, hkind]
      rw [hcompute, computeCompound_eq, hh]
      exact ⟨_, rfl⟩
    | SIMPLE_HULL =>
      have hsimple : IsSimpleKind shapeInfo.type := by rw [hkind]; simp [IsSimpleKind]
      rw [computeShapeInfo_simple s pick shapeInfo resource hsimple]
      exact computeSimple_isSome s _ _ shapeInfo resource (hfit hsimple)
    | SIMPLE_COMPOUND =>
      have hsimple : IsSimpleKind shapeInfo.type := by rw [hkind]; simp [IsSimpleKind]
      rw [computeShapeInfo_simple s pick shapeInfo resource hsimple]
      exact computeSimple_isSome s _ _ shapeInfo resource (hfit hsimple)
    | STATIC_MESH =>
      have hsimple : IsSimpleKind shapeInfo.type := by rw [hkind]; simp [IsSimpleKind]
      rw [computeShapeInfo_simple s pick shapeInfo resource hsimple]
      exact computeSimple_isSome s _ _ shapeInfo resource (hfit hsimple)
    | NONE => exact ⟨shapeInfo, by simp [computeShapeInfo, hkind]⟩
    | BOX => exact ⟨shapeInfo, by simp [computeShapeInfo, hkind]⟩

/-- The theorem `builder_reads_stay_in_bounds` at two assets.  At `hullResource`,
before the third part of `hullMesh`: the first part left the hull [(0,0,0)],
the second was popped, the counter is 1 and the list pushed for the third part
is at position 1.  At `sharedResource` with the kind SimpleCompound, before the
third sub-mesh: the first sub-mesh filled list 0, the empty second one was
skipped, and `pointListIndex` is 1, below the 3 allocated lists. -/
theorem builder_reads_stay_in_bounds_witness :
    IndicesInRange hullResource.geometry ∧
    (meshesLoop [] ([], 0)).bind
        (partsLoop hullMesh [⟨[0, 0, 1, 2], []⟩, ⟨[2, 2], [1]⟩])
      = some ([[⟨0, 0, 0⟩]], 1) ∧
    (∃ (pointCollection : PointCollection ℚ) (i : Nat),
      (meshesLoop [] ([], 0)).bind
          (partsLoop hullMesh [⟨[0, 0, 1, 2], []⟩, ⟨[2, 2], [1]⟩])
        = some (pointCollection, i) ∧
      i = pointCollection.length ∧
      (pointCollection ++ [[]])[i]? = some [] ∧
      i + 1 = (pointCollection ++ [[]]).length ∧
      ∃ next, partStep hullMesh (pointCollection, i) ⟨[], [2, 0, 1, 2]⟩ = some next ∧
        next.2 = next.1.length) ∧
    IndicesInRange sharedResource.geometry ∧
    (simpleMeshesLoop sentinels ShapeType.SIMPLE_COMPOUND
        [⟨[⟨0, 0, 0⟩, ⟨1, 1, 1⟩], []⟩, ⟨[], []⟩]
        (⟨List.replicate sharedResource.geometry.meshes.length [], [], [], 0, 0⟩ :
          BuildState ℚ)).map
        (fun state => (state.pointListIndex, state.pointCollection.length))
      = some (1, 3) ∧
    (∃ state : BuildState ℚ,
      simpleMeshesLoop sentinels ShapeType.SIMPLE_COMPOUND
          [⟨[⟨0, 0, 0⟩, ⟨1, 1, 1⟩], []⟩, ⟨[], []⟩]
          ⟨if ShapeType.SIMPLE_COMPOUND = ShapeType.SIMPLE_COMPOUND then
              List.replicate sharedResource.geometry.meshes.length [] else [[]],
            [], [], 0, 0⟩ = some state ∧
      state.pointListIndex < state.pointCollection.length ∧
      ∃ next, meshStep sentinels ShapeType.SIMPLE_COMPOUND state ⟨[⟨3, 3, 3⟩], []⟩
        = some next) :=
  have hhull : IndicesInRange hullResource.geometry := by unfold IndicesInRange; decide
  have hshared : IndicesInRange sharedResource.geometry := by unfold IndicesInRange; decide
  ⟨hhull, by decide!,
   (builder_reads_stay_in_bounds sentinels (pickOf "hull" ShapeType.COMPOUND)
      (emptyShapeInfo ShapeType.COMPOUND) hullResource hhull).1
    [] hullMesh [] [⟨[0, 0, 1, 2], []⟩, ⟨[2, 2], [1]⟩] ⟨[], [2, 0, 1, 2]⟩ [] rfl rfl,
   hshared, by decide!,
   (builder_reads_stay_in_bounds sentinels (pickOf "shared" ShapeType.SIMPLE_COMPOUND)
      (emptyShapeInfo ShapeType.SIMPLE_COMPOUND) sharedResource hshared).2.2.1
    ShapeType.SIMPLE_COMPOUND [⟨[⟨0, 0, 0⟩, ⟨1, 1, 1⟩], []⟩, ⟨[], []⟩] ⟨[⟨3, 3, 3⟩], []⟩ []
    rfl⟩

end Claims

end CollisionPick

/-! # Domain server: theorems -/

namespace DomainServer

theorem sent_bytes_eq_dropLast {S : Type} (env : Environment S) (agents : List (Agent S))
    (agentPublicAddress : S) (packetData : List Nat) (after : List (Agent S)) (sent : Sent S)
    (h : checkIn env agents agentPublicAddress packetData = some (after, some sent)) :
    sent.bytes
      = (68 :: (writeAgents env agentPublicAddress (env.unpackSocket (packetData.drop 1))
          (packetData.headD 0)
          (env.addOrUpdateAgent agents agentPublicAddress
            (env.unpackSocket (packetData.drop 1)) (packetData.headD 0)) []).1).dropLast := by
  simp only [checkIn] at h
  split at h
  · split at h
    · simp only [Option.some.injEq, Prod.mk.injEq] at h
      obtain ⟨_, hsent⟩ := h
      rw [← hsent, List.dropLast_eq_take]
      simp
    · simp at h
  · simp at h

/-- C20, the code at a failing input: the agent list holds the sender and one
audio mixer. The packet built for the sender is the tag `D` followed by the 13
bytes of the mixer's entry, 14 bytes in all; `send` is given the packet from
its first byte and the length 13, so the last byte of the mixer's local socket
(136) is not sent. -/
theorem reply_lacks_last_byte :
    68 :: (writeAgents workedEnvironment senderAgent.publicSocket senderAgent.localSocket 73
        [senderAgent, mixerAgent] []).1
      = [68, 77, 10, 0, 0, 2, 19, 136, 192, 168, 0, 2, 19, 136] ∧
    checkIn workedEnvironment [senderAgent, mixerAgent] senderAgent.publicSocket senderPacket
      = some ([{ senderAgent with lastRecvTimeUsecs := 1 }, mixerAgent],
          some ⟨senderAgent.publicSocket,
            [68, 77, 10, 0, 0, 2, 19, 136, 192, 168, 0, 2, 19]⟩) := by
  refine ⟨by decide, by decide⟩

end DomainServer
